import Mathlib

/-!
GConf daemon: saved-state log, client table and CORBA value codec.

A shallow embedding of `gconf/gconfd-corba.c` and `gconf/gconfd-dbus.c`.

* C strings (`gchar *`) are lists of characters, one `Char` standing for one byte; a
  `NUL` ends the string (`c_str`).
* A `GHashTable` is the list of its keys (every table of the two files stores each key
  as its own value); lookup, insertion and removal go through the table's equality
  function, the hash function only selects buckets.
* Pointers that may be `NULL` are `Option`s; `GConfValue *` has its own `NULL`
  constructor.
* Calls that leave the process (CORBA, the file system, the clock) are fields of an
  environment record or arguments of the function that makes them.
-/

set_option autoImplicit false

namespace GConf

/-! ## C strings and the C library -/

/-- A C string: the bytes before the terminating NUL. -/
abbrev CString := List Char

/-- The C-string view of a byte buffer: everything before the first NUL byte. -/
def c_str : List Char → CString
  | [] => []
  | c :: cs => if c = Char.ofNat 0 then [] else c :: c_str cs

/-- The `strncmp (text, lit, strlen (lit)) == 0` test of the parsers: `lit` (which holds
no NUL) is an initial segment of `text`. -/
def strncmp_eq : CString → CString → Bool
  | _, [] => true
  | [], _ :: _ => false
  | t :: text, l :: lit => t == l && strncmp_eq text lit

/-- GLib `g_ascii_isspace`: space, form feed, newline, carriage return, horizontal tab. -/
def g_ascii_isspace (c : Char) : Bool :=
  c == ' ' || c == '\t' || c == '\n' || c == '\r' || c == Char.ofNat 12

/-- C `isspace` in the C locale, as used inside `strtoul`: `g_ascii_isspace` plus
vertical tab. -/
def isspace (c : Char) : Bool :=
  g_ascii_isspace c || c == Char.ofNat 11

/-- The loop `while (*p && g_ascii_isspace (*p)) ++p;`. -/
def skip_spaces : CString → CString
  | [] => []
  | c :: cs => if g_ascii_isspace c then skip_spaces cs else c :: cs

/-- Largest `unsigned long` (LP64). -/
def ULONG_MAX : Nat := 2 ^ 64 - 1

/-- Number of values of a `guint`. -/
def GUINT_MODULUS : Nat := 2 ^ 32

/-- Value of a decimal digit character, if it is one. -/
def digit_value (c : Char) : Option Nat :=
  if '0' ≤ c ∧ c ≤ '9' then some (c.toNat - '0'.toNat) else none

/-- The digit loop of `strtoul`: accumulates the decimal value (unbounded here, clamped
by the caller), counts the digits consumed and returns the unread rest. -/
def strtoul_digits : CString → Nat → Nat → Nat × Nat × CString
  | [], acc, n => (acc, n, [])
  | c :: cs, acc, n =>
    match digit_value c with
    | some d => strtoul_digits cs (10 * acc + d) (n + 1)
    | none => (acc, n, c :: cs)

/-- The leading white space that `strtoul` skips. -/
def strtoul_skip : CString → CString
  | [] => []
  | c :: cs => if isspace c then strtoul_skip cs else c :: cs

/-- Result of `strtoul (p, &end, 10)`. -/
structure StrtoulResult where
  /-- the returned `unsigned long` -/
  value : Nat
  /-- the text `end` points at -/
  rest : CString
  /-- Embeds `end == p`: no digits were converted -/
  no_conversion : Bool
  /-- Embeds `errno == ERANGE` -/
  erange : Bool
  deriving DecidableEq, Repr

/-- The optional sign that `strtoul` accepts: whether the value is negated, and the text
after the sign. -/
def strtoul_sign : CString → Bool × CString
  | '-' :: r => (true, r)
  | '+' :: r => (false, r)
  | q => (false, q)

/-- C `strtoul (p, &end, 10)`: optional white space, optional sign, decimal digits.
Without digits nothing is converted and `end == p`; a value above `ULONG_MAX` gives
`ULONG_MAX` with `ERANGE`; a minus sign negates the value as an `unsigned long`. -/
def strtoul (p : CString) : StrtoulResult :=
  let sign := strtoul_sign (strtoul_skip p)
  let digits := strtoul_digits sign.2 0 0
  if digits.2.1 = 0 then ⟨0, p, true, false⟩
  else if digits.1 > ULONG_MAX then ⟨ULONG_MAX, digits.2.2, false, true⟩
  else
    ⟨if sign.1 then (ULONG_MAX + 1 - digits.1) % (ULONG_MAX + 1) else digits.1,
      digits.2.2, false, false⟩

/-! ## Quoting of log fields -/

/-- Body of `gconf_quote_string`: a backslash before every double quote and backslash. -/
def quote_chars : CString → CString
  | [] => []
  | c :: cs =>
    if c = '"' ∨ c = '\\' then '\\' :: c :: quote_chars cs else c :: quote_chars cs

/-- Modelled from the spec: `gconf_quote_string` lives in gconf-internals.c, which is not
among the sources at hand. The spec asks for string fields "quoted/escaped so embedded
spaces and quotes survive unambiguously": the field is put between double quotes, and
every double quote and backslash inside it is preceded by a backslash. -/
def gconf_quote_string (src : CString) : CString :=
  '"' :: (quote_chars src ++ ['"'])

/-- Scanning loop of `gconf_unquote_string_inplace` after the opening quote: returns the
unquoted text and the text after the closing quote, or `none` when the closing quote is
missing. -/
def unquote_chars : CString → Option (CString × CString)
  | [] => none
  | '"' :: rest => some ([], rest)
  | '\\' :: '"' :: rest => (unquote_chars rest).map (fun r => ('"' :: r.1, r.2))
  | '\\' :: '\\' :: rest => (unquote_chars rest).map (fun r => ('\\' :: r.1, r.2))
  | c :: rest => (unquote_chars rest).map (fun r => (c :: r.1, r.2))

/-- Modelled from the spec: `gconf_unquote_string_inplace (str, &end, &err)` lives in
gconf-internals.c, which is not among the sources at hand. It undoes
`gconf_quote_string`: the text must start with a double quote; up to the closing double
quote a backslash followed by a double quote or a backslash stands for that character and
any other character stands for itself. The result is the unquoted text left at `str`
and the text `end` points at (just after the closing quote); `none` stands for `err`
being set (no opening quote, or no closing quote). -/
def gconf_unquote_string_inplace (str : CString) : Option (CString × CString) :=
  match str with
  | '"' :: rest => unquote_chars rest
  | _ => none

/-! ## Hash tables -/

/-- A `GHashTable` whose values are its keys, as the list of its keys. -/
abbrev GHashTable (K : Type) := List K

/-- Embeds `g_hash_table_lookup`: the stored key equal (under the table's equality function) to
the one asked for, or `NULL`. -/
def g_hash_table_lookup {K : Type} (eq : K → K → Bool) (table : GHashTable K) (key : K) :
    Option K :=
  table.find? (fun k => eq k key)

/-- Embeds `g_hash_table_remove`: drops the entry whose key equals the given one. -/
def g_hash_table_remove {K : Type} (eq : K → K → Bool) (table : GHashTable K) (key : K) :
    GHashTable K :=
  table.filter (fun k => !eq k key)

/-- Embeds `g_hash_table_insert (table, key, key)`: adds the key; when an equal key is already
stored the table keeps that key. -/
def g_hash_table_insert {K : Type} (eq : K → K → Bool) (table : GHashTable K) (key : K) :
    GHashTable K :=
  match g_hash_table_lookup eq table key with
  | some _ => table
  | none => table ++ [key]

/-- Embeds `g_hash_table_size`. -/
def g_hash_table_size {K : Type} (table : GHashTable K) : Nat := table.length

/-- GLib `g_str_equal`. -/
def g_str_equal (a b : CString) : Bool := a == b

/-! ## Replay of the saved-state log: parsing -/

/-- One listener record of the saved-state file (`struct _ListenerLogEntry`). -/
structure ListenerLogEntry where
  connection_id : Nat
  ior : CString
  address : CString
  location : CString
  deriving DecidableEq, Repr

/-- Embeds `listener_logentry_equal`. -/
def listener_logentry_equal (a b : ListenerLogEntry) : Bool :=
  a.connection_id == b.connection_id &&
  a.location == b.location &&
  a.ior == b.ior &&
  a.address == b.address

/-- What the scanning part of a line parser found. -/
inductive Scanned (K : Type) where
  /-- the line starts with none of the parser's verbs (`return FALSE`) -/
  | unhandled
  /-- the line has the verb but is malformed: logged and dropped (`return TRUE`) -/
  | ignored
  /-- a complete record: `add` tells ADD from REMOVE -/
  | record (add : Bool) (key : K)
  deriving DecidableEq, Repr

/-- First half of `parse_listener_entry` (up to the check that all fields are there):
verb, connection id, then the quoted database address, location and IOR. -/
def scan_listener_entry (text : CString) : Scanned ListenerLogEntry :=
  let verb : Option (Bool × CString) :=
    if strncmp_eq text "ADD".toList then some (true, text.drop 3)
    else if strncmp_eq text "REMOVE".toList then some (false, text.drop 6)
    else none
  match verb with
  | none => .unhandled
  | some (add, p) =>
    let p := skip_spaces p
    let r := strtoul p
    if r.no_conversion || r.erange then .ignored
    else
      let connection_id := r.value % GUINT_MODULUS
      if connection_id = 0 then .ignored
      else
        match gconf_unquote_string_inplace (skip_spaces r.rest) with
        | none => .ignored
        | some (address, e1) =>
          match gconf_unquote_string_inplace (skip_spaces e1) with
          | none => .ignored
          | some (location, e2) =>
            match gconf_unquote_string_inplace (skip_spaces e2) with
            | none => .ignored
            | some (ior, _) =>
              if address = [] ∨ ior = [] ∨ location = [] then .ignored
              else .record add ⟨connection_id, ior, address, location⟩

/-- Embeds `parse_listener_entry (entries, text)`: the return value tells whether the line was
"handled"; the second component is the table afterwards. -/
def parse_listener_entry (entries : GHashTable ListenerLogEntry) (text : CString) :
    Bool × GHashTable ListenerLogEntry :=
  match scan_listener_entry text with
  | .unhandled => (false, entries)
  | .ignored => (true, entries)
  | .record add lle =>
    match g_hash_table_lookup listener_logentry_equal entries lle with
    | some _ =>
      if add then (true, entries)
      else (true, g_hash_table_remove listener_logentry_equal entries lle)
    | none =>
      if add then (true, g_hash_table_insert listener_logentry_equal entries lle)
      else (true, entries)

/-- First half of `parse_client_entry`: verb, then the quoted IOR. -/
def scan_client_entry (text : CString) : Scanned CString :=
  let verb : Option (Bool × CString) :=
    if strncmp_eq text "CLIENTADD".toList then some (true, text.drop 9)
    else if strncmp_eq text "CLIENTREMOVE".toList then some (false, text.drop 12)
    else none
  match verb with
  | none => .unhandled
  | some (add, p) =>
    match gconf_unquote_string_inplace (skip_spaces p) with
    | none => .ignored
    | some (ior, _) => .record add ior

/-- Embeds `parse_client_entry (clients, text)`. -/
def parse_client_entry (clients : GHashTable CString) (text : CString) :
    Bool × GHashTable CString :=
  match scan_client_entry text with
  | .unhandled => (false, clients)
  | .ignored => (true, clients)
  | .record add ior =>
    match g_hash_table_lookup g_str_equal clients ior with
    | some _ =>
      if add then (true, clients)
      else (true, g_hash_table_remove g_str_equal clients ior)
    | none =>
      if add then (true, g_hash_table_insert g_str_equal clients ior)
      else (true, clients)

/-! ## Replay of the saved-state log: reading the file -/

/-- The character loop of `read_line`: the characters before the next newline (or up to
the last character of the file) and the stream after that newline. -/
def read_line_chars : List Char → List Char × List Char
  | [] => ([], [])
  | c :: f => if c = '\n' then ([], f) else ((c :: (read_line_chars f).1), (read_line_chars f).2)

/-- Embeds `read_line (f)`: the next line without its newline, or `NULL` when no character was
collected (end of file, read error, or an empty line); the second component is the
stream left to read. -/
def read_line (f : List Char) : Option (List Char) × List Char :=
  if (read_line_chars f).1.length = 0 then (none, (read_line_chars f).2)
  else (some (read_line_chars f).1, (read_line_chars f).2)

theorem read_line_chars_rest_le (f : List Char) :
    (read_line_chars f).2.length ≤ f.length := by
  induction f with
  | nil => simp [read_line_chars]
  | cons c f ih =>
    unfold read_line_chars
    split
    · simp
    · simp only [List.length_cons]; omega

theorem read_line_rest_lt (f : List Char) (line rest : List Char)
    (h : read_line f = (some line, rest)) : rest.length < f.length := by
  unfold read_line at h
  split at h
  · simp at h
  · rename_i hne
    simp only [Prod.mk.injEq, Option.some.injEq] at h
    rw [← h.2]
    cases f with
    | nil => simp [read_line_chars] at hne
    | cons c f =>
      unfold read_line_chars
      split
      · simp
      · have := read_line_chars_rest_le f
        simp only [List.length_cons]; omega

/-- The tables built by the read loop of `gconfd_corba_logfile_read`. -/
structure ReplayTables where
  entries : GHashTable ListenerLogEntry
  clients : GHashTable CString
  deriving DecidableEq, Repr

/-- What the loop body of `gconfd_corba_logfile_read` does with one line: the listener
parser first, the client parser only when the listener parser did not handle the line;
a line neither handles is logged and freed. -/
def replay_line (t : ReplayTables) (line : List Char) : ReplayTables :=
  let text := c_str line
  let r := parse_listener_entry t.entries text
  if r.1 then { t with entries := r.2 }
  else { t with clients := (parse_client_entry t.clients text).2 }

/-- The read loop of `gconfd_corba_logfile_read`:
`line = read_line (f); while (line) { ...; line = read_line (f); }`. -/
def read_loop (f : List Char) (t : ReplayTables) : ReplayTables :=
  match h : read_line f with
  | (none, _) => t
  | (some line, rest) => read_loop rest (replay_line t line)
termination_by f.length
decreasing_by exact read_line_rest_lt f line rest h

/-! ## The value model and its CORBA wire form -/

/-- Result of a call that can run into a failed `g_assert`. -/
inductive Outcome (α : Type) where
  /-- the call returned -/
  | returns (a : α)
  /-- an assertion failed: the process is aborted -/
  | aborts
  deriving DecidableEq, Repr

/-- Embeds `GConfValueType`. -/
inductive GConfValueType where
  | GCONF_VALUE_INVALID
  | GCONF_VALUE_STRING
  | GCONF_VALUE_INT
  | GCONF_VALUE_FLOAT
  | GCONF_VALUE_BOOL
  | GCONF_VALUE_SCHEMA
  | GCONF_VALUE_LIST
  | GCONF_VALUE_PAIR
  deriving DecidableEq, Repr

/-- Discriminator of the wire union `ConfigValue`; `out_of_range` stands for any value
of the C enum that is none of the eight declared ones. -/
inductive ConfigValueType where
  | InvalidVal
  | IntVal
  | StringVal
  | FloatVal
  | BoolVal
  | SchemaVal
  | ListVal
  | PairVal
  | out_of_range (raw : Nat)
  deriving DecidableEq, Repr

/-- Element type tag of a wire list (`ConfigBasicValueType`). -/
inductive ConfigBasicValueType where
  | BInvalidVal
  | BIntVal
  | BStringVal
  | BFloatVal
  | BBoolVal
  | BSchemaVal
  | out_of_range (raw : Nat)
  deriving DecidableEq, Repr

/-- Payload of a float value. The codec only copies it; the numeric conversion between
`gdouble` and the float type of the IDL is not part of this model. -/
structure GDouble where
  bits : Nat
  deriving DecidableEq, Repr

/-- Wire schema (`ConfigSchema`). -/
structure ConfigSchema where
  value_type : ConfigValueType
  value_list_type : ConfigValueType
  value_car_type : ConfigValueType
  value_cdr_type : ConfigValueType
  locale : CString
  short_desc : CString
  long_desc : CString
  owner : CString
  encoded_default_value : CString
  deriving DecidableEq, Repr

/-- Wire value (`ConfigValue`, a union selected by `_d`). The elements of a list or pair
are `ConfigBasicValue`s, which both converters cast to `ConfigValue`; the model gives
them that type directly. `out_of_range` is a union whose discriminator is none of the
eight declared ones. -/
inductive ConfigValue where
  | InvalidVal
  | IntVal (int_value : Int)
  | StringVal (string_value : CString)
  | FloatVal (float_value : GDouble)
  | BoolVal (bool_value : Bool)
  | SchemaVal (schema_value : ConfigSchema)
  | ListVal (list_type : ConfigBasicValueType) (seq : List ConfigValue)
  | PairVal (seq : List ConfigValue)
  | out_of_range (d : Nat)

mutual
/-- A `GConfValue *`. `NULL` is the null pointer (no value); `INVALID` is a value whose
type field is `GCONF_VALUE_INVALID`. A string value may be without a string
(`gconf_value_new` leaves it `NULL`); the car and cdr of a pair may be `NULL`. -/
inductive GConfValue where
  | NULL
  | INVALID
  | INT (int_data : Int)
  | STRING (string_data : Option CString)
  | FLOAT (float_data : GDouble)
  | BOOL (bool_data : Bool)
  | SCHEMA (schema_data : GConfSchema)
  | LIST (list_type : GConfValueType) (list : List GConfValue)
  | PAIR (car : GConfValue) (cdr : GConfValue)
/-- A `GConfSchema`: four type descriptors, four optional strings and the default
value (`NULL` when there is none). -/
inductive GConfSchema where
  | mk (type list_type car_type cdr_type : GConfValueType)
      (locale short_desc long_desc owner : Option CString)
      (default_value : GConfValue)
end

/-- Embeds `gconf_schema_get_type`. -/
def GConfSchema.type : GConfSchema → GConfValueType
  | .mk t _ _ _ _ _ _ _ _ => t

/-- Embeds `gconf_schema_get_list_type`. -/
def GConfSchema.list_type : GConfSchema → GConfValueType
  | .mk _ t _ _ _ _ _ _ _ => t

/-- Embeds `gconf_schema_get_car_type`. -/
def GConfSchema.car_type : GConfSchema → GConfValueType
  | .mk _ _ t _ _ _ _ _ _ => t

/-- Embeds `gconf_schema_get_cdr_type`. -/
def GConfSchema.cdr_type : GConfSchema → GConfValueType
  | .mk _ _ _ t _ _ _ _ _ => t

/-- Embeds `gconf_schema_get_locale`. -/
def GConfSchema.locale : GConfSchema → Option CString
  | .mk _ _ _ _ s _ _ _ _ => s

/-- Embeds `gconf_schema_get_short_desc`. -/
def GConfSchema.short_desc : GConfSchema → Option CString
  | .mk _ _ _ _ _ s _ _ _ => s

/-- Embeds `gconf_schema_get_long_desc`. -/
def GConfSchema.long_desc : GConfSchema → Option CString
  | .mk _ _ _ _ _ _ s _ _ => s

/-- Embeds `gconf_schema_get_owner`. -/
def GConfSchema.owner : GConfSchema → Option CString
  | .mk _ _ _ _ _ _ _ s _ => s

/-- Embeds `gconf_schema_get_default_value`. -/
def GConfSchema.default_value : GConfSchema → GConfValue
  | .mk _ _ _ _ _ _ _ _ v => v

/-- The `type` field of a value that is not `NULL` (`GCONF_VALUE_INVALID` is returned for
`NULL`, which callers test first). -/
def GConfValue.type : GConfValue → GConfValueType
  | .NULL => .GCONF_VALUE_INVALID
  | .INVALID => .GCONF_VALUE_INVALID
  | .INT _ => .GCONF_VALUE_INT
  | .STRING _ => .GCONF_VALUE_STRING
  | .FLOAT _ => .GCONF_VALUE_FLOAT
  | .BOOL _ => .GCONF_VALUE_BOOL
  | .SCHEMA _ => .GCONF_VALUE_SCHEMA
  | .LIST _ _ => .GCONF_VALUE_LIST
  | .PAIR _ _ => .GCONF_VALUE_PAIR

/-- The test `val == NULL`. -/
def GConfValue.is_null : GConfValue → Bool
  | .NULL => true
  | _ => false

/-- Functions the codec calls that are defined outside the two files: GLib's UTF-8
check and the string encoding of a schema's default value (gconf-internals.c). -/
structure CodecEnv where
  /-- Embeds `g_utf8_validate (s, -1, NULL)` -/
  g_utf8_validate : CString → Bool
  /-- Embeds `gconf_value_encode` of a value that is not `NULL`; the encoder asserts that the
  result is a string -/
  gconf_value_encode : GConfValue → CString
  /-- Embeds `gconf_value_decode`; `NULL` when the text encodes no value -/
  gconf_value_decode : CString → GConfValue

/-- Embeds `CORBA_string_dup` into a wire string. A CORBA string is never null; where the
argument is `NULL` the wire carries the empty string, as the schema encoder spells out
for its own fields. -/
def CORBA_string_dup (s : Option CString) : CString := s.getD []

/-- Embeds `corba_type_from_gconf_type`; its `default:` branch (`g_assert_not_reached`) has no
`GConfValueType` to reach it. -/
def corba_type_from_gconf_type : GConfValueType → ConfigValueType
  | .GCONF_VALUE_INT => .IntVal
  | .GCONF_VALUE_BOOL => .BoolVal
  | .GCONF_VALUE_FLOAT => .FloatVal
  | .GCONF_VALUE_INVALID => .InvalidVal
  | .GCONF_VALUE_STRING => .StringVal
  | .GCONF_VALUE_SCHEMA => .SchemaVal
  | .GCONF_VALUE_LIST => .ListVal
  | .GCONF_VALUE_PAIR => .PairVal

/-- Embeds `gconf_type_from_corba_type`; the `default:` branch is `g_assert_not_reached ()`. -/
def gconf_type_from_corba_type : ConfigValueType → Outcome GConfValueType
  | .InvalidVal => .returns .GCONF_VALUE_INVALID
  | .StringVal => .returns .GCONF_VALUE_STRING
  | .IntVal => .returns .GCONF_VALUE_INT
  | .FloatVal => .returns .GCONF_VALUE_FLOAT
  | .SchemaVal => .returns .GCONF_VALUE_SCHEMA
  | .BoolVal => .returns .GCONF_VALUE_BOOL
  | .ListVal => .returns .GCONF_VALUE_LIST
  | .PairVal => .returns .GCONF_VALUE_PAIR
  | .out_of_range _ => .aborts

/-- Embeds `gconf_fill_corba_schema_from_gconf_schema`. -/
def gconf_fill_corba_schema_from_gconf_schema (env : CodecEnv) (sc : GConfSchema) :
    ConfigSchema :=
  { value_type := corba_type_from_gconf_type sc.type
    value_list_type := corba_type_from_gconf_type sc.list_type
    value_car_type := corba_type_from_gconf_type sc.car_type
    value_cdr_type := corba_type_from_gconf_type sc.cdr_type
    locale := CORBA_string_dup sc.locale
    short_desc := CORBA_string_dup sc.short_desc
    long_desc := CORBA_string_dup sc.long_desc
    owner := CORBA_string_dup sc.owner
    encoded_default_value :=
      if sc.default_value.is_null then [] else env.gconf_value_encode sc.default_value }

/-- The string setters of `gconf_schema_from_corba_schema`: an empty wire string, or one
that is not valid UTF-8, leaves the field unset. -/
def schema_string (env : CodecEnv) (s : CString) : Option CString :=
  if s ≠ [] then (if env.g_utf8_validate s then some s else none) else none

/-- Embeds `gconf_schema_from_corba_schema`. -/
def gconf_schema_from_corba_schema (env : CodecEnv) (cs : ConfigSchema) :
    Outcome GConfSchema :=
  match gconf_type_from_corba_type cs.value_type with
  | .aborts => .aborts
  | .returns type =>
    match gconf_type_from_corba_type cs.value_list_type with
    | .aborts => .aborts
    | .returns list_type =>
      match gconf_type_from_corba_type cs.value_car_type with
      | .aborts => .aborts
      | .returns car_type =>
        match gconf_type_from_corba_type cs.value_cdr_type with
        | .aborts => .aborts
        | .returns cdr_type =>
          .returns (.mk type list_type car_type cdr_type
            (schema_string env cs.locale) (schema_string env cs.short_desc)
            (schema_string env cs.long_desc) (schema_string env cs.owner)
            (env.gconf_value_decode cs.encoded_default_value))

/-- The first `switch` of the `GCONF_VALUE_LIST` case of `gconf_value_from_corba_value`:
the list type set on the new value (it stays `GCONF_VALUE_INVALID` for `BInvalidVal` and
for the "Bizarre list type" default). -/
def list_type_from_corba (t : ConfigBasicValueType) : GConfValueType :=
  match t with
  | .BIntVal => .GCONF_VALUE_INT
  | .BBoolVal => .GCONF_VALUE_BOOL
  | .BFloatVal => .GCONF_VALUE_FLOAT
  | .BStringVal => .GCONF_VALUE_STRING
  | .BInvalidVal => .GCONF_VALUE_INVALID
  | _ => .GCONF_VALUE_INVALID

mutual
/-- Embeds `gconf_value_from_corba_value`. -/
def gconf_value_from_corba_value (env : CodecEnv) : ConfigValue → Outcome GConfValue
  | .InvalidVal => .returns .NULL
  | .out_of_range _ => .returns .NULL
  | .IntVal i => .returns (.INT i)
  | .StringVal s => .returns (.STRING (if env.g_utf8_validate s then some s else none))
  | .FloatVal f => .returns (.FLOAT f)
  | .BoolVal b => .returns (.BOOL b)
  | .SchemaVal cs =>
    match gconf_schema_from_corba_schema env cs with
    | .aborts => .aborts
    | .returns sc => .returns (.SCHEMA sc)
  | .ListVal t seq =>
    if list_type_from_corba t ≠ .GCONF_VALUE_INVALID then
      match list_from_corba_loop env (list_type_from_corba t) seq [] with
      | .aborts => .aborts
      | .returns list => .returns (.LIST (list_type_from_corba t) list.reverse)
    else .returns (.LIST .GCONF_VALUE_INVALID [])
  | .PairVal [car, cdr] =>
    match gconf_value_from_corba_value env car with
    | .aborts => .aborts
    | .returns a =>
      match gconf_value_from_corba_value env cdr with
      | .aborts => .aborts
      | .returns b => .returns (.PAIR a b)
  | .PairVal _ => .returns (.PAIR .NULL .NULL)
/-- The `while (i < value->_u.list_value.seq._length)` loop: every element is decoded;
a `NULL` result or a result of another type is logged and dropped, anything else is
prepended to `list`. -/
def list_from_corba_loop (env : CodecEnv) (list_type : GConfValueType) :
    List ConfigValue → List GConfValue → Outcome (List GConfValue)
  | [], list => .returns list
  | e :: rest, list =>
    match gconf_value_from_corba_value env e with
    | .aborts => .aborts
    | .returns val =>
      if val.is_null then list_from_corba_loop env list_type rest list
      else if val.type ≠ list_type then list_from_corba_loop env list_type rest list
      else list_from_corba_loop env list_type rest (val :: list)
end

/-- The second `switch` of the `GCONF_VALUE_LIST` case of
`gconf_fill_corba_value_from_gconf_value`: the wire tag for the list type. -/
def corba_list_type (t : GConfValueType) : ConfigBasicValueType :=
  match t with
  | .GCONF_VALUE_INT => .BIntVal
  | .GCONF_VALUE_BOOL => .BBoolVal
  | .GCONF_VALUE_STRING => .BStringVal
  | .GCONF_VALUE_FLOAT => .BFloatVal
  | .GCONF_VALUE_SCHEMA => .BSchemaVal
  | _ => .BInvalidVal

mutual
/-- Embeds `gconf_fill_corba_value_from_gconf_value`, returning the filled `ConfigValue`. -/
def gconf_fill_corba_value_from_gconf_value (env : CodecEnv) : GConfValue → ConfigValue
  | .NULL => .InvalidVal
  | .INT i => .IntVal i
  | .STRING s => .StringVal (CORBA_string_dup s)
  | .FLOAT f => .FloatVal f
  | .BOOL b => .BoolVal b
  | .SCHEMA sc => .SchemaVal (gconf_fill_corba_schema_from_gconf_schema env sc)
  | .LIST t list => .ListVal (corba_list_type t) (fill_corba_list env list)
  | .PAIR car cdr =>
    .PairVal [gconf_fill_corba_value_from_gconf_value env car,
              gconf_fill_corba_value_from_gconf_value env cdr]
  | .INVALID => .InvalidVal
/-- The `while (list != NULL)` loop that fills the wire sequence from the list. -/
def fill_corba_list (env : CodecEnv) : List GConfValue → List ConfigValue
  | [] => []
  | v :: rest => gconf_fill_corba_value_from_gconf_value env v :: fill_corba_list env rest
end

/-- The text of a sequence of complete lines: every line is followed by its newline. -/
def join_lines : List (List Char) → List Char
  | [] => []
  | l :: ls => l ++ '\n' :: join_lines ls

/-! ## Specification-side definitions for the codec -/

/-- A sample environment for evaluating the codec on concrete values: every string of
7-bit characters counts as valid UTF-8, and no default value is ever encoded. -/
def sample_codec_env : CodecEnv :=
  { g_utf8_validate := fun s => s.all (fun c => c.toNat < 128)
    gconf_value_encode := fun _ => []
    gconf_value_decode := fun _ => GConfValue.NULL }

/-- What the spec asks of a decoded list, in its own words: the decodings of the wire
elements that decode to a value of the declared type, in their original order; an
element that decodes to nothing or to another type is dropped. -/
def kept_elements (env : CodecEnv) (list_type : GConfValueType)
    (seq : List ConfigValue) : List GConfValue :=
  seq.filterMap (fun e =>
    match gconf_value_from_corba_value env e with
    | .returns v => if v.is_null = false ∧ v.type = list_type then some v else none
    | .aborts => none)

/-- A string field of a schema that the wire form can carry: unset, or a non-empty
valid UTF-8 string. -/
def schema_string_representable (env : CodecEnv) (s : Option CString) : Prop :=
  s = none ∨ ∃ x, s = some x ∧ x ≠ [] ∧ env.g_utf8_validate x = true

/-- A schema that the wire form can carry: its strings are, and the string encoding of
its default value (the empty string when there is none) decodes to that value again. -/
def schema_representable (env : CodecEnv) (sc : GConfSchema) : Prop :=
  schema_string_representable env sc.locale ∧
  schema_string_representable env sc.short_desc ∧
  schema_string_representable env sc.long_desc ∧
  schema_string_representable env sc.owner ∧
  env.gconf_value_decode
    (if sc.default_value.is_null then [] else env.gconf_value_encode sc.default_value)
    = sc.default_value

mutual
/-- Values for which the round trip through the wire form is shown below: no value,
Int, Bool, Float, a valid UTF-8 String, a representable Schema, a List whose declared
element type is Int, Bool, Float or String and whose elements are representable values
of that type, and a Pair of representable values. -/
def representable (env : CodecEnv) : GConfValue → Prop
  | .NULL => True
  | .INVALID => False
  | .INT _ => True
  | .STRING s => ∃ x, s = some x ∧ env.g_utf8_validate x = true
  | .FLOAT _ => True
  | .BOOL _ => True
  | .SCHEMA sc => schema_representable env sc
  | .LIST t list =>
    (t = .GCONF_VALUE_INT ∨ t = .GCONF_VALUE_BOOL ∨ t = .GCONF_VALUE_FLOAT ∨
      t = .GCONF_VALUE_STRING) ∧ elements_representable env t list
  | .PAIR car cdr => representable env car ∧ representable env cdr
/-- Every element is a representable value of type `t`. -/
def elements_representable (env : CodecEnv) (t : GConfValueType) :
    List GConfValue → Prop
  | [] => True
  | v :: rest =>
    v.is_null = false ∧ v.type = t ∧ representable env v ∧
      elements_representable env t rest
end

/-! ## Databases and their listener registries -/

/-- A CORBA object reference to a client's `ConfigListener`; two references are the same
client when `gconf_CORBA_Object_equal` says so. -/
structure ConfigListener where
  objref : Nat
  deriving DecidableEq, Repr

/-- Embeds `gconf_CORBA_Object_equal`, the equality function of `client_table`. -/
def gconf_CORBA_Object_equal (a b : ConfigListener) : Bool := a == b

/-- What a registry stores for one subscription (`listener_data`): the `Listener` of
gconfd-dbus.c (`parent.type == GCONF_DATABASE_LISTENER_DBUS`, `parent.name`, `who`), or
the listener of the CORBA binding, which holds the client's object reference. -/
inductive ListenerData where
  | corba (name : Option CString) (obj : ConfigListener)
  | dbus (name : Option CString) (who : CString)
  deriving DecidableEq, Repr

/-- One subscription of a registry. -/
structure Subscription where
  cnxn : Nat
  location : CString
  listener_data : ListenerData
  deriving DecidableEq, Repr

/-- Modelled from the spec: the Subscription Registry `GConfListeners` lives in
gconf-listeners.c, which is not among the sources at hand. It maps subscription ids to
listener endpoint and watched path; `next_cnxn` is the next unused id. -/
structure GConfListeners where
  subscriptions : List Subscription
  next_cnxn : Nat
  deriving DecidableEq, Repr

/-- Modelled from the spec: `gconf_listeners_add` (gconf-listeners.c, not among the
sources at hand) "allocates the next unused id, stores the subscription, returns id". -/
def gconf_listeners_add (l : GConfListeners) (location : CString) (data : ListenerData) :
    Nat × GConfListeners :=
  (l.next_cnxn,
    { subscriptions := l.subscriptions ++ [⟨l.next_cnxn, location, data⟩]
      next_cnxn := l.next_cnxn + 1 })

/-- Modelled from the spec: `gconf_listeners_remove_if` (gconf-listeners.c, not among
the sources at hand) is the registry's `remove_where(predicate)`: "bulk removal", it
drops every subscription for which the predicate, called with the location, the id and
the listener data, returns `TRUE`. -/
def gconf_listeners_remove_if (l : GConfListeners)
    (predicate : CString → Nat → ListenerData → Bool) : GConfListeners :=
  { l with
    subscriptions :=
      l.subscriptions.filter (fun s => !predicate s.location s.cnxn s.listener_data) }

/-- The fields of a `GConfDatabase` that the two files use: its persistent name (the
address it was obtained with) and its registry, which may be `NULL`. -/
structure GConfDatabase where
  persistent_name : CString
  listeners : Option GConfListeners
  deriving DecidableEq, Repr

/-- The subscriptions of a database (none when its registry is `NULL`). -/
def GConfDatabase.subscriptions (db : GConfDatabase) : List Subscription :=
  match db.listeners with
  | some l => l.subscriptions
  | none => []

/-! ## The D-Bus binding: client table -/

namespace DBus

/-- The daemon state that gconfd-dbus.c reads and writes: `client_hash` (`NULL` until the
first client is added), the default database and the list of the other databases. -/
structure Daemon where
  client_hash : Option (GHashTable CString)
  default_db : GConfDatabase
  db_list : List GConfDatabase
  deriving DecidableEq, Repr

/-- Embeds `add_client (connection, name)` of gconfd-dbus.c. -/
def add_client (s : Daemon) (name : CString) : Daemon :=
  let client_hash := s.client_hash.getD []
  match g_hash_table_lookup g_str_equal client_hash name with
  | some _ => { s with client_hash := some client_hash }
  | none => { s with client_hash := some (g_hash_table_insert g_str_equal client_hash name) }

/-- Embeds `remove_listener_predicate`: a D-Bus listener owned by `name`. -/
def remove_listener_predicate (_location : CString) (_cnxn_id : Nat)
    (listener_data : ListenerData) (name : CString) : Bool :=
  match listener_data with
  | .corba _ _ => false
  | .dbus _ who => who == name

/-- Embeds `remove_listeners (db, name)`. -/
def remove_listeners (db : GConfDatabase) (name : CString) : GConfDatabase :=
  match db.listeners with
  | some l =>
    { db with
      listeners :=
        some (gconf_listeners_remove_if l
          (fun location cnxn data => remove_listener_predicate location cnxn data name)) }
  | none => db

/-- Embeds `remove_client (connection, message)` of gconfd-dbus.c, `name` being the string
argument of the message. -/
def remove_client (s : Daemon) (name : CString) : Daemon :=
  match s.client_hash with
  | none => s
  | some client_hash =>
    match g_hash_table_lookup g_str_equal client_hash name with
    | none => s
    | some _ =>
      { client_hash := some (g_hash_table_remove g_str_equal client_hash name)
        default_db := remove_listeners s.default_db name
        db_list := s.db_list.map (fun db => remove_listeners db name) }

end DBus

/-! ## The CORBA binding: log files, client table, stale-client sweep -/

namespace Corba

/-- The three files of the state directory: `saved_state`, `saved_state.tmp` and
`saved_state.orig`; `none` when the file does not exist. -/
structure LogFiles where
  logfile : Option (List Char)
  tmpfile : Option (List Char)
  origfile : Option (List Char)
  deriving DecidableEq, Repr

/-- The daemon state that gconfd-corba.c reads and writes. `append_handle` is the open
`FILE *` of the running log, given by the text written to it and not yet flushed. -/
structure Daemon where
  client_table : Option (GHashTable ConfigListener)
  append_handle : Option (List Char)
  files : LogFiles
  default_db : Option GConfDatabase
  db_list : List GConfDatabase
  need_log_cleanup : Bool
  deriving DecidableEq, Repr

/-- The system calls of `gconfd_corba_logfile_save` that can fail. -/
inductive SaveCall where
  | open_tmp
  | write_tmp
  | close_tmp
  | rename_aside
  | rename_into_place
  | rename_restore
  deriving DecidableEq, Repr

/-- What lies outside the process: the ORB, the clients and the C library's file
calls. A peer or a call gives the same answer whenever it is asked. -/
structure Env where
  /-- Embeds `gconf_object_to_string`; `none` when it fails (error set, or `NULL`) -/
  gconf_object_to_string : ConfigListener → Option CString
  /-- Embeds `CORBA_ORB_string_to_object`; `none` for the nil object -/
  CORBA_ORB_string_to_object : CString → Option ConfigListener
  /-- Embeds `CORBA_Object_non_existent`; `none` when the call raises an exception -/
  CORBA_Object_non_existent : ConfigListener → Option Bool
  /-- Embeds `ConfigListener_drop_all_caches` returns without exception -/
  ConfigListener_drop_all_caches : ConfigListener → Bool
  /-- Embeds `ConfigListener_update_listener` returns without exception -/
  ConfigListener_update_listener : ConfigListener → Bool
  /-- Embeds `gconfd_obtain_database` can resolve the address -/
  source_resolves : CString → Bool
  /-- Embeds `fopen (logfile, "a")` succeeds -/
  fopen_ok : Bool
  /-- Embeds `fprintf (append_handle, ...)` succeeds -/
  fprintf_ok : Bool
  /-- Embeds `fflush (append_handle)` succeeds -/
  fflush_ok : Bool
  /-- Embeds `fclose (append_handle)` succeeds -/
  fclose_ok : Bool
  /-- the system call of `gconfd_corba_logfile_save` fails -/
  save_call_fails : SaveCall → Bool

/-- Embeds `close_append_handle`: `fclose` writes out what is still buffered. -/
def close_append_handle (env : Env) (s : Daemon) : Daemon :=
  match s.append_handle with
  | some buffer =>
    { s with
      append_handle := none
      files :=
        if env.fclose_ok then
          { s.files with logfile := some (s.files.logfile.getD [] ++ buffer) }
        else s.files }
  | none => s

/-- Embeds `open_append_handle`: opens the log for appending (creating it) unless it is open. -/
def open_append_handle (env : Env) (s : Daemon) : Bool × Daemon :=
  match s.append_handle with
  | none =>
    if env.fopen_ok then
      (true, { s with
        append_handle := some []
        files := { s.files with logfile := some (s.files.logfile.getD []) } })
    else (false, s)
  | some _ => (true, s)

/-- Embeds `fprintf (append_handle, ...)` followed by `fflush (append_handle)` on an open
handle: `false` when either fails. -/
def write_and_flush (env : Env) (s : Daemon) (text : List Char) : Bool × Daemon :=
  if env.fprintf_ok then
    let s1 := { s with append_handle := some (s.append_handle.getD [] ++ text) }
    if env.fflush_ok then
      (true, { s1 with
        append_handle := some []
        files :=
          { s1.files with
            logfile := some (s1.files.logfile.getD [] ++ s1.append_handle.getD []) } })
    else (false, s1)
  else (false, s)

/-- The line of a client record, without its newline. -/
def client_record_text (add : Bool) (ior : CString) : List Char :=
  (if add then "CLIENTADD".toList else "CLIENTREMOVE".toList) ++ ' ' ::
    gconf_quote_string ior

/-- The record `"%s %s\n"` that `log_client_change` prints. -/
def client_record (add : Bool) (ior : CString) : List Char :=
  client_record_text add ior ++ ['\n']

/-- Embeds `log_client_change (client, add)`. -/
def log_client_change (env : Env) (s : Daemon) (client : ConfigListener) (add : Bool) :
    Daemon :=
  match env.gconf_object_to_string client with
  | none => s
  | some ior =>
    match open_append_handle env s with
    | (false, s1) => s1
    | (true, s1) => (write_and_flush env s1 (client_record add ior)).2

/-- Embeds `log_client_add`. -/
def log_client_add (env : Env) (s : Daemon) (client : ConfigListener) : Daemon :=
  log_client_change env s client true

/-- Embeds `log_client_remove`. -/
def log_client_remove (env : Env) (s : Daemon) (client : ConfigListener) : Daemon :=
  log_client_change env s client false

/-- Embeds `add_client (client)` of gconfd-corba.c. -/
def add_client (env : Env) (s : Daemon) (client : ConfigListener) : Daemon :=
  let s := { s with need_log_cleanup := true }
  let client_table := s.client_table.getD []
  match g_hash_table_lookup gconf_CORBA_Object_equal client_table client with
  | some _ => { s with client_table := some client_table }
  | none =>
    log_client_add env
      { s with
        client_table :=
          some (g_hash_table_insert gconf_CORBA_Object_equal client_table client) }
      client

/-- Embeds `remove_client (client)` of gconfd-corba.c. -/
def remove_client (env : Env) (s : Daemon) (client : ConfigListener) : Daemon :=
  let s := { s with need_log_cleanup := true }
  match s.client_table with
  | none => s
  | some client_table =>
    match g_hash_table_lookup gconf_CORBA_Object_equal client_table client with
    | none => s
    | some old_client =>
      log_client_remove env
        { s with
          client_table :=
            some (g_hash_table_remove gconf_CORBA_Object_equal client_table old_client) }
        old_client

/-- Embeds `list_clients`: `hash_listify_func` prepends every client of the table. -/
def list_clients (s : Daemon) : List ConfigListener :=
  match s.client_table with
  | none => []
  | some client_table => client_table.foldl (fun clients value => value :: clients) []

/-- The loop body of `gconfd_corba_drop_old_clients`: the probe; an exception counts as
"does not exist"; a stale client is removed. -/
def drop_old_client (env : Env) (s : Daemon) (cl : ConfigListener) : Daemon :=
  let result : Bool :=
    match env.CORBA_Object_non_existent cl with
    | some result => result
    | none => true
  if result then remove_client env s cl else s

/-- Embeds `gconfd_corba_drop_old_clients`. -/
def gconfd_corba_drop_old_clients (env : Env) (s : Daemon) : Daemon :=
  (list_clients s).foldl (drop_old_client env) s

/-- Embeds `gconfd_corba_client_count`. -/
def gconfd_corba_client_count (s : Daemon) : Nat :=
  match s.client_table with
  | none => 0
  | some client_table => g_hash_table_size client_table

end Corba

/-! ## The CORBA binding: listener records, restoring and compacting the log -/

namespace Corba

/-- The character of a decimal digit. -/
def digit_char (d : Nat) : Char := Char.ofNat ('0'.toNat + d)

/-- The digits of `n`, most significant first, in front of `acc`; `fuel` bounds the
number of digits. -/
def fmt_u_digits : Nat → Nat → List Char → List Char
  | 0, _, acc => acc
  | fuel + 1, n, acc =>
    if n < 10 then digit_char n :: acc
    else fmt_u_digits fuel (n / 10) (digit_char (n % 10) :: acc)

/-- Embeds `printf ("%u", n)` for a `guint`: at most ten decimal digits. -/
def fmt_u (n : Nat) : List Char := fmt_u_digits 10 (n % GUINT_MODULUS) []

/-- The line of a listener record, without its newline. -/
def listener_record_text (add : Bool) (connection_id : Nat)
    (db_name location ior : CString) : List Char :=
  (if add then "ADD".toList else "REMOVE".toList) ++ ' ' ::
    (fmt_u connection_id ++ ' ' ::
      (gconf_quote_string db_name ++ ' ' ::
        (gconf_quote_string location ++ ' ' :: gconf_quote_string ior)))

/-- The record `"%s %u %s %s %s\n"` that `gconfd_logfile_change_listener` prints. -/
def listener_record (add : Bool) (connection_id : Nat) (db_name location ior : CString) :
    List Char :=
  listener_record_text add connection_id db_name location ior ++ ['\n']

/-- A database of the daemon: the default database (what `gconfd_lookup_database (NULL)`
returns) or the database at a position of the database list. -/
inductive DbRef where
  | default_db
  | listed (i : Nat)
  deriving DecidableEq, Repr

/-- The database a reference points to. -/
def get_db (s : Daemon) : DbRef → Option GConfDatabase
  | .default_db => s.default_db
  | .listed i => s.db_list[i]?

/-- Stores a database back where the reference points. -/
def set_db (s : Daemon) (ref : DbRef) (db : GConfDatabase) : Daemon :=
  match ref with
  | .default_db => { s with default_db := some db }
  | .listed i => { s with db_list := s.db_list.set i db }

/-- The name under which `gconfd_logfile_change_listener` logs a database: `def` when
`db == gconfd_lookup_database (NULL)`, else `gconf_database_get_persistent_name (db)`. -/
def db_log_name (s : Daemon) (db : DbRef) : CString :=
  if db = DbRef.default_db then "def".toList
  else ((get_db s db).map (fun d => d.persistent_name)).getD []

/-- Embeds `gconfd_logfile_change_listener (db, add, connection_id, listener, where, &err)`;
the first component is the return value. -/
def gconfd_logfile_change_listener (env : Env) (s : Daemon) (db : DbRef) (add : Bool)
    (connection_id : Nat) (listener : ConfigListener) (location : CString) :
    Bool × Daemon :=
  match open_append_handle env s with
  | (false, s1) => (false, s1)
  | (true, s1) =>
    match env.gconf_object_to_string listener with
    | none => (false, s1)
    | some ior =>
      write_and_flush env s1
        (listener_record add connection_id (db_log_name s1 db) location ior)

/-- Modelled from the spec: `gconf_database_corba_readd_listener` lives in
gconf-database-corba.c, which is not among the sources at hand. Restoring a listener
is to "call `add` on the Registry to mint a new id": the subscription is added to the
registry of the database under the next unused id, which is returned. -/
def gconf_database_corba_readd_listener (s : Daemon) (ref : DbRef) (cl : ConfigListener)
    (name : CString) (location : CString) : Nat × Daemon :=
  match get_db s ref with
  | none => (0, s)
  | some db =>
    let r := gconf_listeners_add (db.listeners.getD ⟨[], 1⟩) location
      (ListenerData.corba (some name) cl)
    (r.1, set_db s ref { db with listeners := some r.2 })

/-- Position of the database with the given persistent name in the database list. -/
def find_database : List GConfDatabase → CString → Option Nat
  | [], _ => none
  | db :: rest, address =>
    if db.persistent_name = address then some 0
    else (find_database rest address).map (fun i => i + 1)

/-- Modelled from the spec: `gconfd_obtain_database` lives in gconfd.c, which is not
among the sources at hand. `obtain_database(address) -> Result<Database, Error>`: the
database already listed under the address, or a new one (with an empty registry) added
to the list when the address resolves, or `NULL`. -/
def gconfd_obtain_database (env : Env) (s : Daemon) (address : CString) :
    Option DbRef × Daemon :=
  match find_database s.db_list address with
  | some i => (some (DbRef.listed i), s)
  | none =>
    if env.source_resolves address then
      (some (DbRef.listed s.db_list.length),
        { s with db_list := s.db_list ++ [⟨address, some ⟨[], 1⟩⟩] })
    else (none, s)

/-- Embeds `restore_client (ior)`. -/
def restore_client (env : Env) (s : Daemon) (ior : CString) : Daemon :=
  match env.CORBA_ORB_string_to_object ior with
  | none => s
  | some cl =>
    if env.ConfigListener_drop_all_caches cl then add_client env s cl else s

/-- Embeds `restore_listener (db, lle)`. -/
def restore_listener (env : Env) (s : Daemon) (db : DbRef) (lle : ListenerLogEntry) :
    Daemon :=
  match env.CORBA_ORB_string_to_object lle.ior with
  | none => s
  | some cl =>
    let s1 :=
      (gconfd_logfile_change_listener env s db false lle.connection_id cl lle.location).2
    let r := gconf_database_corba_readd_listener s1 db cl "from-saved-state".toList
      lle.location
    if env.ConfigListener_update_listener cl then
      (gconfd_logfile_change_listener env r.2 db true r.1 cl lle.location).2
    else r.2

/-- Embeds `listener_logentry_restore_and_destroy_foreach`. -/
def listener_logentry_restore_and_destroy_foreach (env : Env) (s : Daemon)
    (lle : ListenerLogEntry) : Daemon :=
  let r : Option DbRef × Daemon :=
    if lle.address = "def".toList then
      (if s.default_db.isSome then some DbRef.default_db else none, s)
    else gconfd_obtain_database env s lle.address
  match r.1 with
  | none => r.2
  | some db => restore_listener env r.2 db lle

/-- Embeds `gconfd_corba_logfile_read`: the running log is closed, the file is read into the
two tables, the surviving clients are restored, then the surviving listeners. Without
a file at the log path nothing is restored. -/
def gconfd_corba_logfile_read (env : Env) (s : Daemon) : Daemon :=
  let s0 := close_append_handle env s
  match s0.files.logfile with
  | none => s0
  | some f =>
    let t := read_loop f ⟨[], []⟩
    let s1 := t.clients.foldl (restore_client env) s0
    t.entries.foldl (listener_logentry_restore_and_destroy_foreach env) s1

/-- Embeds `log_clients_foreach`. -/
def log_clients_foreach (env : Env) (data : List Char) (client : ConfigListener) :
    List Char :=
  match env.gconf_object_to_string client with
  | none => data
  | some ior => data ++ ("CLIENTADD ".toList ++ (gconf_quote_string ior ++ ['\n']))

/-- Embeds `log_clients_to_string`. -/
def log_clients_to_string (env : Env) (s : Daemon) (str : List Char) : List Char :=
  match s.client_table with
  | none => str
  | some client_table => client_table.foldl (log_clients_foreach env) str

/-- Modelled from the spec: `gconf_database_log_listeners_to_string` lives in
gconf-database.c, which is not among the sources at hand. Compaction "serializes the
entire current Registry" state: one ADD record per CORBA subscription of the database,
in the format of `gconfd_logfile_change_listener` (which the source asks to keep in
sync), under the name `def` for the default database. -/
def gconf_database_log_listeners_to_string (env : Env) (db : Option GConfDatabase)
    (is_default : Bool) (str : List Char) : List Char :=
  match db with
  | none => str
  | some d =>
    d.subscriptions.foldl (fun acc sub =>
      match sub.listener_data with
      | .corba _ obj =>
        match env.gconf_object_to_string obj with
        | some ior =>
          acc ++ listener_record true sub.cnxn
            (if is_default then "def".toList else d.persistent_name) sub.location ior
        | none => acc
      | .dbus _ _ => acc) str

/-- The text `saveme` that `gconfd_corba_logfile_save` builds: the clients, the
listeners of the default database, the listeners of the other databases. -/
def saved_state_text (env : Env) (s : Daemon) : List Char :=
  s.db_list.foldl (fun acc db => gconf_database_log_listeners_to_string env (some db) false acc)
    (gconf_database_log_listeners_to_string env s.default_db true
      (log_clients_to_string env s []))

/-- The places at which `gconfd_corba_logfile_save` can be interrupted (the process is
killed), named by the last step that was completed. -/
inductive SavePoint where
  /-- the running log is closed, the text to save is built -/
  | started
  /-- Embeds `open (tmpfile, O_WRONLY | O_CREAT | O_TRUNC)` has returned -/
  | tmp_opened
  /-- Embeds `write` has returned -/
  | tmp_written
  /-- Embeds `close (fd)` has returned: the temp file is complete -/
  | tmp_closed
  /-- the old log, if there was one, is renamed to `saved_state.orig` -/
  | moved_aside
  /-- the temp file is renamed to the log path -/
  | moved_into_place
  /-- the aside copy is unlinked: the function has run to its end -/
  | finished
  deriving DecidableEq, Repr

/-- Embeds `gconfd_corba_logfile_save`, run until the point `stop` (or until the function leaves
through `out:` after a failed call): the state of the process and of the files at that
moment. `SavePoint.finished` is the uninterrupted run. -/
def gconfd_corba_logfile_save (env : Env) (stop : SavePoint) (s : Daemon) : Daemon :=
  let s0 := close_append_handle env s
  let saveme := saved_state_text env s0
  if stop = SavePoint.started then s0
  else if env.save_call_fails SaveCall.open_tmp then s0
  else
    let s1 := { s0 with files := { s0.files with tmpfile := some [] } }
    if stop = SavePoint.tmp_opened then s1
    else if env.save_call_fails SaveCall.write_tmp then s1
    else
      let s2 := { s1 with files := { s1.files with tmpfile := some saveme } }
      if stop = SavePoint.tmp_written then s2
      else if env.save_call_fails SaveCall.close_tmp then s2
      else if stop = SavePoint.tmp_closed then s2
      else
        let log_exists := s2.files.logfile.isSome
        if log_exists && env.save_call_fails SaveCall.rename_aside then s2
        else
          let s3 :=
            if log_exists then
              { s2 with files := { s2.files with origfile := s2.files.logfile, logfile := none } }
            else s2
          if stop = SavePoint.moved_aside then s3
          else if env.save_call_fails SaveCall.rename_into_place then
            (if log_exists && !env.save_call_fails SaveCall.rename_restore then
              { s3 with files := { s3.files with logfile := s3.files.origfile, origfile := none } }
            else s3)
          else
            let s4 :=
              { s3 with files := { s3.files with logfile := s3.files.tmpfile, tmpfile := none } }
            if stop = SavePoint.moved_into_place then s4
            else if log_exists then { s4 with files := { s4.files with origfile := none } }
            else s4

end Corba

/-! ## Notions used in the statements about replaying twice -/

namespace Corba

/-- A text of decimal digit characters. -/
def all_digits (ds : List Char) : Prop := ∀ c ∈ ds, ∃ d, d < 10 ∧ c = digit_char d

/-- The value that the digit loop of `strtoul` accumulates over a digit text. -/
def digits_value (ds : List Char) (a : Nat) : Nat :=
  ds.foldl (fun a c => 10 * a + (digit_value c).getD 0) a

/-- The text of the running log once everything written to it is flushed: the file
followed by what the open handle still buffers. -/
def log_text (s : Daemon) : List Char :=
  s.files.logfile.getD [] ++ s.append_handle.getD []

/-- Every file operation on the running log succeeds. -/
def log_writable (env : Env) : Prop :=
  env.fopen_ok = true ∧ env.fprintf_ok = true ∧ env.fflush_ok = true ∧ env.fclose_ok = true

end Corba

/-! ## Sample environment and auxiliary notions for the statements -/

namespace Corba

/-- A sample world for evaluating the CORBA binding on concrete states: the client with
object reference `n` has the IOR `IOR` followed by `n` ones, the client with reference 2
is gone (every call to it fails), every other client answers, every address resolves
and every file operation succeeds. -/
def sample_env : Env :=
  { gconf_object_to_string := fun c => some ("IOR".toList ++ List.replicate c.objref '1')
    CORBA_ORB_string_to_object := fun s =>
      match s with
      | 'I' :: 'O' :: 'R' :: rest =>
        if rest.all (fun c => c == '1') then some ⟨rest.length⟩ else none
      | _ => none
    CORBA_Object_non_existent := fun c => if c.objref = 2 then some true else some false
    ConfigListener_drop_all_caches := fun c => c.objref != 2
    ConfigListener_update_listener := fun c => c.objref != 2
    source_resolves := fun _ => true
    fopen_ok := true
    fprintf_ok := true
    fflush_ok := true
    fclose_ok := true
    save_call_fails := fun _ => false }

end Corba

/-! ## Notions used in the statements about the snapshot -/

namespace Corba

/-- The IORs of the clients of the table, in table order, leaving out the clients whose
object reference cannot be stringified. -/
def client_iors (env : Env) (s : Daemon) : List CString :=
  (s.client_table.getD []).filterMap env.gconf_object_to_string

/-- The client map that replaying client lines builds: `parse_client_entry` applied
to one line after the other. -/
def replay_client_lines (clients : GHashTable CString) (lines : List (List Char)) :
    GHashTable CString :=
  lines.foldl (fun m l => (parse_client_entry m l).2) clients

end Corba

/-! ## Translation of errors into exceptions -/


/-- The codes of `GConfError` that the two `set_exception` functions name in their
`switch`; `out_of_range` stands for any other value of the C enum. -/
inductive GConfError where
  | GCONF_ERROR_SUCCESS
  | GCONF_ERROR_FAILED
  | GCONF_ERROR_NO_SERVER
  | GCONF_ERROR_NO_PERMISSION
  | GCONF_ERROR_BAD_ADDRESS
  | GCONF_ERROR_BAD_KEY
  | GCONF_ERROR_PARSE_ERROR
  | GCONF_ERROR_CORRUPT
  | GCONF_ERROR_TYPE_MISMATCH
  | GCONF_ERROR_IS_DIR
  | GCONF_ERROR_IS_KEY
  | GCONF_ERROR_OVERRIDDEN
  | GCONF_ERROR_OAF_ERROR
  | GCONF_ERROR_LOCAL_ENGINE
  | GCONF_ERROR_LOCK_FAILED
  | GCONF_ERROR_NO_WRITABLE_DATABASE
  | GCONF_ERROR_IN_SHUTDOWN
  | out_of_range (raw : Nat)
  deriving DecidableEq, Repr

/-- A `GError`: its code and its message, which may be `NULL`. -/
structure GError where
  code : GConfError
  message : Option CString
  deriving DecidableEq, Repr

/-- The `err_no` values of a `ConfigException` that `gconf_corba_set_exception` and
`gconfd_corba_check_in_shutdown` assign. -/
inductive ConfigErrorType where
  | ConfigFailed
  | ConfigNoPermission
  | ConfigBadAddress
  | ConfigBadKey
  | ConfigParseError
  | ConfigCorrupt
  | ConfigTypeMismatch
  | ConfigIsDir
  | ConfigIsKey
  | ConfigNoWritableDatabase
  | ConfigInShutdown
  | ConfigOverridden
  | ConfigLockFailed
  deriving DecidableEq, Repr

/-- The user exception of the CORBA interface. -/
structure ConfigException where
  err_no : ConfigErrorType
  message : CString
  deriving DecidableEq, Repr

/-- The `switch (en)` of `gconf_corba_set_exception`; `none` is the branch of
`GCONF_ERROR_OAF_ERROR`, `GCONF_ERROR_LOCAL_ENGINE`, `GCONF_ERROR_NO_SERVER`,
`GCONF_ERROR_SUCCESS` and `default:`, which ends in `g_assert_not_reached ()`. -/
def corba_err_no : GConfError → Option ConfigErrorType
  | .GCONF_ERROR_FAILED => some .ConfigFailed
  | .GCONF_ERROR_NO_PERMISSION => some .ConfigNoPermission
  | .GCONF_ERROR_BAD_ADDRESS => some .ConfigBadAddress
  | .GCONF_ERROR_BAD_KEY => some .ConfigBadKey
  | .GCONF_ERROR_PARSE_ERROR => some .ConfigParseError
  | .GCONF_ERROR_CORRUPT => some .ConfigCorrupt
  | .GCONF_ERROR_TYPE_MISMATCH => some .ConfigTypeMismatch
  | .GCONF_ERROR_IS_DIR => some .ConfigIsDir
  | .GCONF_ERROR_IS_KEY => some .ConfigIsKey
  | .GCONF_ERROR_NO_WRITABLE_DATABASE => some .ConfigNoWritableDatabase
  | .GCONF_ERROR_IN_SHUTDOWN => some .ConfigInShutdown
  | .GCONF_ERROR_OVERRIDDEN => some .ConfigOverridden
  | .GCONF_ERROR_LOCK_FAILED => some .ConfigLockFailed
  | .GCONF_ERROR_OAF_ERROR => none
  | .GCONF_ERROR_LOCAL_ENGINE => none
  | .GCONF_ERROR_NO_SERVER => none
  | .GCONF_ERROR_SUCCESS => none
  | .out_of_range _ => none

/-- What `gconf_corba_set_exception` leaves behind when it returns: its return value,
the exception set on the environment (if any) and `*error` afterwards. -/
structure CorbaSetException where
  retval : Bool
  exception : Option ConfigException
  error_after : Option GError
  deriving DecidableEq, Repr

/-- Embeds `gconf_corba_set_exception (error, ev)`. The argument is `none` for
`error == NULL` and `some none` for `*error == NULL`. `g_return_val_if_fail` logs and
returns `FALSE`; the three `g_assert`s and `g_assert_not_reached` abort. -/
def gconf_corba_set_exception (error : Option (Option GError)) :
    Outcome CorbaSetException :=
  match error with
  | none => .returns ⟨false, none, none⟩
  | some none => .returns ⟨false, none, none⟩
  | some (some e) =>
    if e.code = .GCONF_ERROR_SUCCESS then .returns ⟨false, none, some e⟩
    else
      match e.message with
      | none => .aborts
      | some message =>
        match corba_err_no e.code with
        | none => .aborts
        | some err_no => .returns ⟨true, some ⟨err_no, CORBA_string_dup (some message)⟩, none⟩

namespace DBus

/-- The error names `GCONF_DBUS_ERROR_...` that `gconf_dbus_set_exception` assigns. -/
inductive ErrorName where
  | GCONF_DBUS_ERROR_FAILED
  | GCONF_DBUS_ERROR_NO_PERMISSION
  | GCONF_DBUS_ERROR_BAD_ADDRESS
  | GCONF_DBUS_ERROR_BAD_KEY
  | GCONF_DBUS_ERROR_PARSE_ERROR
  | GCONF_DBUS_ERROR_CORRUPT
  | GCONF_DBUS_ERROR_TYPE_MISMATCH
  | GCONF_DBUS_ERROR_IS_DIR
  | GCONF_DBUS_ERROR_IS_KEY
  | GCONF_DBUS_ERROR_NO_WRITABLE_DATABASE
  | GCONF_DBUS_ERROR_IN_SHUTDOWN
  | GCONF_DBUS_ERROR_OVERRIDDEN
  | GCONF_DBUS_ERROR_LOCK_FAILED
  deriving DecidableEq, Repr

/-- The `switch (en)` of `gconf_dbus_set_exception`; `none` is the branch that ends in
`g_assert_not_reached ()`. -/
def dbus_error_name : GConfError → Option ErrorName
  | .GCONF_ERROR_FAILED => some .GCONF_DBUS_ERROR_FAILED
  | .GCONF_ERROR_NO_PERMISSION => some .GCONF_DBUS_ERROR_NO_PERMISSION
  | .GCONF_ERROR_BAD_ADDRESS => some .GCONF_DBUS_ERROR_BAD_ADDRESS
  | .GCONF_ERROR_BAD_KEY => some .GCONF_DBUS_ERROR_BAD_KEY
  | .GCONF_ERROR_PARSE_ERROR => some .GCONF_DBUS_ERROR_PARSE_ERROR
  | .GCONF_ERROR_CORRUPT => some .GCONF_DBUS_ERROR_CORRUPT
  | .GCONF_ERROR_TYPE_MISMATCH => some .GCONF_DBUS_ERROR_TYPE_MISMATCH
  | .GCONF_ERROR_IS_DIR => some .GCONF_DBUS_ERROR_IS_DIR
  | .GCONF_ERROR_IS_KEY => some .GCONF_DBUS_ERROR_IS_KEY
  | .GCONF_ERROR_NO_WRITABLE_DATABASE => some .GCONF_DBUS_ERROR_NO_WRITABLE_DATABASE
  | .GCONF_ERROR_IN_SHUTDOWN => some .GCONF_DBUS_ERROR_IN_SHUTDOWN
  | .GCONF_ERROR_OVERRIDDEN => some .GCONF_DBUS_ERROR_OVERRIDDEN
  | .GCONF_ERROR_LOCK_FAILED => some .GCONF_DBUS_ERROR_LOCK_FAILED
  | .GCONF_ERROR_OAF_ERROR => none
  | .GCONF_ERROR_LOCAL_ENGINE => none
  | .GCONF_ERROR_NO_SERVER => none
  | .GCONF_ERROR_SUCCESS => none
  | .out_of_range _ => none

/-- The error reply that `gconf_dbus_set_exception` sends. -/
structure ErrorReply where
  name : ErrorName
  message : Option CString
  deriving DecidableEq, Repr

/-- Embeds `gconf_dbus_set_exception (connection, message, error)`: the return value and the
reply sent on the connection. The argument is `none` for `error == NULL` and `some none`
for `*error == NULL`. -/
def gconf_dbus_set_exception (error : Option (Option GError)) :
    Outcome (Bool × Option ErrorReply) :=
  match error with
  | none => .returns (false, none)
  | some none => .returns (false, none)
  | some (some e) =>
    if e.code = .GCONF_ERROR_SUCCESS then .returns (false, none)
    else
      match dbus_error_name e.code with
      | none => .aborts
      | some name => .returns (true, some ⟨name, e.message⟩)

end DBus

/-- A type tag of a wire schema that is one of the eight declared values of
`ConfigValueType`. -/
def ConfigValueType.declared : ConfigValueType → Bool
  | .out_of_range _ => false
  | _ => true

/-- The four type tags of a wire schema are declared values. -/
def schema_tags_declared (cs : ConfigSchema) : Bool :=
  cs.value_type.declared && cs.value_list_type.declared &&
    cs.value_car_type.declared && cs.value_cdr_type.declared

mutual
/-- Every schema inside a wire value, at any depth, has declared type tags. -/
def tags_declared : ConfigValue → Bool
  | .SchemaVal cs => schema_tags_declared cs
  | .ListVal _ seq => all_tags_declared seq
  | .PairVal seq => all_tags_declared seq
  | _ => true
/-- Every schema inside the elements of a wire sequence has declared type tags. -/
def all_tags_declared : List ConfigValue → Bool
  | [] => true
  | e :: rest => tags_declared e && all_tags_declared rest
end

/-! ## Notions used in the statements about a sequence of records -/

/-- The sequence of records holds a record for the key, and the last record for the key
is an ADD. -/
def last_record_is_add {K : Type} [DecidableEq K] (records : List (Bool × K)) (k : K) :
    Bool :=
  match (records.filter (fun r => r.2 = k)).getLast? with
  | some r => r.1
  | none => false

/-- The table update that both line parsers make for a complete record: an ADD of a key
that is not there inserts it, a REMOVE of a key that is there removes it, anything else
leaves the table as it is. -/
def apply_record {K : Type} (eq : K → K → Bool) (m : GHashTable K) (r : Bool × K) :
    GHashTable K :=
  match g_hash_table_lookup eq m r.2 with
  | some _ => if r.1 then m else g_hash_table_remove eq m r.2
  | none => if r.1 then g_hash_table_insert eq m r.2 else m

/-- The listener map that replaying listener lines builds: `parse_listener_entry`
applied to one line after the other. -/
def replay_listener_lines (entries : GHashTable ListenerLogEntry)
    (lines : List (List Char)) : GHashTable ListenerLogEntry :=
  lines.foldl (fun m l => (parse_listener_entry m l).2) entries

/-! ## The hash function of the listener map -/

/-- Embeds `listener_logentry_hash`; GLib's `g_str_hash` is an argument. -/
def listener_logentry_hash (g_str_hash : CString → Nat) (v : ListenerLogEntry) : Nat :=
  (v.connection_id &&& 0xff000000) |||
  (g_str_hash v.ior &&& 0x00ff0000) |||
  (g_str_hash v.address &&& 0x0000ff00) |||
  (g_str_hash v.location &&& 0x000000ff)

/-! ## Notions used in the statements about the error translation -/

/-- The thirteen error codes that have an exception, each with the `err_no` of the
CORBA exception and the D-Bus error name of the same name. -/
def handled_codes : List (GConfError × ConfigErrorType × DBus.ErrorName) :=
  [(.GCONF_ERROR_FAILED, .ConfigFailed, .GCONF_DBUS_ERROR_FAILED),
   (.GCONF_ERROR_NO_PERMISSION, .ConfigNoPermission, .GCONF_DBUS_ERROR_NO_PERMISSION),
   (.GCONF_ERROR_BAD_ADDRESS, .ConfigBadAddress, .GCONF_DBUS_ERROR_BAD_ADDRESS),
   (.GCONF_ERROR_BAD_KEY, .ConfigBadKey, .GCONF_DBUS_ERROR_BAD_KEY),
   (.GCONF_ERROR_PARSE_ERROR, .ConfigParseError, .GCONF_DBUS_ERROR_PARSE_ERROR),
   (.GCONF_ERROR_CORRUPT, .ConfigCorrupt, .GCONF_DBUS_ERROR_CORRUPT),
   (.GCONF_ERROR_TYPE_MISMATCH, .ConfigTypeMismatch, .GCONF_DBUS_ERROR_TYPE_MISMATCH),
   (.GCONF_ERROR_IS_DIR, .ConfigIsDir, .GCONF_DBUS_ERROR_IS_DIR),
   (.GCONF_ERROR_IS_KEY, .ConfigIsKey, .GCONF_DBUS_ERROR_IS_KEY),
   (.GCONF_ERROR_NO_WRITABLE_DATABASE, .ConfigNoWritableDatabase,
     .GCONF_DBUS_ERROR_NO_WRITABLE_DATABASE),
   (.GCONF_ERROR_IN_SHUTDOWN, .ConfigInShutdown, .GCONF_DBUS_ERROR_IN_SHUTDOWN),
   (.GCONF_ERROR_OVERRIDDEN, .ConfigOverridden, .GCONF_DBUS_ERROR_OVERRIDDEN),
   (.GCONF_ERROR_LOCK_FAILED, .ConfigLockFailed, .GCONF_DBUS_ERROR_LOCK_FAILED)]

/-! ## The CORBA binding: the operations of the server object -/

namespace Corba

/-- The daemon as the operations of the `ConfigServer` object see it: the state of
gconfd-corba.c, the answer of `gconfd_in_shutdown ()` and whether `gconf_main_quit ()`
was called (both live in gconfd.c). -/
structure Server where
  daemon : Daemon
  in_shutdown : Bool
  quit_requested : Bool
  deriving DecidableEq, Repr

/-- Embeds `gconfd_corba_check_in_shutdown (ev)`: the return value and the exception set
on `ev`. -/
def gconfd_corba_check_in_shutdown (srv : Server) : Bool × Option ConfigException :=
  if srv.in_shutdown then
    (true, some ⟨ConfigErrorType.ConfigInShutdown,
      CORBA_string_dup (some "config server is currently shutting down".toList)⟩)
  else (false, none)

/-- Embeds `gconfd_get_default_database (servant, ev)`: the database whose object reference
is returned (`none` for `CORBA_OBJECT_NIL`) and the exception on `ev`. The function
changes no state. -/
def gconfd_get_default_database (srv : Server) : Option DbRef × Option ConfigException :=
  match gconfd_corba_check_in_shutdown srv with
  | (true, ev) => (none, ev)
  | (false, ev) =>
    (if srv.daemon.default_db.isSome then some DbRef.default_db else none, ev)

/-- Embeds `gconfd_get_database (servant, address, ev)`. `obtain_error` is the error that
`gconfd_obtain_database` sets when it returns `NULL`. -/
def gconfd_get_database (env : Env) (obtain_error : Option GError) (srv : Server)
    (address : CString) : Outcome (Option DbRef × Option ConfigException × Server) :=
  match gconfd_corba_check_in_shutdown srv with
  | (true, ev) => .returns (none, ev, srv)
  | (false, ev) =>
    match gconfd_obtain_database env srv.daemon address with
    | (some db, d) => .returns (some db, ev, { srv with daemon := d })
    | (none, d) =>
      match gconf_corba_set_exception (some obtain_error) with
      | .aborts => .aborts
      | .returns r =>
        .returns (none, if r.retval then r.exception else ev, { srv with daemon := d })

/-- Embeds `gconfd_add_client (servant, client, ev)`. -/
def gconfd_add_client (env : Env) (srv : Server) (client : ConfigListener) :
    Option ConfigException × Server :=
  match gconfd_corba_check_in_shutdown srv with
  | (true, ev) => (ev, srv)
  | (false, ev) => (ev, { srv with daemon := add_client env srv.daemon client })

/-- Embeds `gconfd_remove_client (servant, client, ev)`. -/
def gconfd_remove_client (env : Env) (srv : Server) (client : ConfigListener) :
    Option ConfigException × Server :=
  match gconfd_corba_check_in_shutdown srv with
  | (true, ev) => (ev, srv)
  | (false, ev) => (ev, { srv with daemon := remove_client env srv.daemon client })

/-- Embeds `gconfd_ping (servant, ev)`; `pid` is what `getpid ()` returns. The function
changes no state. -/
def gconfd_ping (pid : Nat) (srv : Server) : Nat × Option ConfigException :=
  match gconfd_corba_check_in_shutdown srv with
  | (true, ev) => (0, ev)
  | (false, ev) => (pid, ev)

/-- Embeds `gconfd_shutdown (servant, ev)`. -/
def gconfd_shutdown (srv : Server) : Option ConfigException × Server :=
  match gconfd_corba_check_in_shutdown srv with
  | (true, ev) => (ev, srv)
  | (false, ev) => (ev, { srv with quit_requested := true })

end Corba

/-! ## The D-Bus binding: requests on the database -/

namespace DBus

/-- The message names that `gconfd_config_database_handler` tells apart; `other` is any
other message name. -/
inductive MessageName where
  | GCONF_DBUS_CONFIG_DATABASE_DIR_EXISTS
  | GCONF_DBUS_CONFIG_DATABASE_ALL_DIRS
  | GCONF_DBUS_CONFIG_DATABASE_ALL_ENTRIES
  | GCONF_DBUS_CONFIG_DATABASE_LOOKUP
  | GCONF_DBUS_CONFIG_DATABASE_LOOKUP_DEFAULT_VALUE
  | GCONF_DBUS_CONFIG_DATABASE_REMOVE_DIR
  | GCONF_DBUS_CONFIG_DATABASE_ADD_LISTENER
  | GCONF_DBUS_CONFIG_DATABASE_REMOVE_LISTENER
  | GCONF_DBUS_CONFIG_DATABASE_SET
  | GCONF_DBUS_CONFIG_DATABASE_RECURSIVE_UNSET
  | GCONF_DBUS_CONFIG_DATABASE_UNSET
  | GCONF_DBUS_CONFIG_DATABASE_SET_SCHEMA
  | GCONF_DBUS_CONFIG_DATABASE_SYNC
  | GCONF_DBUS_CONFIG_DATABASE_SYNCHRONOUS_SYNC
  | GCONF_DBUS_CONFIG_DATABASE_CLEAR_CACHE
  | other
  deriving DecidableEq, Repr

/-- A request message, as far as the functions of gconfd-dbus.c look at it. -/
structure Message where
  name : MessageName
  /-- Embeds `dbus_message_get_sender (message)` -/
  sender : CString
  /-- whether `dbus_message_get_args` finds the argument types that the function handling
  this message asks for -/
  args_well_formed : Bool
  /-- the database id, the first argument -/
  id : Nat
  /-- the string argument: a directory or a key -/
  text : CString
  /-- the connection id of a remove-listener request -/
  cnxn : Nat
  /-- the entry `name` of the dictionary of an add-listener request -/
  listener_name : Option CString
  deriving DecidableEq, Repr

/-- A message sent on the connection in answer to a request. -/
inductive Reply where
  /-- an error reply with its error name and text -/
  | error (name : ErrorName) (message : Option CString)
  /-- the reply of an add-listener request, with the new connection id -/
  | connection_id (cnxn : Nat)
  /-- any other reply; what it carries comes from the database -/
  | result
  deriving DecidableEq, Repr

/-- What lies outside gconfd-dbus.c: the answer of `gconfd_in_shutdown ()` and the error
that the call into gconf-database.c made for a message sets (`NULL` for none). The
contents of a database are not part of this model; the calls into gconf-database.c are
recorded by name. -/
structure Env where
  in_shutdown : Bool
  database_error : MessageName → Message → Option GError

/-- What handling a request leaves behind: the daemon state, the replies sent on the
connection and the calls made into gconf-database.c, both in order. -/
structure Handled where
  daemon : Daemon
  replies : List Reply
  database_calls : List MessageName
  deriving DecidableEq, Repr

/-- Embeds `DBusHandlerResult`, the two values that the handlers return. -/
inductive DBusHandlerResult where
  | DBUS_HANDLER_RESULT_REMOVE_MESSAGE
  | DBUS_HANDLER_RESULT_ALLOW_MORE_HANDLERS
  deriving DecidableEq, Repr

/-- Embeds `gconfd_dbus_check_in_shutdown (connection, message)`: the return value and the
reply sent. -/
def gconfd_dbus_check_in_shutdown (env : Env) : Bool × List Reply :=
  if env.in_shutdown then
    (true, [Reply.error ErrorName.GCONF_DBUS_ERROR_IN_SHUTDOWN
      (some "The GConf daemon is currently shutting down.".toList)])
  else (false, [])

/-- Embeds `gconf_dbus_get_message_args (connection, message, ...)`: the return value and
the reply sent. -/
def gconf_dbus_get_message_args (message : Message) : Bool × List Reply :=
  if message.args_well_formed then (true, [])
  else
    (false, [Reply.error ErrorName.GCONF_DBUS_ERROR_FAILED
      (some "Got a malformed message.".toList)])

/-- Embeds `gconf_database_from_id (connection, message, id)`: the database (the default
database for the id 0, `NULL` otherwise) and the reply sent. -/
def gconf_database_from_id (s : Daemon) (id : Nat) : Option GConfDatabase × List Reply :=
  if id = 0 then (some s.default_db, [])
  else
    (none, [Reply.error ErrorName.GCONF_DBUS_ERROR_FAILED
      (some "The database could not be accessed.".toList)])

/-- The common course of the thirteen request functions that call into gconf-database.c
(`gconfd_config_database_dir_exists`, `..._all_entries`, `..._all_dirs`, `..._lookup`,
`..._lookup_default_value`, `..._remove_dir`, `..._set`, `..._recursive_unset`,
`..._unset`, `..._set_schema`, `..._synchronous_sync`, `..._sync`, `..._clear_cache`):
the shutdown check, the arguments, the database, the call, then the error reply of
`gconf_dbus_set_exception` or the reply with the result. -/
def database_request (env : Env) (s : Daemon) (message : Message) (call : MessageName) :
    Outcome Handled :=
  match gconfd_dbus_check_in_shutdown env with
  | (true, r) => .returns ⟨s, r, []⟩
  | (false, _) =>
    match gconf_dbus_get_message_args message with
    | (false, r) => .returns ⟨s, r, []⟩
    | (true, _) =>
      match gconf_database_from_id s message.id with
      | (none, r) => .returns ⟨s, r, []⟩
      | (some _, _) =>
        match gconf_dbus_set_exception (some (env.database_error call message)) with
        | .aborts => .aborts
        | .returns (true, some e) => .returns ⟨s, [Reply.error e.name e.message], [call]⟩
        | .returns (true, none) => .returns ⟨s, [], [call]⟩
        | .returns (false, _) => .returns ⟨s, [Reply.result], [call]⟩

/-- Embeds `gconfd_config_database_dir_exists`. -/
def gconfd_config_database_dir_exists (env : Env) (s : Daemon) (m : Message) :
    Outcome Handled :=
  database_request env s m MessageName.GCONF_DBUS_CONFIG_DATABASE_DIR_EXISTS

/-- Embeds `gconfd_config_database_all_entries`. -/
def gconfd_config_database_all_entries (env : Env) (s : Daemon) (m : Message) :
    Outcome Handled :=
  database_request env s m MessageName.GCONF_DBUS_CONFIG_DATABASE_ALL_ENTRIES

/-- Embeds `gconfd_config_database_all_dirs`. -/
def gconfd_config_database_all_dirs (env : Env) (s : Daemon) (m : Message) :
    Outcome Handled :=
  database_request env s m MessageName.GCONF_DBUS_CONFIG_DATABASE_ALL_DIRS

/-- Embeds `gconfd_config_database_lookup`. -/
def gconfd_config_database_lookup (env : Env) (s : Daemon) (m : Message) :
    Outcome Handled :=
  database_request env s m MessageName.GCONF_DBUS_CONFIG_DATABASE_LOOKUP

/-- Embeds `gconfd_config_database_lookup_default_value`. -/
def gconfd_config_database_lookup_default_value (env : Env) (s : Daemon) (m : Message) :
    Outcome Handled :=
  database_request env s m MessageName.GCONF_DBUS_CONFIG_DATABASE_LOOKUP_DEFAULT_VALUE

/-- Embeds `gconfd_config_database_remove_dir`. -/
def gconfd_config_database_remove_dir (env : Env) (s : Daemon) (m : Message) :
    Outcome Handled :=
  database_request env s m MessageName.GCONF_DBUS_CONFIG_DATABASE_REMOVE_DIR

/-- Embeds `gconf_database_dbus_add_listener (db, who, name, where)`: the new connection id
and the database with the listener in its registry; a listener without a name is named
by its connection id. -/
def gconf_database_dbus_add_listener (db : GConfDatabase) (who : CString)
    (name : Option CString) (location : CString) : Nat × GConfDatabase :=
  let listeners := db.listeners.getD ⟨[], 1⟩
  let parent_name : CString :=
    match name with
    | some n => n
    | none => Corba.fmt_u listeners.next_cnxn
  let r := gconf_listeners_add listeners location (ListenerData.dbus (some parent_name) who)
  (r.1, { db with listeners := some r.2 })

/-- Embeds `gconfd_config_database_add_listener`. -/
def gconfd_config_database_add_listener (env : Env) (s : Daemon) (m : Message) :
    Outcome Handled :=
  match gconfd_dbus_check_in_shutdown env with
  | (true, r) => .returns ⟨s, r, []⟩
  | (false, _) =>
    match gconf_dbus_get_message_args m with
    | (false, r) => .returns ⟨s, r, []⟩
    | (true, _) =>
      match gconf_database_from_id s m.id with
      | (none, r) => .returns ⟨s, r, []⟩
      | (some db, _) =>
        let r := gconf_database_dbus_add_listener db m.sender m.listener_name m.text
        .returns ⟨{ s with default_db := r.2 }, [Reply.connection_id r.1], []⟩

/-- Modelled from the spec: `gconf_listeners_remove` lives in gconf-listeners.c, which is
not among the sources at hand. It is the registry's `remove(id)`: it "deletes the
subscription; removing a nonexistent id is a no-op". -/
def gconf_listeners_remove (l : GConfListeners) (cnxn : Nat) : GConfListeners :=
  { l with subscriptions := l.subscriptions.filter (fun sub => sub.cnxn != cnxn) }

/-- Embeds `gconfd_config_database_remove_listener`. -/
def gconfd_config_database_remove_listener (env : Env) (s : Daemon) (m : Message) :
    Outcome Handled :=
  match gconfd_dbus_check_in_shutdown env with
  | (true, r) => .returns ⟨s, r, []⟩
  | (false, _) =>
    match gconf_dbus_get_message_args m with
    | (false, r) => .returns ⟨s, r, []⟩
    | (true, _) =>
      match gconf_database_from_id s m.id with
      | (none, r) => .returns ⟨s, r, []⟩
      | (some db, _) =>
        .returns
          ⟨{ s with
             default_db :=
               { db with
                 listeners := db.listeners.map (fun l => gconf_listeners_remove l m.cnxn) } },
            [Reply.result], []⟩

/-- Embeds `gconfd_config_database_set`. -/
def gconfd_config_database_set (env : Env) (s : Daemon) (m : Message) : Outcome Handled :=
  database_request env s m MessageName.GCONF_DBUS_CONFIG_DATABASE_SET

/-- Embeds `gconfd_config_database_recursive_unset`. -/
def gconfd_config_database_recursive_unset (env : Env) (s : Daemon) (m : Message) :
    Outcome Handled :=
  database_request env s m MessageName.GCONF_DBUS_CONFIG_DATABASE_RECURSIVE_UNSET

/-- Embeds `gconfd_config_database_unset`. -/
def gconfd_config_database_unset (env : Env) (s : Daemon) (m : Message) : Outcome Handled :=
  database_request env s m MessageName.GCONF_DBUS_CONFIG_DATABASE_UNSET

/-- Embeds `gconfd_config_database_set_schema`. -/
def gconfd_config_database_set_schema (env : Env) (s : Daemon) (m : Message) :
    Outcome Handled :=
  database_request env s m MessageName.GCONF_DBUS_CONFIG_DATABASE_SET_SCHEMA

/-- Embeds `gconfd_config_database_synchronous_sync`. -/
def gconfd_config_database_synchronous_sync (env : Env) (s : Daemon) (m : Message) :
    Outcome Handled :=
  database_request env s m MessageName.GCONF_DBUS_CONFIG_DATABASE_SYNCHRONOUS_SYNC

/-- Embeds `gconfd_config_database_sync`. -/
def gconfd_config_database_sync (env : Env) (s : Daemon) (m : Message) : Outcome Handled :=
  database_request env s m MessageName.GCONF_DBUS_CONFIG_DATABASE_SYNC

/-- Embeds `gconfd_config_database_clear_cache`. -/
def gconfd_config_database_clear_cache (env : Env) (s : Daemon) (m : Message) :
    Outcome Handled :=
  database_request env s m MessageName.GCONF_DBUS_CONFIG_DATABASE_CLEAR_CACHE

/-- One branch of `gconfd_config_database_handler`: `add_client` for the sender, then
the request function, then `DBUS_HANDLER_RESULT_REMOVE_MESSAGE`. -/
def handler_branch (request : Daemon → Message → Outcome Handled) (s : Daemon)
    (m : Message) : Outcome (DBusHandlerResult × Handled) :=
  match request (add_client s m.sender) m with
  | .aborts => .aborts
  | .returns h => .returns (DBusHandlerResult.DBUS_HANDLER_RESULT_REMOVE_MESSAGE, h)

/-- Embeds `gconfd_config_database_handler (handler, connection, message, user_data)`. -/
def gconfd_config_database_handler (env : Env) (s : Daemon) (m : Message) :
    Outcome (DBusHandlerResult × Handled) :=
  match m.name with
  | .GCONF_DBUS_CONFIG_DATABASE_DIR_EXISTS =>
    handler_branch (gconfd_config_database_dir_exists env) s m
  | .GCONF_DBUS_CONFIG_DATABASE_ALL_DIRS =>
    handler_branch (gconfd_config_database_all_dirs env) s m
  | .GCONF_DBUS_CONFIG_DATABASE_ALL_ENTRIES =>
    handler_branch (gconfd_config_database_all_entries env) s m
  | .GCONF_DBUS_CONFIG_DATABASE_LOOKUP =>
    handler_branch (gconfd_config_database_lookup env) s m
  | .GCONF_DBUS_CONFIG_DATABASE_LOOKUP_DEFAULT_VALUE =>
    handler_branch (gconfd_config_database_lookup_default_value env) s m
  | .GCONF_DBUS_CONFIG_DATABASE_REMOVE_DIR =>
    handler_branch (gconfd_config_database_remove_dir env) s m
  | .GCONF_DBUS_CONFIG_DATABASE_ADD_LISTENER =>
    handler_branch (gconfd_config_database_add_listener env) s m
  | .GCONF_DBUS_CONFIG_DATABASE_REMOVE_LISTENER =>
    handler_branch (gconfd_config_database_remove_listener env) s m
  | .GCONF_DBUS_CONFIG_DATABASE_SET =>
    handler_branch (gconfd_config_database_set env) s m
  | .GCONF_DBUS_CONFIG_DATABASE_RECURSIVE_UNSET =>
    handler_branch (gconfd_config_database_recursive_unset env) s m
  | .GCONF_DBUS_CONFIG_DATABASE_UNSET =>
    handler_branch (gconfd_config_database_unset env) s m
  | .GCONF_DBUS_CONFIG_DATABASE_SET_SCHEMA =>
    handler_branch (gconfd_config_database_set_schema env) s m
  | .GCONF_DBUS_CONFIG_DATABASE_SYNC =>
    handler_branch (gconfd_config_database_sync env) s m
  | .GCONF_DBUS_CONFIG_DATABASE_SYNCHRONOUS_SYNC =>
    handler_branch (gconfd_config_database_synchronous_sync env) s m
  | .GCONF_DBUS_CONFIG_DATABASE_CLEAR_CACHE =>
    handler_branch (gconfd_config_database_clear_cache env) s m
  | .other =>
    .returns (DBusHandlerResult.DBUS_HANDLER_RESULT_ALLOW_MORE_HANDLERS, ⟨s, [], []⟩)

end DBus

/-! ## Facts about the hash-table model -/

theorem listener_logentry_equal_iff (a b : ListenerLogEntry) :
    listener_logentry_equal a b = true ↔ a = b := by
  cases a; cases b
  simp [listener_logentry_equal]
  tauto

theorem g_str_equal_iff (a b : CString) : g_str_equal a b = true ↔ a = b := by
  simp [g_str_equal]

theorem lookup_eq_none_iff {K : Type} (eq : K → K → Bool)
    (heq : ∀ a b, eq a b = true ↔ a = b) (t : GHashTable K) (k : K) :
    g_hash_table_lookup eq t k = none ↔ k ∉ t := by
  unfold g_hash_table_lookup
  rw [List.find?_eq_none]
  constructor
  · intro h hk
    exact h k hk ((heq k k).2 rfl)
  · intro h x hx hxk
    rw [(heq x k).1 hxk] at hx
    exact h hx

theorem lookup_eq_some_iff {K : Type} (eq : K → K → Bool)
    (heq : ∀ a b, eq a b = true ↔ a = b) (t : GHashTable K) (k old : K) :
    g_hash_table_lookup eq t k = some old ↔ old = k ∧ k ∈ t := by
  constructor
  · intro h
    unfold g_hash_table_lookup at h
    have h1 := List.find?_some h
    have h2 := List.mem_of_find?_eq_some h
    have := (heq old k).1 h1
    subst this
    exact ⟨rfl, h2⟩
  · rintro ⟨rfl, hk⟩
    cases h : g_hash_table_lookup eq t old with
    | none => exact absurd hk ((lookup_eq_none_iff eq heq t old).1 h)
    | some o =>
      unfold g_hash_table_lookup at h
      have h1 := List.find?_some h
      rw [(heq o old).1 h1]

theorem mem_remove_iff {K : Type} (eq : K → K → Bool)
    (heq : ∀ a b, eq a b = true ↔ a = b) (t : GHashTable K) (k x : K) :
    x ∈ g_hash_table_remove eq t k ↔ x ∈ t ∧ x ≠ k := by
  unfold g_hash_table_remove
  rw [List.mem_filter]
  constructor
  · rintro ⟨h1, h2⟩
    refine ⟨h1, fun hxk => ?_⟩
    rw [hxk, (heq k k).2 rfl] at h2
    simp at h2
  · rintro ⟨h1, h2⟩
    refine ⟨h1, ?_⟩
    cases h : eq x k with
    | false => rfl
    | true => exact absurd ((heq x k).1 h) h2

theorem mem_insert_iff {K : Type} (eq : K → K → Bool)
    (heq : ∀ a b, eq a b = true ↔ a = b) (t : GHashTable K) (k x : K) :
    x ∈ g_hash_table_insert eq t k ↔ x ∈ t ∨ x = k := by
  unfold g_hash_table_insert
  cases h : g_hash_table_lookup eq t k with
  | none => simp
  | some o =>
    have := ((lookup_eq_some_iff eq heq t k o).1 h).2
    simp only
    constructor
    · intro hx; exact Or.inl hx
    · rintro (hx | rfl)
      · exact hx
      · exact this

/-! ## Facts about the read loop -/

theorem read_line_chars_append (line rest : List Char) (h : '\n' ∉ line) :
    read_line_chars (line ++ '\n' :: rest) = (line, rest) := by
  induction line with
  | nil => simp [read_line_chars]
  | cons c l ih =>
    have hc : c ≠ '\n' := fun e => h (by simp [e])
    have hl : '\n' ∉ l := fun e => h (by simp [e])
    simp [read_line_chars, hc, ih hl]

theorem read_line_chars_last (line : List Char) (h : '\n' ∉ line) :
    read_line_chars line = (line, []) := by
  induction line with
  | nil => simp [read_line_chars]
  | cons c l ih =>
    have hc : c ≠ '\n' := fun e => h (by simp [e])
    have hl : '\n' ∉ l := fun e => h (by simp [e])
    simp [read_line_chars, hc, ih hl]

theorem read_loop_nil (t : ReplayTables) : read_loop [] t = t := by
  rw [read_loop]; rfl

theorem read_loop_empty_line (rest : List Char) (t : ReplayTables) :
    read_loop ('\n' :: rest) t = t := by
  rw [read_loop]; rfl

theorem read_loop_line (line rest : List Char) (t : ReplayTables)
    (hne : line ≠ []) (hnl : '\n' ∉ line) :
    read_loop (line ++ '\n' :: rest) t = read_loop rest (replay_line t line) := by
  have h : read_line (line ++ '\n' :: rest) = (some line, rest) := by
    unfold read_line
    rw [read_line_chars_append line rest hnl]
    simp [hne]
  rw [read_loop]
  split
  · rename_i h2; rw [h] at h2; simp at h2
  · rename_i l r h2
    rw [h] at h2
    simp only [Prod.mk.injEq, Option.some.injEq] at h2
    rw [h2.1, h2.2]

theorem read_loop_last_line (line : List Char) (t : ReplayTables)
    (hne : line ≠ []) (hnl : '\n' ∉ line) :
    read_loop line t = replay_line t line := by
  have h : read_line line = (some line, []) := by
    unfold read_line
    rw [read_line_chars_last line hnl]
    simp [hne]
  rw [read_loop]
  split
  · rename_i h2; rw [h] at h2; simp at h2
  · rename_i l r h2
    rw [h] at h2
    simp only [Prod.mk.injEq, Option.some.injEq] at h2
    rw [← h2.1, ← h2.2, read_loop_nil]

theorem c_str_of_no_nul (s : List Char) (h : Char.ofNat 0 ∉ s) : c_str s = s := by
  induction s with
  | nil => rfl
  | cons c l ih =>
    have hc : c ≠ Char.ofNat 0 := fun e => h (by simp [e])
    have hl : Char.ofNat 0 ∉ l := fun e => h (by simp [e])
    simp [c_str, hc, ih hl]

/-! ## Replay: an addition and its removal, unknown removals, repeated additions -/

theorem scan_listener_entry_record_fields (text : CString) (add : Bool)
    (k : ListenerLogEntry) (h : scan_listener_entry text = Scanned.record add k) :
    k.connection_id ≠ 0 ∧ k.address ≠ [] ∧ k.location ≠ [] ∧ k.ior ≠ [] := by
  unfold scan_listener_entry at h
  simp only at h
  split at h
  · exact absurd h (by simp)
  · split at h
    · exact absurd h (by simp)
    · split at h
      · exact absurd h (by simp)
      · split at h
        · exact absurd h (by simp)
        · split at h
          · exact absurd h (by simp)
          · split at h
            · exact absurd h (by simp)
            · split at h
              · exact absurd h (by simp)
              · simp only [Scanned.record.injEq] at h
                obtain ⟨_, rfl⟩ := h
                refine ⟨by assumption, ?_, ?_, ?_⟩ <;> (intro e; simp_all)

/-- An ADD line and then a REMOVE line that scan to the same key `k`: both are handled,
the key is not in the resulting map, and from the empty map the result is empty. -/
theorem add_then_remove_of_scanned
    (entries : GHashTable ListenerLogEntry) (add_line remove_line : CString)
    (k : ListenerLogEntry)
    (hadd : scan_listener_entry add_line = Scanned.record true k)
    (hrem : scan_listener_entry remove_line = Scanned.record false k) :
    (k.connection_id ≠ 0 ∧ k.address ≠ [] ∧ k.location ≠ [] ∧ k.ior ≠ []) ∧
    (parse_listener_entry entries add_line).1 = true ∧
    (parse_listener_entry (parse_listener_entry entries add_line).2 remove_line).1 = true ∧
    g_hash_table_lookup listener_logentry_equal
      (parse_listener_entry (parse_listener_entry entries add_line).2 remove_line).2 k
      = none ∧
    k ∉ (parse_listener_entry (parse_listener_entry entries add_line).2 remove_line).2 ∧
    (entries = [] →
      (parse_listener_entry (parse_listener_entry entries add_line).2 remove_line).2 = [])
    := by
  refine ⟨scan_listener_entry_record_fields add_line true k hadd, ?_⟩
  have heq := listener_logentry_equal_iff
  have key : ∀ t : GHashTable ListenerLogEntry,
      k ∉ g_hash_table_remove listener_logentry_equal t k := by
    intro t hk
    exact ((mem_remove_iff _ heq t k k).1 hk).2 rfl
  cases hl : g_hash_table_lookup listener_logentry_equal entries k with
  | some old =>
    have hmem := ((lookup_eq_some_iff _ heq entries k old).1 hl).2
    have h1 : parse_listener_entry entries add_line = (true, entries) := by
      simp [parse_listener_entry, hadd, hl]
    have h2 : parse_listener_entry entries remove_line =
        (true, g_hash_table_remove listener_logentry_equal entries k) := by
      simp [parse_listener_entry, hrem, hl]
    rw [h1]
    simp only [h2]
    refine ⟨trivial, trivial, ?_, key entries, ?_⟩
    · exact (lookup_eq_none_iff _ heq _ k).2 (key entries)
    · intro he; rw [he] at hmem; simp at hmem
  | none =>
    have h1 : parse_listener_entry entries add_line = (true, entries ++ [k]) := by
      simp [parse_listener_entry, hadd, hl, g_hash_table_insert]
    have hl2 : g_hash_table_lookup listener_logentry_equal (entries ++ [k]) k = some k := by
      rw [lookup_eq_some_iff _ heq]; simp
    have h2 : parse_listener_entry (entries ++ [k]) remove_line =
        (true, g_hash_table_remove listener_logentry_equal (entries ++ [k]) k) := by
      simp [parse_listener_entry, hrem, hl2]
    rw [h1]
    simp only [h2]
    refine ⟨trivial, trivial, ?_, key _, ?_⟩
    · exact (lookup_eq_none_iff _ heq _ k).2 (key _)
    · intro he
      rw [he]
      simp [g_hash_table_remove, (heq k k).2 rfl]


/-- A REMOVE line (a CLIENTREMOVE line) that scans to a key which the map does not
contain leaves the map unchanged and is handled; a log of one such record is read into
two empty tables. -/
theorem remove_unknown_of_scanned :
    (∀ (entries : GHashTable ListenerLogEntry) (text : CString) (k : ListenerLogEntry),
      scan_listener_entry text = Scanned.record false k →
      g_hash_table_lookup listener_logentry_equal entries k = none →
      parse_listener_entry entries text = (true, entries)) ∧
    (∀ (clients : GHashTable CString) (text : CString) (ior : CString),
      scan_client_entry text = Scanned.record false ior →
      g_hash_table_lookup g_str_equal clients ior = none →
      parse_client_entry clients text = (true, clients)) ∧
    (∀ (line : List Char) (k : ListenerLogEntry),
      scan_listener_entry line = Scanned.record false k →
      '\n' ∉ line → Char.ofNat 0 ∉ line →
      read_loop (line ++ ['\n']) ⟨[], []⟩ = ⟨[], []⟩ ∧
      read_loop line ⟨[], []⟩ = ⟨[], []⟩) := by
  refine ⟨?_, ?_, ?_⟩
  · intro entries text k hs hl
    simp [parse_listener_entry, hs, hl]
  · intro clients text ior hs hl
    simp [parse_client_entry, hs, hl]
  · intro line k hs hnl hnul
    have hne : line ≠ [] := by
      intro e
      rw [e] at hs
      have hu : scan_listener_entry [] = Scanned.unhandled := by decide
      rw [hu] at hs
      exact Scanned.noConfusion hs
    have hstep : replay_line ⟨[], []⟩ line = ⟨[], []⟩ := by
      simp [replay_line, c_str_of_no_nul line hnul, parse_listener_entry, hs,
        g_hash_table_lookup]
    constructor
    · rw [read_loop_line line [] _ hne hnl, read_loop_nil, hstep]
    · rw [read_loop_last_line line _ hne hnl, hstep]

/-- An ADD line (a CLIENTADD line) that scans to a key which the map already contains
leaves the map unchanged and is handled; parsing the same line twice is parsing it once. -/
theorem add_twice_of_scanned :
    (∀ (entries : GHashTable ListenerLogEntry) (text : CString) (k old : ListenerLogEntry),
      scan_listener_entry text = Scanned.record true k →
      g_hash_table_lookup listener_logentry_equal entries k = some old →
      parse_listener_entry entries text = (true, entries)) ∧
    (∀ (entries : GHashTable ListenerLogEntry) (text : CString) (k : ListenerLogEntry),
      scan_listener_entry text = Scanned.record true k →
      parse_listener_entry (parse_listener_entry entries text).2 text
        = parse_listener_entry entries text) ∧
    (∀ (clients : GHashTable CString) (text : CString) (ior old : CString),
      scan_client_entry text = Scanned.record true ior →
      g_hash_table_lookup g_str_equal clients ior = some old →
      parse_client_entry clients text = (true, clients)) ∧
    (∀ (clients : GHashTable CString) (text : CString) (ior : CString),
      scan_client_entry text = Scanned.record true ior →
      parse_client_entry (parse_client_entry clients text).2 text
        = parse_client_entry clients text) := by
  refine ⟨?_, ?_, ?_, ?_⟩
  · intro entries text k old hs hl
    simp [parse_listener_entry, hs, hl]
  · intro entries text k hs
    cases hl : g_hash_table_lookup listener_logentry_equal entries k with
    | some old => simp [parse_listener_entry, hs, hl]
    | none =>
      have hl2 : g_hash_table_lookup listener_logentry_equal (entries ++ [k]) k = some k := by
        rw [lookup_eq_some_iff _ listener_logentry_equal_iff]; simp
      simp [parse_listener_entry, hs, hl, g_hash_table_insert, hl2]
  · intro clients text ior old hs hl
    simp [parse_client_entry, hs, hl]
  · intro clients text ior hs
    cases hl : g_hash_table_lookup g_str_equal clients ior with
    | some old => simp [parse_client_entry, hs, hl]
    | none =>
      have hl2 : g_hash_table_lookup g_str_equal (clients ++ [ior]) ior = some ior := by
        rw [lookup_eq_some_iff _ g_str_equal_iff]; simp
      simp [parse_client_entry, hs, hl, g_hash_table_insert, hl2]

/-! ## Replay: lines that carry none of the four verbs -/

theorem replay_line_unknown (t : ReplayTables) (line : List Char)
    (h1 : scan_listener_entry (c_str line) = Scanned.unhandled)
    (h2 : scan_client_entry (c_str line) = Scanned.unhandled) :
    replay_line t line = t := by
  simp [replay_line, parse_listener_entry, parse_client_entry, h1, h2]

/-- A non-empty line that starts with none of the four verbs is skipped by the read
loop: the tables are those of the file without that line, whatever complete lines come
before it and whatever follows it. -/
theorem read_loop_skips_unknown_line (before : List (List Char)) (line rest : List Char)
    (t : ReplayTables) (hb : ∀ l ∈ before, '\n' ∉ l)
    (hne : line ≠ []) (hnl : '\n' ∉ line)
    (h1 : scan_listener_entry (c_str line) = Scanned.unhandled)
    (h2 : scan_client_entry (c_str line) = Scanned.unhandled) :
    read_loop (join_lines before ++ (line ++ '\n' :: rest)) t
      = read_loop (join_lines before ++ rest) t := by
  induction before generalizing t with
  | nil =>
    simp only [join_lines, List.nil_append]
    rw [read_loop_line line rest t hne hnl, replay_line_unknown t line h1 h2]
  | cons l ls ih =>
    have hl : '\n' ∉ l := hb l (by simp)
    have hls : ∀ x ∈ ls, '\n' ∉ x := fun x hx => hb x (by simp [hx])
    by_cases hle : l = []
    · subst hle
      simp only [join_lines, List.nil_append, List.cons_append]
      rw [read_loop_empty_line, read_loop_empty_line]
    · simp only [join_lines, List.append_assoc, List.cons_append]
      rw [read_loop_line l _ t hle hl, read_loop_line l _ t hle hl]
      exact ih _ hls

/-- Claim C10, evaluated on a file with an empty second line: `read_line` returns `NULL`
for the empty line, the read loop takes that for the end of the file, and the ADD record
on the third line is never parsed; with the empty line deleted the same file yields the
listener entry. The empty line starts with none of the four verbs. -/
theorem read_loop_stops_at_empty_line :
    scan_listener_entry (c_str []) = Scanned.unhandled ∧
    scan_client_entry (c_str []) = Scanned.unhandled ∧
    read_line "\nADD 5 \"def\" \"/x\" \"IOR1\"\n".toList
      = (none, "ADD 5 \"def\" \"/x\" \"IOR1\"\n".toList) ∧
    read_loop "CLIENTADD \"IOR1\"\n\nADD 5 \"def\" \"/x\" \"IOR1\"\n".toList ⟨[], []⟩
      = ⟨[], ["IOR1".toList]⟩ ∧
    read_loop "CLIENTADD \"IOR1\"\nADD 5 \"def\" \"/x\" \"IOR1\"\n".toList ⟨[], []⟩
      = ⟨[⟨5, "IOR1".toList, "def".toList, "/x".toList⟩], ["IOR1".toList]⟩ := by
  refine ⟨by decide, by decide, by decide, ?_, ?_⟩
  · have e : "CLIENTADD \"IOR1\"\n\nADD 5 \"def\" \"/x\" \"IOR1\"\n".toList
        = "CLIENTADD \"IOR1\"".toList ++
          '\n' :: ('\n' :: "ADD 5 \"def\" \"/x\" \"IOR1\"\n".toList) := by decide
    rw [e, read_loop_line _ _ _ (by decide) (by decide), read_loop_empty_line]
    decide
  · have e : "CLIENTADD \"IOR1\"\nADD 5 \"def\" \"/x\" \"IOR1\"\n".toList
        = "CLIENTADD \"IOR1\"".toList ++
          '\n' :: ("ADD 5 \"def\" \"/x\" \"IOR1\"".toList ++ '\n' :: []) := by decide
    rw [e, read_loop_line _ _ _ (by decide) (by decide),
      read_loop_line _ _ _ (by decide) (by decide), read_loop_nil]
    decide

theorem list_from_corba_loop_eq (env : CodecEnv) (list_type : GConfValueType)
    (seq : List ConfigValue) (list : List GConfValue)
    (hok : ∀ e ∈ seq, gconf_value_from_corba_value env e ≠ Outcome.aborts) :
    list_from_corba_loop env list_type seq list
      = Outcome.returns ((kept_elements env list_type seq).reverse ++ list) := by
  induction seq generalizing list with
  | nil => simp [list_from_corba_loop, kept_elements]
  | cons e rest ih =>
    have he := hok e (by simp)
    have hrest : ∀ x ∈ rest, gconf_value_from_corba_value env x ≠ Outcome.aborts :=
      fun x hx => hok x (by simp [hx])
    rw [list_from_corba_loop]
    cases hd : gconf_value_from_corba_value env e with
    | aborts => exact absurd hd he
    | returns val =>
      simp only
      by_cases hn : val.is_null = true
      · simp [hn, ih _ hrest, kept_elements, hd]
      · by_cases ht : val.type = list_type
        · simp [hn, ht, ih _ hrest, kept_elements, hd]
        · simp [hn, ht, ih _ hrest, kept_elements, hd]

theorem kept_elements_type (env : CodecEnv) (list_type : GConfValueType)
    (seq : List ConfigValue) (v : GConfValue) (hv : v ∈ kept_elements env list_type seq) :
    v.is_null = false ∧ v.type = list_type := by
  unfold kept_elements at hv
  rw [List.mem_filterMap] at hv
  obtain ⟨e, _, he⟩ := hv
  cases hd : gconf_value_from_corba_value env e with
  | aborts => simp [hd] at he
  | returns val =>
    simp only [hd] at he
    split at he
    · rename_i h
      simp only [Option.some.injEq] at he
      rw [← he]; exact h
    · simp at he

/-- Claim C2 fails on the code: for a wire list declared `Int` whose only element is a
schema with a type tag outside the eight value types, `gconf_value_from_corba_value`
does not return a List value. The element is not dropped as undecodable: decoding it
reaches `g_assert_not_reached ()` in `gconf_type_from_corba_type`, and the call ends
there. -/
theorem gconf_value_from_corba_value_list_aborts :
    gconf_value_from_corba_value sample_codec_env
      (ConfigValue.ListVal ConfigBasicValueType.BIntVal
        [ConfigValue.SchemaVal
          ⟨ConfigValueType.out_of_range 99, ConfigValueType.InvalidVal,
           ConfigValueType.InvalidVal, ConfigValueType.InvalidVal, [], [], [], [], []⟩])
      = Outcome.aborts := by
  rfl

/-- The element loop on the other lists: for every wire list with a declared element
type of Int, Bool, Float or String, none of whose elements runs the decoder into the
failed assertion, `gconf_value_from_corba_value` returns a List value of the declared
type whose elements are exactly the decodings of the wire elements that decode to a
value of that type, in their original order (the others are dropped); so every element
of the result is a value of the declared type. -/
theorem gconf_value_from_corba_value_list (env : CodecEnv) (t : ConfigBasicValueType)
    (seq : List ConfigValue)
    (ht : t = ConfigBasicValueType.BIntVal ∨ t = ConfigBasicValueType.BBoolVal ∨
      t = ConfigBasicValueType.BFloatVal ∨ t = ConfigBasicValueType.BStringVal)
    (hok : ∀ e ∈ seq, gconf_value_from_corba_value env e ≠ Outcome.aborts) :
    gconf_value_from_corba_value env (ConfigValue.ListVal t seq)
      = Outcome.returns
          (GConfValue.LIST (list_type_from_corba t)
            (kept_elements env (list_type_from_corba t) seq)) ∧
    (∀ v ∈ kept_elements env (list_type_from_corba t) seq,
      v.is_null = false ∧ v.type = list_type_from_corba t) ∧
    (t = ConfigBasicValueType.BIntVal →
      list_type_from_corba t = GConfValueType.GCONF_VALUE_INT) ∧
    (t = ConfigBasicValueType.BBoolVal →
      list_type_from_corba t = GConfValueType.GCONF_VALUE_BOOL) ∧
    (t = ConfigBasicValueType.BFloatVal →
      list_type_from_corba t = GConfValueType.GCONF_VALUE_FLOAT) ∧
    (t = ConfigBasicValueType.BStringVal →
      list_type_from_corba t = GConfValueType.GCONF_VALUE_STRING) := by
  have hvalid : list_type_from_corba t ≠ GConfValueType.GCONF_VALUE_INVALID := by
    rcases ht with h | h | h | h <;> subst h <;> decide
  refine ⟨?_, fun v hv => kept_elements_type env _ seq v hv, ?_, ?_, ?_, ?_⟩
  · rw [gconf_value_from_corba_value]
    simp only [hvalid, ne_eq, not_false_eq_true, if_true]
    rw [list_from_corba_loop_eq env _ seq [] hok]
    simp
  all_goals (intro h; subst h; rfl)

/-- The element loop on the list of the spec: declared `Int`, holding the integers 1
and 2 around one string element; the string element is dropped. -/
theorem gconf_value_from_corba_value_list_witness :
    gconf_value_from_corba_value sample_codec_env
      (ConfigValue.ListVal ConfigBasicValueType.BIntVal
        [ConfigValue.IntVal 1, ConfigValue.StringVal "a".toList, ConfigValue.IntVal 2])
      = Outcome.returns
          (GConfValue.LIST GConfValueType.GCONF_VALUE_INT
            [GConfValue.INT 1, GConfValue.INT 2]) :=
  (gconf_value_from_corba_value_list sample_codec_env
    ConfigBasicValueType.BIntVal
    [ConfigValue.IntVal 1, ConfigValue.StringVal "a".toList, ConfigValue.IntVal 2]
    (Or.inl rfl)
    (by
      intro e he
      simp only [List.mem_cons, List.mem_singleton, List.not_mem_nil, or_false] at he
      rcases he with h | h | h <;> subst h <;> simp [gconf_value_from_corba_value])).1

theorem gconf_type_roundtrip (t : GConfValueType) :
    gconf_type_from_corba_type (corba_type_from_gconf_type t) = Outcome.returns t := by
  cases t <;> rfl

theorem schema_string_roundtrip (env : CodecEnv) (s : Option CString)
    (h : schema_string_representable env s) :
    schema_string env (CORBA_string_dup s) = s := by
  rcases h with h | ⟨x, h, hne, hv⟩
  · subst h; simp [schema_string, CORBA_string_dup]
  · subst h; simp [schema_string, CORBA_string_dup, hne, hv]

theorem schema_roundtrip (env : CodecEnv) (sc : GConfSchema)
    (h : schema_representable env sc) :
    gconf_schema_from_corba_schema env (gconf_fill_corba_schema_from_gconf_schema env sc)
      = Outcome.returns sc := by
  obtain ⟨h1, h2, h3, h4, h5⟩ := h
  cases sc with
  | mk t lt ct dt l s g o d =>
    simp only [GConfSchema.locale, GConfSchema.short_desc, GConfSchema.long_desc,
      GConfSchema.owner, GConfSchema.default_value] at h1 h2 h3 h4 h5
    simp only [gconf_schema_from_corba_schema, gconf_fill_corba_schema_from_gconf_schema,
      gconf_type_roundtrip, GConfSchema.type, GConfSchema.list_type, GConfSchema.car_type,
      GConfSchema.cdr_type, GConfSchema.locale, GConfSchema.short_desc,
      GConfSchema.long_desc, GConfSchema.owner, GConfSchema.default_value,
      schema_string_roundtrip env _ h1, schema_string_roundtrip env _ h2,
      schema_string_roundtrip env _ h3, schema_string_roundtrip env _ h4, h5]

mutual
/-- Round trip: decoding the wire form of a representable value gives the value back. -/
theorem codec_roundtrip (env : CodecEnv) :
    ∀ v : GConfValue, representable env v →
      gconf_value_from_corba_value env (gconf_fill_corba_value_from_gconf_value env v)
        = Outcome.returns v
  | .NULL, _ => by simp [gconf_fill_corba_value_from_gconf_value, gconf_value_from_corba_value]
  | .INVALID, h => by simp [representable] at h
  | .INT _, _ => by simp [gconf_fill_corba_value_from_gconf_value, gconf_value_from_corba_value]
  | .STRING s, h => by
    simp only [representable] at h
    obtain ⟨x, hs, hv⟩ := h
    subst hs
    simp [gconf_fill_corba_value_from_gconf_value, gconf_value_from_corba_value,
      CORBA_string_dup, hv]
  | .FLOAT _, _ => by
    simp [gconf_fill_corba_value_from_gconf_value, gconf_value_from_corba_value]
  | .BOOL _, _ => by
    simp [gconf_fill_corba_value_from_gconf_value, gconf_value_from_corba_value]
  | .SCHEMA sc, h => by
    simp only [representable] at h
    simp [gconf_fill_corba_value_from_gconf_value, gconf_value_from_corba_value,
      schema_roundtrip env sc h]
  | .LIST t list, h => by
    simp only [representable] at h
    obtain ⟨ht, hl⟩ := h
    have hloop := codec_roundtrip_list env t list [] hl
    have e1 : list_type_from_corba (corba_list_type t) = t := by
      rcases ht with h | h | h | h <;> subst h <;> rfl
    have e2 : t ≠ GConfValueType.GCONF_VALUE_INVALID := by
      rcases ht with h | h | h | h <;> subst h <;> decide
    simp [gconf_fill_corba_value_from_gconf_value, gconf_value_from_corba_value, e1, e2,
      hloop]
  | .PAIR car cdr, h => by
    simp only [representable] at h
    simp [gconf_fill_corba_value_from_gconf_value, gconf_value_from_corba_value,
      codec_roundtrip env car h.1, codec_roundtrip env cdr h.2]
/-- Round trip of the element loop. -/
theorem codec_roundtrip_list (env : CodecEnv) (t : GConfValueType) :
    ∀ (list acc : List GConfValue), elements_representable env t list →
      list_from_corba_loop env t (fill_corba_list env list) acc
        = Outcome.returns (list.reverse ++ acc)
  | [], acc, _ => by simp [fill_corba_list, list_from_corba_loop]
  | v :: rest, acc, h => by
    simp only [elements_representable] at h
    obtain ⟨hn, hty, hv, hr⟩ := h
    simp [fill_corba_list, list_from_corba_loop, codec_roundtrip env v hv, hn, hty,
      codec_roundtrip_list env t rest (v :: acc) hr]
end

/-- Claim C1, evaluated on lists whose declared element type is Schema: the encoder
tags the wire list `BSchemaVal`, the decoder has no case for that tag ("Bizarre list
type"), leaves the list type invalid and drops every element; the result differs from
the value that was encoded. -/
theorem schema_list_roundtrip_fails (env : CodecEnv) (list : List GConfValue) :
    gconf_value_from_corba_value env
      (gconf_fill_corba_value_from_gconf_value env
        (GConfValue.LIST GConfValueType.GCONF_VALUE_SCHEMA list))
      = Outcome.returns (GConfValue.LIST GConfValueType.GCONF_VALUE_INVALID []) ∧
    gconf_value_from_corba_value env
      (gconf_fill_corba_value_from_gconf_value env
        (GConfValue.LIST GConfValueType.GCONF_VALUE_SCHEMA list))
      ≠ Outcome.returns (GConfValue.LIST GConfValueType.GCONF_VALUE_SCHEMA list) := by
  have h : gconf_value_from_corba_value env
      (gconf_fill_corba_value_from_gconf_value env
        (GConfValue.LIST GConfValueType.GCONF_VALUE_SCHEMA list))
      = Outcome.returns (GConfValue.LIST GConfValueType.GCONF_VALUE_INVALID []) := by
    simp [gconf_fill_corba_value_from_gconf_value, gconf_value_from_corba_value,
      corba_list_type, list_type_from_corba]
  refine ⟨h, ?_⟩
  rw [h]
  intro e
  simp at e


/-! ## The client table: stale-client sweep -/

namespace Corba

theorem open_append_handle_client_table (env : Env) (s : Daemon) :
    (open_append_handle env s).2.client_table = s.client_table ∧
    (open_append_handle env s).2.default_db = s.default_db ∧
    (open_append_handle env s).2.db_list = s.db_list := by
  unfold open_append_handle
  cases s.append_handle with
  | none => by_cases h : env.fopen_ok = true <;> simp [h]
  | some b => simp

theorem write_and_flush_client_table (env : Env) (s : Daemon) (text : List Char) :
    (write_and_flush env s text).2.client_table = s.client_table ∧
    (write_and_flush env s text).2.default_db = s.default_db ∧
    (write_and_flush env s text).2.db_list = s.db_list := by
  unfold write_and_flush
  by_cases h1 : env.fprintf_ok = true <;> by_cases h2 : env.fflush_ok = true <;>
    simp [h1, h2]

/-- Writing a client record changes neither the client table nor any database. -/
theorem log_client_change_frame (env : Env) (s : Daemon) (client : ConfigListener)
    (add : Bool) :
    (log_client_change env s client add).client_table = s.client_table ∧
    (log_client_change env s client add).default_db = s.default_db ∧
    (log_client_change env s client add).db_list = s.db_list := by
  unfold log_client_change
  cases env.gconf_object_to_string client with
  | none => simp
  | some ior =>
    have h := open_append_handle_client_table env s
    simp only
    cases ho : open_append_handle env s with
    | mk ok s1 =>
      rw [ho] at h
      cases ok with
      | false => exact h
      | true =>
        have h2 := write_and_flush_client_table env s1 (client_record add ior)
        simp only at h ⊢
        exact ⟨h2.1.trans h.1, h2.2.1.trans h.2.1, h2.2.2.trans h.2.2⟩

theorem gconf_CORBA_Object_equal_iff (a b : ConfigListener) :
    gconf_CORBA_Object_equal a b = true ↔ a = b := by
  simp [gconf_CORBA_Object_equal]

/-- The client table after `remove_client`: the table without the client. -/
theorem remove_client_client_table (env : Env) (s : Daemon) (client : ConfigListener) :
    (remove_client env s client).client_table
      = s.client_table.map (fun t => t.filter (fun c => decide (c ≠ client))) := by
  unfold remove_client
  cases ht : s.client_table with
  | none => simp [ht]
  | some t =>
    simp only [ht, Option.map_some']
    cases hl : g_hash_table_lookup gconf_CORBA_Object_equal t client with
    | none =>
      have hn := (lookup_eq_none_iff _ gconf_CORBA_Object_equal_iff t client).1 hl
      simp only [Option.some.injEq]
      symm
      rw [List.filter_eq_self]
      intro c hc
      simp only [ne_eq, decide_not, Bool.not_eq_true', decide_eq_false_iff_not]
      intro e; subst e; exact hn hc
    | some old =>
      have ho := ((lookup_eq_some_iff _ gconf_CORBA_Object_equal_iff t client old).1 hl).1
      subst ho
      simp only [log_client_remove, (log_client_change_frame env _ old false).1,
        Option.some.injEq, g_hash_table_remove]
      apply List.filter_congr
      intro c _
      by_cases hc : c = old <;> simp [gconf_CORBA_Object_equal, hc]

/-- The databases after `remove_client` of the CORBA binding: untouched. -/
theorem remove_client_databases (env : Env) (s : Daemon) (client : ConfigListener) :
    (remove_client env s client).default_db = s.default_db ∧
    (remove_client env s client).db_list = s.db_list := by
  unfold remove_client
  cases ht : s.client_table with
  | none => simp
  | some t =>
    simp only
    cases hl : g_hash_table_lookup gconf_CORBA_Object_equal t client with
    | none => simp
    | some old =>
      simp only [log_client_remove]
      exact ⟨(log_client_change_frame env _ old false).2.1,
        (log_client_change_frame env _ old false).2.2⟩

theorem drop_old_client_databases (env : Env) (s : Daemon) (cl : ConfigListener) :
    (drop_old_client env s cl).default_db = s.default_db ∧
    (drop_old_client env s cl).db_list = s.db_list := by
  unfold drop_old_client
  simp only
  split_ifs
  · exact remove_client_databases env s cl
  · exact ⟨rfl, rfl⟩

theorem list_clients_eq (s : Daemon) :
    list_clients s = (s.client_table.getD []).reverse := by
  unfold list_clients
  have h : ∀ (t acc : List ConfigListener),
      t.foldl (fun clients value => value :: clients) acc = t.reverse ++ acc := by
    intro t
    induction t with
    | nil => simp
    | cons a t ih => intro acc; simp [ih]
  cases s.client_table with
  | none => simp
  | some t => simp [h]

/-- The client table after one step of the sweep: the client goes unless the probe
returned, without exception, that the object is not non-existent. -/
theorem drop_old_client_client_table (env : Env) (s : Daemon) (cl : ConfigListener) :
    (drop_old_client env s cl).client_table
      = s.client_table.map (fun t => t.filter (fun c =>
          decide (¬ (c = cl ∧ env.CORBA_Object_non_existent cl ≠ some false)))) := by
  unfold drop_old_client
  cases hp : env.CORBA_Object_non_existent cl with
  | none =>
    simp only [if_true, remove_client_client_table]
    congr 1; funext t; apply List.filter_congr; intro c _; simp
  | some r =>
    cases r with
    | true =>
      simp only [if_true, remove_client_client_table]
      congr 1; funext t; apply List.filter_congr; intro c _; simp
    | false =>
      cases ht : s.client_table with
      | none => simp [ht]
      | some t => simp [ht]

theorem drop_old_clients_fold (env : Env) (l : List ConfigListener) (s : Daemon) :
    (l.foldl (drop_old_client env) s).client_table
      = s.client_table.map (fun t => t.filter (fun c =>
          decide (¬ (c ∈ l ∧ env.CORBA_Object_non_existent c ≠ some false)))) := by
  induction l generalizing s with
  | nil => cases ht : s.client_table <;> simp [ht]
  | cons a l ih =>
    rw [List.foldl_cons, ih, drop_old_client_client_table]
    cases ht : s.client_table with
    | none => simp
    | some t =>
      simp only [Option.map_some', Option.some.injEq, List.filter_filter]
      apply List.filter_congr
      intro c _
      by_cases hca : c = a
      · subst hca; by_cases hp : env.CORBA_Object_non_existent c = some false <;> simp [hp]
      · simp [hca]

/-- Claim C8: after `gconfd_corba_drop_old_clients` the client table holds exactly the
previously tracked peers for which `CORBA_Object_non_existent` returned, without an
exception, that the peer still exists; a peer for which the probe reports non-existence
or raises an exception is removed. -/
theorem gconfd_corba_drop_old_clients_keeps_live (env : Env) (s : Daemon) :
    (gconfd_corba_drop_old_clients env s).client_table
      = s.client_table.map (fun t => t.filter (fun c =>
          decide (env.CORBA_Object_non_existent c = some false))) ∧
    (∀ (t t' : GHashTable ConfigListener), s.client_table = some t →
      (gconfd_corba_drop_old_clients env s).client_table = some t' →
      ∀ p, p ∈ t' ↔ p ∈ t ∧ env.CORBA_Object_non_existent p = some false) := by
  have h : (gconfd_corba_drop_old_clients env s).client_table
      = s.client_table.map (fun t => t.filter (fun c =>
          decide (env.CORBA_Object_non_existent c = some false))) := by
    unfold gconfd_corba_drop_old_clients
    rw [drop_old_clients_fold, list_clients_eq]
    cases ht : s.client_table with
    | none => simp
    | some t =>
      simp only [Option.map_some', Option.some.injEq, Option.getD_some]
      apply List.filter_congr
      intro c hc
      simp [hc]
  refine ⟨h, ?_⟩
  intro t t' ht ht' p
  rw [h, ht] at ht'
  simp only [Option.map_some', Option.some.injEq] at ht'
  rw [← ht']
  simp [List.mem_filter]

end Corba


/-! ## The client table: removal of a client and its subscriptions -/

theorem DBus.remove_listeners_subscriptions (db : GConfDatabase) (name : CString)
    (sub : Subscription) :
    sub ∈ (DBus.remove_listeners db name).subscriptions ↔
      sub ∈ db.subscriptions ∧ ∀ n, sub.listener_data ≠ ListenerData.dbus n name := by
  unfold DBus.remove_listeners GConfDatabase.subscriptions
  cases hl : db.listeners with
  | none => simp [hl]
  | some l =>
    simp only [gconf_listeners_remove_if, List.mem_filter, Bool.not_eq_true',
      and_congr_right_iff]
    intro _
    cases hd : sub.listener_data with
    | corba n o => simp [DBus.remove_listener_predicate]
    | dbus n who =>
      simp only [DBus.remove_listener_predicate, beq_eq_false_iff_ne, ne_eq,
        ListenerData.dbus.injEq, not_and]
      constructor
      · intro h m _ hw; exact h hw
      · intro h hw; exact h n rfl hw

/-- After `remove_client` of gconfd-corba.c a subscription of the removed client is
still in the default database's registry: the client with reference 1 is tracked and
owns subscription 7 on `/x`; removing the client leaves the registry as it was. -/
theorem Corba.remove_client_keeps_subscriptions :
    (Corba.remove_client Corba.sample_env
      { client_table := some [⟨1⟩]
        append_handle := none
        files := ⟨some [], none, none⟩
        default_db :=
          some ⟨"def".toList, some ⟨[⟨7, "/x".toList, ListenerData.corba none ⟨1⟩⟩], 8⟩⟩
        db_list := []
        need_log_cleanup := false } ⟨1⟩).client_table = some [] ∧
    (Corba.remove_client Corba.sample_env
      { client_table := some [⟨1⟩]
        append_handle := none
        files := ⟨some [], none, none⟩
        default_db :=
          some ⟨"def".toList, some ⟨[⟨7, "/x".toList, ListenerData.corba none ⟨1⟩⟩], 8⟩⟩
        db_list := []
        need_log_cleanup := false } ⟨1⟩).default_db
      = some ⟨"def".toList, some ⟨[⟨7, "/x".toList, ListenerData.corba none ⟨1⟩⟩], 8⟩⟩ := by
  decide

/-- Claim C9 (amended): for every tracked peer, `remove_client` of gconfd-dbus.c takes
the peer out of the client table and removes from the registry of the default database
and of every other database exactly the D-Bus subscriptions owned by that peer, leaving
every other subscription (and the list of databases) in place; `remove_client` of
gconfd-corba.c, also when reached from the stale-client sweep, takes the peer out of
the client table and leaves the registry of every database unchanged. -/
theorem remove_client_cascade :
    (∀ (s : DBus.Daemon) (name : CString) (client_hash : GHashTable CString),
      s.client_hash = some client_hash → name ∈ client_hash →
      (∃ h, (DBus.remove_client s name).client_hash = some h ∧ name ∉ h ∧
        ∀ other, other ≠ name → (other ∈ h ↔ other ∈ client_hash)) ∧
      (∀ sub, sub ∈ (DBus.remove_client s name).default_db.subscriptions ↔
        sub ∈ s.default_db.subscriptions ∧
          ∀ n, sub.listener_data ≠ ListenerData.dbus n name) ∧
      (DBus.remove_client s name).db_list.length = s.db_list.length ∧
      (∀ (i : Nat) (db db' : GConfDatabase), s.db_list[i]? = some db →
        (DBus.remove_client s name).db_list[i]? = some db' →
        db'.persistent_name = db.persistent_name ∧
        ∀ sub, sub ∈ db'.subscriptions ↔
          sub ∈ db.subscriptions ∧ ∀ n, sub.listener_data ≠ ListenerData.dbus n name)) ∧
    (∀ (env : Corba.Env) (s : Corba.Daemon) (client : ConfigListener),
      (∀ t, s.client_table = some t →
        ∃ t', (Corba.remove_client env s client).client_table = some t' ∧ client ∉ t' ∧
          ∀ other, other ≠ client → (other ∈ t' ↔ other ∈ t)) ∧
      (Corba.remove_client env s client).default_db = s.default_db ∧
      (Corba.remove_client env s client).db_list = s.db_list ∧
      (Corba.gconfd_corba_drop_old_clients env s).default_db = s.default_db ∧
      (Corba.gconfd_corba_drop_old_clients env s).db_list = s.db_list) := by
  constructor
  · intro s name client_hash hh hmem
    have hl : g_hash_table_lookup g_str_equal client_hash name = some name :=
      (lookup_eq_some_iff _ g_str_equal_iff client_hash name name).2 ⟨rfl, hmem⟩
    have hr : DBus.remove_client s name =
        { client_hash := some (g_hash_table_remove g_str_equal client_hash name)
          default_db := DBus.remove_listeners s.default_db name
          db_list := s.db_list.map (fun db => DBus.remove_listeners db name) } := by
      simp [DBus.remove_client, hh, hl]
    rw [hr]
    refine ⟨⟨_, rfl, ?_, ?_⟩, ?_, ?_, ?_⟩
    · intro h
      exact ((mem_remove_iff _ g_str_equal_iff client_hash name name).1 h).2 rfl
    · intro other ho
      rw [mem_remove_iff _ g_str_equal_iff]
      exact ⟨fun h => h.1, fun h => ⟨h, ho⟩⟩
    · intro sub
      exact DBus.remove_listeners_subscriptions s.default_db name sub
    · simp
    · intro i db db' hdb hdb'
      simp only [List.getElem?_map, hdb, Option.map_some', Option.some.injEq] at hdb'
      subst hdb'
      refine ⟨?_, fun sub => DBus.remove_listeners_subscriptions db name sub⟩
      unfold DBus.remove_listeners
      cases db.listeners <;> rfl
  · intro env s client
    refine ⟨?_, (Corba.remove_client_databases env s client).1,
      (Corba.remove_client_databases env s client).2, ?_, ?_⟩
    · intro t ht
      refine ⟨_, by rw [Corba.remove_client_client_table, ht]; rfl, ?_, ?_⟩
      · simp [List.mem_filter]
      · intro other ho
        simp [List.mem_filter, ho]
    · unfold Corba.gconfd_corba_drop_old_clients
      generalize Corba.list_clients s = l
      induction l generalizing s with
      | nil => rfl
      | cons a l ih =>
        rw [List.foldl_cons, ih]
        exact (Corba.drop_old_client_databases env s a).1
    · unfold Corba.gconfd_corba_drop_old_clients
      generalize Corba.list_clients s = l
      induction l generalizing s with
      | nil => rfl
      | cons a l ih =>
        rw [List.foldl_cons, ih]
        exact (Corba.drop_old_client_databases env s a).2

/-- Witness of claim C9 (amended) for the D-Bus binding: the clients `:1.1` and `:1.2`
are tracked, the default database holds one subscription of each; removing `:1.1`
leaves `:1.2` and its subscription. -/
theorem remove_client_cascade_witness :
    (DBus.remove_client
      { client_hash := some [":1.1".toList, ":1.2".toList]
        default_db :=
          ⟨"def".toList,
            some ⟨[⟨1, "/x".toList, ListenerData.dbus none ":1.1".toList⟩,
                   ⟨2, "/y".toList, ListenerData.dbus none ":1.2".toList⟩], 3⟩⟩
        db_list := [] } ":1.1".toList)
      = { client_hash := some [":1.2".toList]
          default_db :=
            ⟨"def".toList,
              some ⟨[⟨2, "/y".toList, ListenerData.dbus none ":1.2".toList⟩], 3⟩⟩
          db_list := [] } ∧
    ∀ sub, sub ∈ (DBus.remove_client
      { client_hash := some [":1.1".toList, ":1.2".toList]
        default_db :=
          ⟨"def".toList,
            some ⟨[⟨1, "/x".toList, ListenerData.dbus none ":1.1".toList⟩,
                   ⟨2, "/y".toList, ListenerData.dbus none ":1.2".toList⟩], 3⟩⟩
        db_list := [] } ":1.1".toList).default_db.subscriptions ↔
      sub ∈ [(⟨1, "/x".toList, ListenerData.dbus none ":1.1".toList⟩ : Subscription),
             ⟨2, "/y".toList, ListenerData.dbus none ":1.2".toList⟩] ∧
        ∀ n, sub.listener_data ≠ ListenerData.dbus n ":1.1".toList :=
  ⟨by decide,
   (remove_client_cascade.1 _ ":1.1".toList [":1.1".toList, ":1.2".toList] rfl
      (by decide)).2.1⟩


/-! ## Compaction of the log -/

/-- The log path in the course of `gconfd_corba_logfile_save` over an existing log, when
no call fails: the old log until the temp file is closed, no file
between the two renames, the new text from the second rename on. -/
theorem Corba.gconfd_corba_logfile_save_log_path (env : Corba.Env) (s : Corba.Daemon)
    (old : List Char) (hnofail : ∀ c, env.save_call_fails c = false)
    (hold : (Corba.close_append_handle env s).files.logfile = some old) :
    (Corba.gconfd_corba_logfile_save env Corba.SavePoint.tmp_closed s).files.logfile
      = some old ∧
    (Corba.gconfd_corba_logfile_save env Corba.SavePoint.moved_aside s).files.logfile
      = none ∧
    (Corba.gconfd_corba_logfile_save env Corba.SavePoint.moved_aside s).files.origfile
      = some old ∧
    (Corba.gconfd_corba_logfile_save env Corba.SavePoint.moved_aside s).files.tmpfile
      = some (Corba.saved_state_text env (Corba.close_append_handle env s)) ∧
    (Corba.gconfd_corba_logfile_save env Corba.SavePoint.moved_into_place s).files.logfile
      = some (Corba.saved_state_text env (Corba.close_append_handle env s)) ∧
    (Corba.gconfd_corba_logfile_save env Corba.SavePoint.finished s).files.logfile
      = some (Corba.saved_state_text env (Corba.close_append_handle env s)) := by
  simp [Corba.gconfd_corba_logfile_save, hnofail, hold]

/-- Claim C7, evaluated on a log of three client records with one client in the table,
no call failing: interrupted between the rename that moves the old log aside and the
rename that moves the temp file into place, `gconfd_corba_logfile_save` leaves no file
at the log path (the old log is at `saved_state.orig`, the new text at
`saved_state.tmp`), and `gconfd_corba_logfile_read` then restores nothing. At the other
points after the temp file is written the log path holds the old log or the new
text. -/
theorem Corba.gconfd_corba_logfile_save_interrupted :
    (Corba.gconfd_corba_logfile_save Corba.sample_env Corba.SavePoint.tmp_closed
      { client_table := some [⟨1⟩], append_handle := none,
        files := ⟨some "CLIENTADD \"IOR1\"\nCLIENTADD \"IOR11\"\nCLIENTREMOVE \"IOR11\"\n".toList,
          none, none⟩,
        default_db := none, db_list := [], need_log_cleanup := false }).files
      = ⟨some "CLIENTADD \"IOR1\"\nCLIENTADD \"IOR11\"\nCLIENTREMOVE \"IOR11\"\n".toList,
          some "CLIENTADD \"IOR1\"\n".toList, none⟩ ∧
    (Corba.gconfd_corba_logfile_save Corba.sample_env Corba.SavePoint.moved_aside
      { client_table := some [⟨1⟩], append_handle := none,
        files := ⟨some "CLIENTADD \"IOR1\"\nCLIENTADD \"IOR11\"\nCLIENTREMOVE \"IOR11\"\n".toList,
          none, none⟩,
        default_db := none, db_list := [], need_log_cleanup := false }).files
      = ⟨none, some "CLIENTADD \"IOR1\"\n".toList,
          some "CLIENTADD \"IOR1\"\nCLIENTADD \"IOR11\"\nCLIENTREMOVE \"IOR11\"\n".toList⟩ ∧
    Corba.gconfd_corba_logfile_read Corba.sample_env
      { client_table := none, append_handle := none,
        files := ⟨none, some "CLIENTADD \"IOR1\"\n".toList,
          some "CLIENTADD \"IOR1\"\nCLIENTADD \"IOR11\"\nCLIENTREMOVE \"IOR11\"\n".toList⟩,
        default_db := none, db_list := [], need_log_cleanup := false }
      = { client_table := none, append_handle := none,
          files := ⟨none, some "CLIENTADD \"IOR1\"\n".toList,
            some "CLIENTADD \"IOR1\"\nCLIENTADD \"IOR11\"\nCLIENTREMOVE \"IOR11\"\n".toList⟩,
          default_db := none, db_list := [], need_log_cleanup := false } ∧
    (Corba.gconfd_corba_logfile_save Corba.sample_env Corba.SavePoint.moved_into_place
      { client_table := some [⟨1⟩], append_handle := none,
        files := ⟨some "CLIENTADD \"IOR1\"\nCLIENTADD \"IOR11\"\nCLIENTREMOVE \"IOR11\"\n".toList,
          none, none⟩,
        default_db := none, db_list := [], need_log_cleanup := false }).files
      = ⟨some "CLIENTADD \"IOR1\"\n".toList, none,
          some "CLIENTADD \"IOR1\"\nCLIENTADD \"IOR11\"\nCLIENTREMOVE \"IOR11\"\n".toList⟩ ∧
    (Corba.gconfd_corba_logfile_save Corba.sample_env Corba.SavePoint.finished
      { client_table := some [⟨1⟩], append_handle := none,
        files := ⟨some "CLIENTADD \"IOR1\"\nCLIENTADD \"IOR11\"\nCLIENTREMOVE \"IOR11\"\n".toList,
          none, none⟩,
        default_db := none, db_list := [], need_log_cleanup := false }).files
      = ⟨some "CLIENTADD \"IOR1\"\n".toList, none, none⟩ := by
  refine ⟨by decide, by decide, by decide, by decide, by decide⟩


/-! ## Records written to the log are read back -/

theorem unquote_chars_quote_chars (x rest : CString) :
    unquote_chars (quote_chars x ++ '"' :: rest) = some (x, rest) := by
  induction x with
  | nil => simp [quote_chars, unquote_chars]
  | cons c cs ih =>
    by_cases h1 : c = '"'
    · subst h1
      simp [quote_chars, unquote_chars, ih]
    · by_cases h2 : c = '\\'
      · subst h2
        simp [quote_chars, unquote_chars, ih]
      · simp only [quote_chars, h1, h2, or_self, if_false, List.cons_append]
        rw [unquote_chars]
        · simp [ih]
        all_goals (intros; simp_all)

theorem gconf_unquote_quote (x rest : CString) :
    gconf_unquote_string_inplace (gconf_quote_string x ++ rest) = some (x, rest) := by
  simp [gconf_unquote_string_inplace, gconf_quote_string, unquote_chars_quote_chars]

namespace Corba

theorem digit_char_facts (d : Nat) (h : d < 10) :
    digit_value (digit_char d) = some d ∧ digit_char d ≠ '-' ∧ digit_char d ≠ '+' ∧
    isspace (digit_char d) = false ∧ g_ascii_isspace (digit_char d) = false := by
  interval_cases d <;> decide

theorem strtoul_digits_append (ds tail : List Char) (a k : Nat) (h : all_digits ds) :
    strtoul_digits (ds ++ tail) a k
      = strtoul_digits tail (digits_value ds a) (k + ds.length) := by
  induction ds generalizing a k with
  | nil => simp [digits_value]
  | cons c cs ih =>
    obtain ⟨d, hd, hc⟩ := h c (by simp)
    have hcs : all_digits cs := fun x hx => h x (by simp [hx])
    subst hc
    have hv := (digit_char_facts d hd).1
    rw [List.cons_append, strtoul_digits]
    simp only [hv]
    rw [ih _ _ hcs]
    simp only [digits_value, List.foldl_cons, hv, Option.getD_some, List.length_cons]
    congr 1
    omega

theorem fmt_u_digits_acc (fuel n : Nat) (acc : List Char) :
    fmt_u_digits (fuel + 1) n acc = fmt_u_digits (fuel + 1) n [] ++ acc := by
  induction fuel generalizing n acc with
  | zero =>
    unfold fmt_u_digits
    by_cases h : n < 10 <;> simp [h, fmt_u_digits]
  | succ f ih =>
    rw [fmt_u_digits]
    conv_rhs => rw [fmt_u_digits]
    by_cases h : n < 10
    · simp [h]
    · simp only [h, if_false]
      rw [ih (n / 10) (digit_char (n % 10) :: acc), ih (n / 10) [digit_char (n % 10)]]
      simp

theorem fmt_u_digits_spec (fuel n : Nat) (hn : n < 10 ^ (fuel + 1)) :
    fmt_u_digits (fuel + 1) n [] ≠ [] ∧ all_digits (fmt_u_digits (fuel + 1) n []) ∧
    ∀ a, digits_value (fmt_u_digits (fuel + 1) n []) a
      = a * 10 ^ (fmt_u_digits (fuel + 1) n []).length + n := by
  induction fuel generalizing n with
  | zero =>
    have h : n < 10 := by simpa using hn
    unfold fmt_u_digits
    simp only [h, if_true]
    refine ⟨by simp, ?_, ?_⟩
    · intro c hc
      simp only [List.mem_singleton] at hc
      exact ⟨n, h, hc⟩
    · intro a
      simp [digits_value, (digit_char_facts n h).1]
      omega
  | succ f ih =>
    rw [fmt_u_digits]
    by_cases h : n < 10
    · simp only [h, if_true]
      refine ⟨by simp, ?_, ?_⟩
      · intro c hc
        simp only [List.mem_singleton] at hc
        exact ⟨n, h, hc⟩
      · intro a
        simp [digits_value, (digit_char_facts n h).1]
        omega
    · simp only [h, if_false]
      have hf : n / 10 < 10 ^ (f + 1) := by
        rw [pow_succ] at hn
        exact Nat.div_lt_of_lt_mul (by omega)
      obtain ⟨_, i2, i3⟩ := ih (n / 10) hf
      rw [fmt_u_digits_acc f (n / 10) [digit_char (n % 10)]]
      have hm : n % 10 < 10 := Nat.mod_lt _ (by omega)
      refine ⟨by simp, ?_, ?_⟩
      · intro c hc
        simp only [List.mem_append, List.mem_singleton] at hc
        rcases hc with hc | hc
        · exact i2 c hc
        · exact ⟨n % 10, hm, hc⟩
      · intro a
        have := i3 a
        simp only [digits_value] at this
        simp only [digits_value, List.foldl_append, List.foldl_cons, List.foldl_nil, this,
          (digit_char_facts _ hm).1, Option.getD_some, List.length_append,
          List.length_singleton, pow_succ]
        have hdm := Nat.div_add_mod n 10
        have e1 : a * (10 ^ (fmt_u_digits (f + 1) (n / 10) []).length * 10)
            = 10 * (a * 10 ^ (fmt_u_digits (f + 1) (n / 10) []).length) := by ring
        rw [e1]
        generalize a * 10 ^ (fmt_u_digits (f + 1) (n / 10) []).length = x
        omega

theorem strtoul_eq (p rest : CString) (v k : Nat) (hskip : strtoul_skip p = p)
    (hminus : ∀ r, p ≠ '-' :: r) (hplus : ∀ r, p ≠ '+' :: r)
    (hd : strtoul_digits p 0 0 = (v, k, rest)) (hk : k ≠ 0) (hv : v ≤ ULONG_MAX) :
    strtoul p = ⟨v, rest, false, false⟩ := by
  have hq : strtoul_sign p = (false, p) := by
    unfold strtoul_sign
    split
    · rename_i r; exact absurd rfl (hminus r)
    · rename_i r; exact absurd rfl (hplus r)
    · rfl
  have hgt : ¬ v > ULONG_MAX := by omega
  unfold strtoul
  simp only [hskip, hq, hd]
  simp [hk, hgt]

/-- Embeds `strtoul` reads back what `%u` printed, and stops at the space after it. -/
theorem strtoul_fmt_u (n : Nat) (hn : n < GUINT_MODULUS) (rest : List Char) :
    strtoul (fmt_u n ++ ' ' :: rest) = ⟨n, ' ' :: rest, false, false⟩ ∧
    skip_spaces (fmt_u n ++ ' ' :: rest) = fmt_u n ++ ' ' :: rest := by
  have hlt : n < 10 ^ (9 + 1) := by
    have : GUINT_MODULUS < 10 ^ (9 + 1) := by decide
    omega
  have hmod : n % GUINT_MODULUS = n := Nat.mod_eq_of_lt hn
  obtain ⟨h1, h2, h3⟩ := fmt_u_digits_spec 9 n hlt
  have hfmt : fmt_u n = fmt_u_digits (9 + 1) n [] := by
    unfold fmt_u; rw [hmod]
  rw [hfmt]
  generalize fmt_u_digits (9 + 1) n [] = ds at h1 h2 h3
  cases ds with
  | nil => exact absurd rfl h1
  | cons c cs =>
    obtain ⟨d, hd, hc⟩ := h2 c (by simp)
    obtain ⟨_, f2, f3, f4, f5⟩ := digit_char_facts d hd
    have hdig := strtoul_digits_append (c :: cs) (' ' :: rest) 0 0 h2
    have hv := h3 0
    simp only [zero_mul, zero_add] at hv
    rw [hv] at hdig
    have hsp : digit_value ' ' = none := by decide
    rw [strtoul_digits] at hdig
    simp only [hsp, zero_add] at hdig
    subst hc
    constructor
    · apply strtoul_eq _ _ n (digit_char d :: cs).length
      · simp [strtoul_skip, f4]
      · intro r hr; simp only [List.cons_append, List.cons.injEq] at hr; exact f2 hr.1
      · intro r hr; simp only [List.cons_append, List.cons.injEq] at hr; exact f3 hr.1
      · exact hdig
      · simp
      · have : GUINT_MODULUS ≤ ULONG_MAX := by decide
        omega
    · simp [skip_spaces, f5]

theorem skip_spaces_quote (x rest : CString) :
    skip_spaces (' ' :: (gconf_quote_string x ++ rest)) = gconf_quote_string x ++ rest := by
  simp [skip_spaces, gconf_quote_string, g_ascii_isspace]

/-- A listener record written by `gconfd_logfile_change_listener` scans to the record
that was written: same verb, same id, each string in its own field. -/
theorem scan_listener_record_text (add : Bool) (id : Nat) (db loc ior : CString)
    (hid : id ≠ 0) (hlt : id < GUINT_MODULUS) (hdb : db ≠ []) (hloc : loc ≠ [])
    (hior : ior ≠ []) :
    scan_listener_entry (listener_record_text add id db loc ior)
      = Scanned.record add ⟨id, ior, db, loc⟩ := by
  have hverb : ∀ rest : List Char,
      (if strncmp_eq ((if add then "ADD".toList else "REMOVE".toList) ++ ' ' :: rest)
          "ADD".toList
        then some (true, ((if add then "ADD".toList else "REMOVE".toList) ++ ' ' :: rest).drop 3)
        else if strncmp_eq ((if add then "ADD".toList else "REMOVE".toList) ++ ' ' :: rest)
          "REMOVE".toList
        then some (false, ((if add then "ADD".toList else "REMOVE".toList) ++ ' ' :: rest).drop 6)
        else none) = some (add, ' ' :: rest) := by
    intro rest
    cases add <;> simp [strncmp_eq]
  unfold scan_listener_entry listener_record_text
  simp only [hverb]
  have h1 := strtoul_fmt_u id hlt
    (gconf_quote_string db ++ ' ' :: (gconf_quote_string loc ++ ' ' :: gconf_quote_string ior))
  have hsk : skip_spaces (' ' :: (fmt_u id ++ ' ' ::
      (gconf_quote_string db ++ ' ' :: (gconf_quote_string loc ++ ' ' :: gconf_quote_string ior))))
      = fmt_u id ++ ' ' ::
      (gconf_quote_string db ++ ' ' :: (gconf_quote_string loc ++ ' ' :: gconf_quote_string ior)) := by
    rw [skip_spaces]
    simp only [show g_ascii_isspace ' ' = true by decide, if_true]
    exact h1.2
  have hior2 : gconf_unquote_string_inplace (gconf_quote_string ior) = some (ior, []) := by
    have := gconf_unquote_quote ior []
    simpa using this
  have hsk3 : skip_spaces (' ' :: gconf_quote_string ior) = gconf_quote_string ior := by
    have := skip_spaces_quote ior []
    simpa using this
  simp only [hsk, h1.1, Bool.or_self, Bool.false_eq_true, if_false, Nat.mod_eq_of_lt hlt, hid,
    skip_spaces_quote, gconf_unquote_quote, hsk3, hior2]
  simp [hdb, hloc, hior]

/-- A client record written by `log_client_change` is left alone by the listener parser
and scans, in the client parser, to the record that was written. -/
theorem scan_client_record_text (add : Bool) (ior : CString) :
    scan_listener_entry (client_record_text add ior) = Scanned.unhandled ∧
    scan_client_entry (client_record_text add ior) = Scanned.record add ior := by
  have hior2 : gconf_unquote_string_inplace (gconf_quote_string ior) = some (ior, []) := by
    have := gconf_unquote_quote ior []
    simpa using this
  have hsk : skip_spaces (' ' :: gconf_quote_string ior) = gconf_quote_string ior := by
    have := skip_spaces_quote ior []
    simpa using this
  constructor
  · unfold scan_listener_entry client_record_text
    cases add <;> simp [strncmp_eq]
  · unfold scan_client_entry client_record_text
    cases add <;> simp [strncmp_eq, hsk, hior2]

end Corba


/-! ## Replaying the log a second time -/

namespace Corba

theorem log_client_change_need_log_cleanup (env : Env) (s : Daemon)
    (client : ConfigListener) (add : Bool) :
    (log_client_change env s client add).need_log_cleanup = s.need_log_cleanup := by
  unfold log_client_change
  cases env.gconf_object_to_string client with
  | none => rfl
  | some ior =>
    simp only [open_append_handle, write_and_flush]
    cases s.append_handle <;> by_cases h0 : env.fopen_ok = true <;>
      by_cases h1 : env.fprintf_ok = true <;> by_cases h2 : env.fflush_ok = true <;>
      simp [h0, h1, h2]

/-- Adding a client a second time changes nothing at all. -/
theorem add_client_idempotent (env : Env) (s : Daemon) (cl : ConfigListener) :
    add_client env (add_client env s cl) cl = add_client env s cl := by
  have key : ∀ r : Daemon, r.need_log_cleanup = true →
      (∃ t, r.client_table = some t ∧ cl ∈ t) → add_client env r cl = r := by
    intro r hn ⟨t, ht, hm⟩
    have hl : g_hash_table_lookup gconf_CORBA_Object_equal t cl = some cl :=
      (lookup_eq_some_iff _ gconf_CORBA_Object_equal_iff t cl cl).2 ⟨rfl, hm⟩
    cases r
    simp only at hn ht
    subst hn; subst ht
    simp [add_client, hl]
  apply key
  · unfold add_client
    simp only
    split
    · rfl
    · simp only [log_client_add, log_client_change_need_log_cleanup]
  · unfold add_client
    simp only
    split
    · rename_i old hl
      have := (lookup_eq_some_iff _ gconf_CORBA_Object_equal_iff _ cl old).1 hl
      exact ⟨_, rfl, this.2⟩
    · rename_i hl
      refine ⟨g_hash_table_insert gconf_CORBA_Object_equal (s.client_table.getD []) cl,
        ?_, ?_⟩
      · simp only [log_client_add]
        rw [(log_client_change_frame env _ cl true).1]
      · rw [mem_insert_iff _ gconf_CORBA_Object_equal_iff]
        exact Or.inr rfl

/-- Restoring the same client a second time changes nothing at all: neither the client
table nor the log. -/
theorem restore_client_idempotent (env : Env) (s : Daemon) (ior : CString) :
    restore_client env (restore_client env s ior) ior = restore_client env s ior := by
  unfold restore_client
  cases h : env.CORBA_ORB_string_to_object ior with
  | none => simp [h]
  | some cl =>
    by_cases hp : env.ConfigListener_drop_all_caches cl = true
    · simp [hp, h, add_client_idempotent]
    · simp [hp, h]

theorem get_db_set_db (s : Daemon) (ref : DbRef) (d d' : GConfDatabase)
    (h : get_db s ref = some d) : get_db (set_db s ref d') ref = some d' := by
  cases ref with
  | default_db => simp [get_db, set_db]
  | listed i =>
    simp only [get_db] at h
    have hi : i < s.db_list.length := by
      by_contra hc
      rw [List.getElem?_eq_none (by omega)] at h
      exact Option.noConfusion h
    simp [get_db, set_db, hi]

/-- With a writable log, `gconfd_logfile_change_listener` succeeds and appends its
record (after whatever was still buffered) to the log file. -/
theorem gconfd_logfile_change_listener_ok (env : Env) (s : Daemon) (db : DbRef)
    (add : Bool) (id : Nat) (cl : ConfigListener) (location ior : CString)
    (hopen : env.fopen_ok = true) (hprintf : env.fprintf_ok = true)
    (hflush : env.fflush_ok = true)
    (hior : env.gconf_object_to_string cl = some ior) :
    gconfd_logfile_change_listener env s db add id cl location
      = (true, { s with
          append_handle := some []
          files := { s.files with
            logfile := some (s.files.logfile.getD [] ++
              (s.append_handle.getD [] ++
                listener_record add id (db_log_name s db) location ior)) } }) := by
  have hname : ∀ (h : Option (List Char)) (f : LogFiles),
      db_log_name { s with append_handle := h, files := f } db = db_log_name s db := by
    intro h f
    cases db <;> rfl
  unfold gconfd_logfile_change_listener open_append_handle
  cases hh : s.append_handle with
  | none => simp [hopen, hior, write_and_flush, hprintf, hflush, hname]
  | some buf =>
    simp only [hior, write_and_flush, hprintf, hflush, if_true, hh, Option.getD_some]

/-- What `restore_listener` does for an entry whose client resolves, with a writable
log: the registry of the database gains one subscription under the next unused id, the
client table is untouched, and the log gains the REMOVE record of the old id and, when
the client could be notified, the ADD record of the new id. -/
theorem restore_listener_effect (env : Env) (s : Daemon) (db : DbRef) (d : GConfDatabase)
    (lle : ListenerLogEntry) (cl : ConfigListener) (ior : CString)
    (hopen : env.fopen_ok = true) (hprintf : env.fprintf_ok = true)
    (hflush : env.fflush_ok = true)
    (hcl : env.CORBA_ORB_string_to_object lle.ior = some cl)
    (hior : env.gconf_object_to_string cl = some ior)
    (hdb : get_db s db = some d) :
    get_db (restore_listener env s db lle) db
      = some { d with
          listeners := some
            ⟨(d.listeners.getD ⟨[], 1⟩).subscriptions ++
              [⟨(d.listeners.getD ⟨[], 1⟩).next_cnxn, lle.location,
                ListenerData.corba (some "from-saved-state".toList) cl⟩],
              (d.listeners.getD ⟨[], 1⟩).next_cnxn + 1⟩ } ∧
    (restore_listener env s db lle).client_table = s.client_table ∧
    (restore_listener env s db lle).files.logfile
      = some (s.files.logfile.getD [] ++ (s.append_handle.getD [] ++
          (listener_record false lle.connection_id (db_log_name s db) lle.location ior ++
            (if env.ConfigListener_update_listener cl then
              listener_record true (d.listeners.getD ⟨[], 1⟩).next_cnxn (db_log_name s db)
                lle.location ior
            else [])))) := by
  unfold restore_listener
  simp only [hcl]
  rw [gconfd_logfile_change_listener_ok env s db false _ cl _ ior hopen hprintf hflush hior]
  simp only
  generalize hs1 : ({ s with
      append_handle := some []
      files := { s.files with
        logfile := some (s.files.logfile.getD [] ++
          (s.append_handle.getD [] ++
            listener_record false lle.connection_id (db_log_name s db) lle.location ior)) } }
      : Daemon) = s1
  have hdb1 : get_db s1 db = some d := by
    rw [← hs1]; cases db <;> simpa [get_db] using hdb
  have hct1 : s1.client_table = s.client_table := by rw [← hs1]
  have hlog1 : s1.files.logfile = some (s.files.logfile.getD [] ++
      (s.append_handle.getD [] ++
        listener_record false lle.connection_id (db_log_name s db) lle.location ior)) := by
    rw [← hs1]
  have hh1 : s1.append_handle = some [] := by rw [← hs1]
  have hn1 : db_log_name s1 db = db_log_name s db := by
    rw [← hs1]; cases db <;> rfl
  have hr : gconf_database_corba_readd_listener s1 db cl "from-saved-state".toList
      lle.location
      = ((d.listeners.getD ⟨[], 1⟩).next_cnxn,
          set_db s1 db { d with
            listeners := some
              ⟨(d.listeners.getD ⟨[], 1⟩).subscriptions ++
                [⟨(d.listeners.getD ⟨[], 1⟩).next_cnxn, lle.location,
                  ListenerData.corba (some "from-saved-state".toList) cl⟩],
                (d.listeners.getD ⟨[], 1⟩).next_cnxn + 1⟩ }) := by
    simp [gconf_database_corba_readd_listener, hdb1, gconf_listeners_add]
  rw [hr]
  simp only
  generalize hd2 : ({ d with
      listeners := some
        ⟨(d.listeners.getD ⟨[], 1⟩).subscriptions ++
          [⟨(d.listeners.getD ⟨[], 1⟩).next_cnxn, lle.location,
            ListenerData.corba (some "from-saved-state".toList) cl⟩],
          (d.listeners.getD ⟨[], 1⟩).next_cnxn + 1⟩ } : GConfDatabase) = d2
  have hd2n : d2.persistent_name = d.persistent_name := by rw [← hd2]
  have hget := get_db_set_db s1 db d d2 hdb1
  have hct2 : (set_db s1 db d2).client_table = s.client_table := by
    rw [← hct1]; cases db <;> rfl
  have hlog2 : (set_db s1 db d2).files = s1.files := by cases db <;> rfl
  have hh2 : (set_db s1 db d2).append_handle = some [] := by
    rw [← hh1]; cases db <;> rfl
  have hn2 : db_log_name (set_db s1 db d2) db = db_log_name s db := by
    rw [← hn1]
    unfold db_log_name
    rw [hget, hdb1]
    simp [hd2n]
  by_cases hu : env.ConfigListener_update_listener cl = true
  · simp only [hu, if_true]
    rw [gconfd_logfile_change_listener_ok env _ db true _ cl _ ior hopen hprintf hflush hior]
    simp only [hlog2, hlog1, hh2, hn2, Option.getD_some, List.nil_append]
    refine ⟨?_, hct2, ?_⟩
    · rw [← hget]; cases db <;> rfl
    · simp
  · simp only [hu, Bool.false_eq_true, if_false, List.append_nil]
    exact ⟨hget, hct2, by rw [hlog2, hlog1]⟩

/-- Embeds `gconfd_corba_logfile_read`, once the tables that its read loop builds are known. -/
theorem gconfd_corba_logfile_read_eq (env : Env) (s : Daemon) (f : List Char)
    (t : ReplayTables) (hf : (close_append_handle env s).files.logfile = some f)
    (ht : read_loop f ⟨[], []⟩ = t) :
    gconfd_corba_logfile_read env s
      = t.entries.foldl (listener_logentry_restore_and_destroy_foreach env)
          (t.clients.foldl (restore_client env) (close_append_handle env s)) := by
  unfold gconfd_corba_logfile_read
  simp only [hf, ht]

end Corba


/-! ## Replaying twice: the client table -/

theorem join_lines_append (a b : List (List Char)) :
    join_lines (a ++ b) = join_lines a ++ join_lines b := by
  induction a with
  | nil => rfl
  | cons l ls ih => simp [join_lines, ih]

namespace Corba

theorem close_append_handle_frame (env : Env) (s : Daemon) (hclose : env.fclose_ok = true) :
    (close_append_handle env s).client_table = s.client_table ∧
    (close_append_handle env s).append_handle = none ∧
    log_text (close_append_handle env s) = log_text s ∧
    (s.files.logfile.isSome = true →
      (close_append_handle env s).files.logfile = some (log_text s)) := by
  unfold close_append_handle log_text
  cases hh : s.append_handle with
  | none =>
    simp only [hh, Option.getD_none, List.append_nil, true_and]
    intro h
    cases hl : s.files.logfile with
    | none => rw [hl] at h; simp at h
    | some f => simp
  | some buf => simp [hclose]

/-- With a writable log, `log_client_change` appends its record to the log text and
changes nothing else that matters here. -/
theorem log_client_change_log_text (env : Env) (s : Daemon) (cl : ConfigListener)
    (add : Bool) (ior : CString) (hw : log_writable env)
    (hior : env.gconf_object_to_string cl = some ior) :
    log_text (log_client_change env s cl add) = log_text s ++ client_record add ior ∧
    (log_client_change env s cl add).files.logfile.isSome = true := by
  obtain ⟨hopen, hprintf, hflush, _⟩ := hw
  unfold log_client_change log_text
  simp only [hior, open_append_handle]
  cases hh : s.append_handle with
  | none => simp [hopen, write_and_flush, hprintf, hflush]
  | some buf => simp [write_and_flush, hprintf, hflush, hh]

theorem log_client_change_none (env : Env) (s : Daemon) (cl : ConfigListener)
    (add : Bool) (hior : env.gconf_object_to_string cl = none) :
    log_client_change env s cl add = s := by
  unfold log_client_change
  simp [hior]

theorem add_client_client_table (env : Env) (s : Daemon) (cl : ConfigListener) :
    (add_client env s cl).client_table
      = some (g_hash_table_insert gconf_CORBA_Object_equal (s.client_table.getD []) cl) := by
  unfold add_client
  simp only
  cases hl : g_hash_table_lookup gconf_CORBA_Object_equal (s.client_table.getD []) cl with
  | some old => simp [g_hash_table_insert, hl]
  | none =>
    simp only [log_client_add]
    rw [(log_client_change_frame env _ cl true).1]

/-- With a writable log, `gconfd_logfile_change_listener` appends its record to the log
text (nothing when the listener cannot be stringified) and leaves the client table and
the databases alone. -/
theorem gconfd_logfile_change_listener_log_text (env : Env) (s : Daemon) (db : DbRef)
    (add : Bool) (id : Nat) (cl : ConfigListener) (location : CString)
    (hw : log_writable env) :
    (gconfd_logfile_change_listener env s db add id cl location).2.client_table
      = s.client_table ∧
    (gconfd_logfile_change_listener env s db add id cl location).2.default_db
      = s.default_db ∧
    (gconfd_logfile_change_listener env s db add id cl location).2.db_list = s.db_list ∧
    (s.files.logfile.isSome = true →
      (gconfd_logfile_change_listener env s db add id cl location).2.files.logfile.isSome
        = true) ∧
    log_text (gconfd_logfile_change_listener env s db add id cl location).2
      = log_text s ++
        (match env.gconf_object_to_string cl with
          | some ior => listener_record add id (db_log_name s db) location ior
          | none => []) := by
  obtain ⟨hopen, hprintf, hflush, _⟩ := hw
  cases hior : env.gconf_object_to_string cl with
  | some ior =>
    rw [gconfd_logfile_change_listener_ok env s db add id cl location ior hopen hprintf
      hflush hior]
    simp [log_text]
  | none =>
    unfold gconfd_logfile_change_listener open_append_handle log_text
    cases hh : s.append_handle with
    | none => simp [hopen, hior]
    | some buf => simp [hior, hh]

theorem readd_listener_frame (s : Daemon) (db : DbRef) (cl : ConfigListener)
    (name location : CString) :
    (gconf_database_corba_readd_listener s db cl name location).2.client_table
      = s.client_table ∧
    (gconf_database_corba_readd_listener s db cl name location).2.files = s.files ∧
    (gconf_database_corba_readd_listener s db cl name location).2.append_handle
      = s.append_handle ∧
    db_log_name (gconf_database_corba_readd_listener s db cl name location).2 db
      = db_log_name s db := by
  unfold gconf_database_corba_readd_listener
  cases hd : get_db s db with
  | none => simp
  | some d =>
    simp only
    refine ⟨by cases db <;> rfl, by cases db <;> rfl, by cases db <;> rfl, ?_⟩
    unfold db_log_name
    rw [get_db_set_db s db d _ hd, hd]
    rfl

theorem db_log_name_congr (s s' : Daemon) (db : DbRef) (_h1 : s'.default_db = s.default_db)
    (h2 : s'.db_list = s.db_list) : db_log_name s' db = db_log_name s db := by
  unfold db_log_name
  cases db with
  | default_db => rfl
  | listed i => simp [get_db, h2]

/-- With a writable log, `restore_listener` appends to the log text at most two listener
records, each carrying the log name of the database, the location of the entry and a
stringified object reference; the client table is untouched. -/
theorem restore_listener_appends (env : Env) (s : Daemon) (db : DbRef)
    (lle : ListenerLogEntry) (hw : log_writable env) :
    (restore_listener env s db lle).client_table = s.client_table ∧
    (s.files.logfile.isSome = true →
      (restore_listener env s db lle).files.logfile.isSome = true) ∧
    ∃ recs : List (List Char),
      log_text (restore_listener env s db lle) = log_text s ++ join_lines recs ∧
      ∀ l ∈ recs, ∃ add id cl ior, env.gconf_object_to_string cl = some ior ∧
        l = listener_record_text add id (db_log_name s db) lle.location ior := by
  unfold restore_listener
  cases hcl : env.CORBA_ORB_string_to_object lle.ior with
  | none => exact ⟨rfl, fun h => h, [], by simp [join_lines], fun l hl => by simp at hl⟩
  | some cl =>
    simp only
    obtain ⟨a1, a2, a3, a4, a5⟩ := gconfd_logfile_change_listener_log_text env s db false
      lle.connection_id cl lle.location hw
    generalize (gconfd_logfile_change_listener env s db false lle.connection_id cl
      lle.location).2 = s1 at a1 a2 a3 a4 a5
    have hn1 : db_log_name s1 db = db_log_name s db := db_log_name_congr s s1 db a2 a3
    obtain ⟨b1, b2, b3, b4⟩ := readd_listener_frame s1 db cl "from-saved-state".toList
      lle.location
    generalize gconf_database_corba_readd_listener s1 db cl "from-saved-state".toList
      lle.location = r at b1 b2 b3 b4
    have hlt : log_text r.2 = log_text s1 := by
      unfold log_text; rw [b2, b3]
    by_cases hu : env.ConfigListener_update_listener cl = true
    · simp only [hu, if_true]
      obtain ⟨c1, _, _, c4, c5⟩ := gconfd_logfile_change_listener_log_text env r.2 db true
        r.1 cl lle.location hw
      refine ⟨by rw [c1, b1, a1], fun h => c4 (by rw [b2]; exact a4 h), ?_⟩
      rw [c5, hlt, a5, b4, hn1]
      cases hior : env.gconf_object_to_string cl with
      | none => exact ⟨[], by simp [join_lines], fun l hl => by simp at hl⟩
      | some ior =>
        refine ⟨[listener_record_text false lle.connection_id (db_log_name s db)
            lle.location ior,
          listener_record_text true r.1 (db_log_name s db) lle.location ior], ?_, ?_⟩
        · simp [join_lines, listener_record]
        · intro l hl
          simp only [List.mem_cons, List.mem_singleton, List.not_mem_nil, or_false] at hl
          rcases hl with hl | hl
          · exact ⟨false, _, cl, ior, hior, hl⟩
          · exact ⟨true, _, cl, ior, hior, hl⟩
    · simp only [hu, Bool.false_eq_true, if_false]
      refine ⟨by rw [b1, a1], fun h => by rw [b2]; exact a4 h, ?_⟩
      rw [hlt, a5]
      cases hior : env.gconf_object_to_string cl with
      | none => exact ⟨[], by simp [join_lines], fun l hl => by simp at hl⟩
      | some ior =>
        refine ⟨[listener_record_text false lle.connection_id (db_log_name s db)
            lle.location ior], ?_, ?_⟩
        · simp [join_lines, listener_record]
        · intro l hl
          simp only [List.mem_singleton] at hl
          exact ⟨false, _, cl, ior, hior, hl⟩

end Corba


/-! ## The fields of a scanned record come from the line -/

namespace Corba

end Corba


/-! ## Replaying twice: the sample world -/

namespace Corba

end Corba

/-! ## Replay of the records that the daemon writes -/

/-- Claim C3: for every listener key `k` and every prior listener map, parsing a
line that scans as the ADD record of `k` and then a line that scans as the REMOVE record
of the same four fields leaves a map that does not contain `k` (whether or not `k` was
there before); both lines are reported as handled, the key of a scanned record has a
non-zero connection id and non-empty fields, and from the empty map the result is the
empty map, so nothing is left to restore. In particular this holds for the ADD and
REMOVE lines that `gconfd_logfile_change_listener` writes for any non-zero connection
id and non-empty database name, watched path and endpoint. -/
theorem parse_listener_entry_add_then_remove :
    (∀ (entries : GHashTable ListenerLogEntry) (add_line remove_line : CString)
        (k : ListenerLogEntry),
      scan_listener_entry add_line = Scanned.record true k →
      scan_listener_entry remove_line = Scanned.record false k →
      (k.connection_id ≠ 0 ∧ k.address ≠ [] ∧ k.location ≠ [] ∧ k.ior ≠ []) ∧
      (parse_listener_entry entries add_line).1 = true ∧
      (parse_listener_entry (parse_listener_entry entries add_line).2 remove_line).1
        = true ∧
      g_hash_table_lookup listener_logentry_equal
        (parse_listener_entry (parse_listener_entry entries add_line).2 remove_line).2 k
        = none ∧
      k ∉ (parse_listener_entry (parse_listener_entry entries add_line).2 remove_line).2 ∧
      (entries = [] →
        (parse_listener_entry (parse_listener_entry entries add_line).2 remove_line).2
          = [])) ∧
    (∀ (entries : GHashTable ListenerLogEntry) (id : Nat) (db loc ior : CString),
      id ≠ 0 → id < GUINT_MODULUS → db ≠ [] → loc ≠ [] → ior ≠ [] →
      (⟨id, ior, db, loc⟩ : ListenerLogEntry) ∉
        (parse_listener_entry
          (parse_listener_entry entries
            (Corba.listener_record_text true id db loc ior)).2
          (Corba.listener_record_text false id db loc ior)).2 ∧
      (parse_listener_entry
          (parse_listener_entry []
            (Corba.listener_record_text true id db loc ior)).2
          (Corba.listener_record_text false id db loc ior)).2 = []) :=
  ⟨fun entries a r k ha hr => add_then_remove_of_scanned entries a r k ha hr,
   fun entries id db loc ior h1 h2 h3 h4 h5 =>
    ⟨(add_then_remove_of_scanned entries _ _ ⟨id, ior, db, loc⟩
        (Corba.scan_listener_record_text true id db loc ior h1 h2 h3 h4 h5)
        (Corba.scan_listener_record_text false id db loc ior h1 h2 h3 h4 h5)).2.2.2.2.1,
     (add_then_remove_of_scanned [] _ _ ⟨id, ior, db, loc⟩
        (Corba.scan_listener_record_text true id db loc ior h1 h2 h3 h4 h5)
        (Corba.scan_listener_record_text false id db loc ior h1 h2 h3 h4 h5)).2.2.2.2.2
        rfl⟩⟩

/-- Witness of claim C3 on the log of the spec: `ADD 5 "def" "/x" "IOR1"` followed by
`REMOVE 5 "def" "/x" "IOR1"`; read from a file, the two lines leave both replay tables
empty. -/
theorem parse_listener_entry_add_then_remove_witness :
    scan_listener_entry "ADD 5 \"def\" \"/x\" \"IOR1\"".toList
      = Scanned.record true ⟨5, "IOR1".toList, "def".toList, "/x".toList⟩ ∧
    scan_listener_entry "REMOVE 5 \"def\" \"/x\" \"IOR1\"".toList
      = Scanned.record false ⟨5, "IOR1".toList, "def".toList, "/x".toList⟩ ∧
    (parse_listener_entry
      (parse_listener_entry [] "ADD 5 \"def\" \"/x\" \"IOR1\"".toList).2
      "REMOVE 5 \"def\" \"/x\" \"IOR1\"".toList).2 = [] ∧
    (parse_listener_entry
      (parse_listener_entry []
        (Corba.listener_record_text true 5 "def".toList "/x".toList "IOR1".toList)).2
      (Corba.listener_record_text false 5 "def".toList "/x".toList "IOR1".toList)).2
      = [] ∧
    read_loop
      "ADD 5 \"def\" \"/x\" \"IOR1\"\nREMOVE 5 \"def\" \"/x\" \"IOR1\"\n".toList
      ⟨[], []⟩ = ⟨[], []⟩ := by
  refine ⟨by decide, by decide, ?_, ?_, ?_⟩
  · exact (parse_listener_entry_add_then_remove.1 []
      "ADD 5 \"def\" \"/x\" \"IOR1\"".toList "REMOVE 5 \"def\" \"/x\" \"IOR1\"".toList
      ⟨5, "IOR1".toList, "def".toList, "/x".toList⟩ (by decide) (by decide)).2.2.2.2.2 rfl
  · exact (parse_listener_entry_add_then_remove.2 [] 5 "def".toList "/x".toList
      "IOR1".toList (by decide) (by decide) (by decide) (by decide) (by decide)).2
  · have e : "ADD 5 \"def\" \"/x\" \"IOR1\"\nREMOVE 5 \"def\" \"/x\" \"IOR1\"\n".toList
        = "ADD 5 \"def\" \"/x\" \"IOR1\"".toList ++
          '\n' :: ("REMOVE 5 \"def\" \"/x\" \"IOR1\"".toList ++ '\n' :: []) := by decide
    rw [e, read_loop_line _ _ _ (by decide) (by decide),
      read_loop_line _ _ _ (by decide) (by decide), read_loop_nil]
    decide

/-- Claim C4: a well-formed REMOVE line for a key that the listener map does not
contain leaves the map unchanged and is reported as handled (`TRUE`); the same holds for
`parse_client_entry` and a CLIENTREMOVE of an endpoint that the client map does not
contain; a log that consists of a single REMOVE record (with or without its final
newline) is read into two empty tables, so nothing is restored. In particular this
holds for the REMOVE and CLIENTREMOVE lines that the daemon itself writes. -/
theorem parse_entry_remove_unknown :
    (∀ (entries : GHashTable ListenerLogEntry) (text : CString) (k : ListenerLogEntry),
      scan_listener_entry text = Scanned.record false k →
      g_hash_table_lookup listener_logentry_equal entries k = none →
      parse_listener_entry entries text = (true, entries)) ∧
    (∀ (clients : GHashTable CString) (text : CString) (ior : CString),
      scan_client_entry text = Scanned.record false ior →
      g_hash_table_lookup g_str_equal clients ior = none →
      parse_client_entry clients text = (true, clients)) ∧
    (∀ (line : List Char) (k : ListenerLogEntry),
      scan_listener_entry line = Scanned.record false k →
      '\n' ∉ line → Char.ofNat 0 ∉ line →
      read_loop (line ++ ['\n']) ⟨[], []⟩ = ⟨[], []⟩ ∧
      read_loop line ⟨[], []⟩ = ⟨[], []⟩) ∧
    (∀ (entries : GHashTable ListenerLogEntry) (id : Nat) (db loc ior : CString),
      id ≠ 0 → id < GUINT_MODULUS → db ≠ [] → loc ≠ [] → ior ≠ [] →
      (⟨id, ior, db, loc⟩ : ListenerLogEntry) ∉ entries →
      parse_listener_entry entries (Corba.listener_record_text false id db loc ior)
        = (true, entries)) ∧
    (∀ (clients : GHashTable CString) (ior : CString),
      ior ∉ clients →
      parse_client_entry clients (Corba.client_record_text false ior)
        = (true, clients)) :=
  ⟨remove_unknown_of_scanned.1, remove_unknown_of_scanned.2.1,
   remove_unknown_of_scanned.2.2,
   fun entries id db loc ior h1 h2 h3 h4 h5 hk =>
    remove_unknown_of_scanned.1 entries _ ⟨id, ior, db, loc⟩
      (Corba.scan_listener_record_text false id db loc ior h1 h2 h3 h4 h5)
      ((lookup_eq_none_iff _ listener_logentry_equal_iff entries _).2 hk),
   fun clients ior hk =>
    remove_unknown_of_scanned.2.1 clients _ ior
      (Corba.scan_client_record_text false ior).2
      ((lookup_eq_none_iff _ g_str_equal_iff clients _).2 hk)⟩

/-- Witness of claim C4 on the log of the spec, `REMOVE 7 "def" "/y" "IOR2"` alone, and
on a CLIENTREMOVE for a client map that holds another endpoint. -/
theorem parse_entry_remove_unknown_witness :
    parse_listener_entry [] "REMOVE 7 \"def\" \"/y\" \"IOR2\"".toList = (true, []) ∧
    parse_client_entry ["IOR1".toList] "CLIENTREMOVE \"IOR2\"".toList
      = (true, ["IOR1".toList]) ∧
    read_loop ("REMOVE 7 \"def\" \"/y\" \"IOR2\"".toList ++ ['\n']) ⟨[], []⟩ = ⟨[], []⟩ ∧
    parse_listener_entry [⟨5, "IOR1".toList, "def".toList, "/x".toList⟩]
      (Corba.listener_record_text false 7 "def".toList "/y".toList "IOR2".toList)
      = (true, [⟨5, "IOR1".toList, "def".toList, "/x".toList⟩]) ∧
    parse_client_entry ["IOR1".toList] (Corba.client_record_text false "IOR2".toList)
      = (true, ["IOR1".toList]) :=
  ⟨parse_entry_remove_unknown.1 [] _ ⟨7, "IOR2".toList, "def".toList, "/y".toList⟩
      (by decide) (by decide),
   parse_entry_remove_unknown.2.1 ["IOR1".toList] _ "IOR2".toList (by decide) (by decide),
   (parse_entry_remove_unknown.2.2.1 "REMOVE 7 \"def\" \"/y\" \"IOR2\"".toList
      ⟨7, "IOR2".toList, "def".toList, "/y".toList⟩ (by decide) (by decide) (by decide)).1,
   parse_entry_remove_unknown.2.2.2.1 _ 7 "def".toList "/y".toList "IOR2".toList
      (by decide) (by decide) (by decide) (by decide) (by decide) (by decide),
   parse_entry_remove_unknown.2.2.2.2 _ "IOR2".toList (by decide)⟩

/-- Claim C5: when the listener map already contains key `k`, another ADD line for `k`
leaves the map unchanged (the stored entry is kept, nothing is added) and is reported as
handled; so the same ADD line parsed twice in a row gives the map of parsing it once.
The same holds for a CLIENTADD of an endpoint that the client map already contains, and
in particular for the ADD and CLIENTADD lines that the daemon itself writes. -/
theorem parse_entry_add_twice :
    (∀ (entries : GHashTable ListenerLogEntry) (text : CString) (k old : ListenerLogEntry),
      scan_listener_entry text = Scanned.record true k →
      g_hash_table_lookup listener_logentry_equal entries k = some old →
      parse_listener_entry entries text = (true, entries)) ∧
    (∀ (entries : GHashTable ListenerLogEntry) (text : CString) (k : ListenerLogEntry),
      scan_listener_entry text = Scanned.record true k →
      parse_listener_entry (parse_listener_entry entries text).2 text
        = parse_listener_entry entries text) ∧
    (∀ (clients : GHashTable CString) (text : CString) (ior old : CString),
      scan_client_entry text = Scanned.record true ior →
      g_hash_table_lookup g_str_equal clients ior = some old →
      parse_client_entry clients text = (true, clients)) ∧
    (∀ (clients : GHashTable CString) (text : CString) (ior : CString),
      scan_client_entry text = Scanned.record true ior →
      parse_client_entry (parse_client_entry clients text).2 text
        = parse_client_entry clients text) ∧
    (∀ (entries : GHashTable ListenerLogEntry) (id : Nat) (db loc ior : CString),
      id ≠ 0 → id < GUINT_MODULUS → db ≠ [] → loc ≠ [] → ior ≠ [] →
      (⟨id, ior, db, loc⟩ : ListenerLogEntry) ∈ entries →
      parse_listener_entry entries (Corba.listener_record_text true id db loc ior)
        = (true, entries)) ∧
    (∀ (clients : GHashTable CString) (ior : CString),
      ior ∈ clients →
      parse_client_entry clients (Corba.client_record_text true ior)
        = (true, clients)) := by
  refine ⟨add_twice_of_scanned.1, add_twice_of_scanned.2.1, add_twice_of_scanned.2.2.1,
    add_twice_of_scanned.2.2.2, ?_, ?_⟩
  · intro entries id db loc ior h1 h2 h3 h4 h5 hk
    cases hl : g_hash_table_lookup listener_logentry_equal entries ⟨id, ior, db, loc⟩ with
    | none => exact absurd hk ((lookup_eq_none_iff _ listener_logentry_equal_iff _ _).1 hl)
    | some old =>
      exact add_twice_of_scanned.1 entries _ ⟨id, ior, db, loc⟩ old
        (Corba.scan_listener_record_text true id db loc ior h1 h2 h3 h4 h5) hl
  · intro clients ior hk
    cases hl : g_hash_table_lookup g_str_equal clients ior with
    | none => exact absurd hk ((lookup_eq_none_iff _ g_str_equal_iff _ _).1 hl)
    | some old =>
      exact add_twice_of_scanned.2.2.1 clients _ ior old
        (Corba.scan_client_record_text true ior).2 hl

/-- Witness of claim C5: a second `ADD 5 "def" "/x" "IOR1"` and a second
`CLIENTADD "IOR1"`. -/
theorem parse_entry_add_twice_witness :
    parse_listener_entry [⟨5, "IOR1".toList, "def".toList, "/x".toList⟩]
      "ADD 5 \"def\" \"/x\" \"IOR1\"".toList
      = (true, [⟨5, "IOR1".toList, "def".toList, "/x".toList⟩]) ∧
    parse_client_entry ["IOR1".toList] "CLIENTADD \"IOR1\"".toList
      = (true, ["IOR1".toList]) ∧
    parse_listener_entry [⟨5, "IOR1".toList, "def".toList, "/x".toList⟩]
      (Corba.listener_record_text true 5 "def".toList "/x".toList "IOR1".toList)
      = (true, [⟨5, "IOR1".toList, "def".toList, "/x".toList⟩]) ∧
    parse_client_entry ["IOR1".toList] (Corba.client_record_text true "IOR1".toList)
      = (true, ["IOR1".toList]) :=
  ⟨parse_entry_add_twice.1 _ _ ⟨5, "IOR1".toList, "def".toList, "/x".toList⟩
      ⟨5, "IOR1".toList, "def".toList, "/x".toList⟩ (by decide) (by decide),
   parse_entry_add_twice.2.2.1 _ _ "IOR1".toList "IOR1".toList (by decide) (by decide),
   parse_entry_add_twice.2.2.2.2.1 _ 5 "def".toList "/x".toList "IOR1".toList
      (by decide) (by decide) (by decide) (by decide) (by decide) (by simp),
   parse_entry_add_twice.2.2.2.2.2 _ "IOR1".toList (by simp)⟩

/-! ## Writing to the log: flushed records -/

namespace Corba

/-- With a writable log, a record handed to `fprintf` and `fflush` after
`open_append_handle` is in the file when the two return, and the handle buffers
nothing. -/
theorem open_write_and_flush (env : Env) (s : Daemon) (text : List Char)
    (hw : log_writable env) :
    (open_append_handle env s).1 = true ∧
    write_and_flush env (open_append_handle env s).2 text
      = (true, { s with
          append_handle := some []
          files := { s.files with logfile := some (log_text s ++ text) } }) := by
  obtain ⟨h1, h2, h3, _⟩ := hw
  cases hh : s.append_handle with
  | none =>
    simp [open_append_handle, write_and_flush, hh, h1, h2, h3, log_text]
  | some buf =>
    simp [open_append_handle, write_and_flush, hh, h2, h3, log_text]

/-- With a writable log and a client whose reference can be stringified,
`log_client_change` leaves the state with the record flushed to the file. -/
theorem log_client_change_flushed (env : Env) (s : Daemon) (cl : ConfigListener)
    (add : Bool) (ior : CString) (hw : log_writable env)
    (hior : env.gconf_object_to_string cl = some ior) :
    log_client_change env s cl add
      = { s with
          append_handle := some []
          files := { s.files with logfile := some (log_text s ++ client_record add ior) } } := by
  obtain ⟨ho, hwf⟩ := open_write_and_flush env s (client_record add ior) hw
  unfold log_client_change
  simp only [hior]
  cases hopen : open_append_handle env s with
  | mk ok s1 =>
    rw [hopen] at ho hwf
    simp only at ho hwf
    subst ho
    simp only [hwf]

end Corba


namespace Corba

/-- The call `add_client` for a client that is not in the table, with a writable log and a
reference that can be stringified: the client is put into the table and its CLIENTADD
record is flushed to the file. -/
theorem add_client_new (env : Env) (s : Daemon) (cl : ConfigListener) (ior : CString)
    (hw : log_writable env) (hior : env.gconf_object_to_string cl = some ior)
    (hl : g_hash_table_lookup gconf_CORBA_Object_equal (s.client_table.getD []) cl = none) :
    add_client env s cl
      = { s with
          need_log_cleanup := true
          client_table := some (s.client_table.getD [] ++ [cl])
          append_handle := some []
          files := { s.files with logfile := some (log_text s ++ client_record true ior) } } := by
  unfold add_client log_client_add
  simp only [hl, g_hash_table_insert]
  rw [log_client_change_flushed env _ cl true ior hw hior]
  rfl

/-- The call `add_client` for a client that the table holds: only the clean-up flag is set. -/
theorem add_client_known (env : Env) (s : Daemon) (table : GHashTable ConfigListener)
    (cl : ConfigListener) (ht : s.client_table = some table) (hmem : cl ∈ table) :
    add_client env s cl = { s with need_log_cleanup := true } := by
  cases hl : g_hash_table_lookup gconf_CORBA_Object_equal table cl with
  | none =>
    exact absurd hmem ((lookup_eq_none_iff _ gconf_CORBA_Object_equal_iff table cl).1 hl)
  | some old =>
    unfold add_client
    simp [ht, hl]

end Corba


/-- The D-Bus `add_client` run twice for the same name: the second call finds the
name and returns. -/
theorem dbus_add_client_idempotent (s : DBus.Daemon) (name : CString) :
    DBus.add_client (DBus.add_client s name) name = DBus.add_client s name := by
  cases hl : g_hash_table_lookup g_str_equal (s.client_hash.getD []) name with
  | some old =>
    have h1 : DBus.add_client s name = { s with client_hash := some (s.client_hash.getD []) } := by
      simp [DBus.add_client, hl]
    rw [h1]
    simp [DBus.add_client, hl]
  | none =>
    have hl2 : g_hash_table_lookup g_str_equal
        (g_hash_table_insert g_str_equal (s.client_hash.getD []) name) name = some name := by
      rw [lookup_eq_some_iff _ g_str_equal_iff]
      simp [g_hash_table_insert, hl]
    have h1 : DBus.add_client s name
        = { s with
            client_hash := some (g_hash_table_insert g_str_equal (s.client_hash.getD []) name) } := by
      simp [DBus.add_client, hl]
    rw [h1]
    simp [DBus.add_client, hl2]

/-! ## Replay: records with the connection id 0 -/

/-- A line with the verb of a listener record whose connection id is not converted, is
out of range, or is 0 as a `guint` is dropped by the scanner. -/
theorem scan_listener_entry_id_zero (text p : CString) (add : Bool)
    (hverb : (if strncmp_eq text "ADD".toList then some (true, text.drop 3)
        else if strncmp_eq text "REMOVE".toList then some (false, text.drop 6)
        else none) = some (add, p))
    (hzero : (strtoul (skip_spaces p)).value % GUINT_MODULUS = 0) :
    scan_listener_entry text = Scanned.ignored := by
  unfold scan_listener_entry
  simp only [hverb]
  split
  · rfl
  · simp [hzero]



/-- Claim C11: for every listener map and every line with the verb ADD or REMOVE whose
connection id field parses to 0 (the value `strtoul` returns, taken as a `guint`, is 0:
the digits `0`, a value that is a multiple of 2^32, or no digits at all),
`parse_listener_entry` returns `TRUE` and leaves the map as it was, whatever follows the
id; in particular for the record that `gconfd_logfile_change_listener` would print for
the id 0, with any database name, location and IOR. -/
theorem parse_listener_entry_connection_id_zero :
    (∀ (entries : GHashTable ListenerLogEntry) (text : CString),
      strncmp_eq text "ADD".toList = true →
      (strtoul (skip_spaces (text.drop 3))).value % GUINT_MODULUS = 0 →
      parse_listener_entry entries text = (true, entries)) ∧
    (∀ (entries : GHashTable ListenerLogEntry) (text : CString),
      strncmp_eq text "ADD".toList = false →
      strncmp_eq text "REMOVE".toList = true →
      (strtoul (skip_spaces (text.drop 6))).value % GUINT_MODULUS = 0 →
      parse_listener_entry entries text = (true, entries)) ∧
    (∀ (entries : GHashTable ListenerLogEntry) (add : Bool) (db loc ior : CString),
      parse_listener_entry entries (Corba.listener_record_text add 0 db loc ior)
        = (true, entries)) := by
  refine ⟨?_, ?_, ?_⟩
  · intro entries text hadd hzero
    have h := scan_listener_entry_id_zero text (text.drop 3) true (by rw [if_pos hadd]) hzero
    simp [parse_listener_entry, h]
  · intro entries text hadd hrem hzero
    have h := scan_listener_entry_id_zero text (text.drop 6) false (by rw [hadd, hrem]; rfl)
      hzero
    simp [parse_listener_entry, h]
  · intro entries add db loc ior
    have hz : (0 : Nat) < GUINT_MODULUS := by decide
    obtain ⟨h1, h2⟩ := Corba.strtoul_fmt_u 0 hz
      (gconf_quote_string db ++ ' ' :: (gconf_quote_string loc ++ ' ' ::
        gconf_quote_string ior))
    have hskip : skip_spaces (' ' :: (Corba.fmt_u 0 ++ ' ' ::
        (gconf_quote_string db ++ ' ' :: (gconf_quote_string loc ++ ' ' ::
          gconf_quote_string ior))))
        = Corba.fmt_u 0 ++ ' ' ::
        (gconf_quote_string db ++ ' ' :: (gconf_quote_string loc ++ ' ' ::
          gconf_quote_string ior)) := by
      rw [skip_spaces]
      simp only [g_ascii_isspace, beq_self_eq_true, Bool.true_or, if_true]
      exact h2
    have h : scan_listener_entry (Corba.listener_record_text add 0 db loc ior)
        = Scanned.ignored := by
      cases add
      · refine scan_listener_entry_id_zero _ (' ' :: (Corba.fmt_u 0 ++ ' ' ::
          (gconf_quote_string db ++ ' ' :: (gconf_quote_string loc ++ ' ' ::
            gconf_quote_string ior)))) false ?_ ?_
        · simp [Corba.listener_record_text, strncmp_eq]
        · rw [hskip, h1]; rfl
      · refine scan_listener_entry_id_zero _ (' ' :: (Corba.fmt_u 0 ++ ' ' ::
          (gconf_quote_string db ++ ' ' :: (gconf_quote_string loc ++ ' ' ::
            gconf_quote_string ior)))) true ?_ ?_
        · simp [Corba.listener_record_text, strncmp_eq]
        · rw [hskip, h1]; rfl
    simp [parse_listener_entry, h]

/-- Witness of claim C11: `ADD 0 "def" "/x" "IOR1"`, a REMOVE of the id 0 whose other
fields are missing, the id 4294967296 (which is 0 as a `guint`) and an id without
digits leave a map with one entry as it was. -/
theorem parse_listener_entry_connection_id_zero_witness :
    parse_listener_entry [⟨5, "IOR1".toList, "def".toList, "/x".toList⟩]
      "ADD 0 \"def\" \"/x\" \"IOR1\"".toList
      = (true, [⟨5, "IOR1".toList, "def".toList, "/x".toList⟩]) ∧
    parse_listener_entry [⟨5, "IOR1".toList, "def".toList, "/x".toList⟩]
      "REMOVE 0 junk".toList
      = (true, [⟨5, "IOR1".toList, "def".toList, "/x".toList⟩]) ∧
    parse_listener_entry [⟨5, "IOR1".toList, "def".toList, "/x".toList⟩]
      "ADD 4294967296 \"def\" \"/x\" \"IOR1\"".toList
      = (true, [⟨5, "IOR1".toList, "def".toList, "/x".toList⟩]) ∧
    parse_listener_entry [⟨5, "IOR1".toList, "def".toList, "/x".toList⟩]
      "REMOVE \"def\" \"/x\" \"IOR1\"".toList
      = (true, [⟨5, "IOR1".toList, "def".toList, "/x".toList⟩]) :=
  ⟨parse_listener_entry_connection_id_zero.1 _ _ (by decide) (by decide),
   parse_listener_entry_connection_id_zero.2.1 _ _ (by decide) (by decide) (by decide),
   parse_listener_entry_connection_id_zero.1 _ _ (by decide) (by decide),
   parse_listener_entry_connection_id_zero.2.1 _ _ (by decide) (by decide) (by decide)⟩

/-! ## Replay: the written records are parsed back -/

/-- Claim C12: for every verb, every non-zero connection id (a `guint`) and all
non-empty database names, locations and IORs (whatever characters they hold: spaces,
double quotes, backslashes), the line that `gconfd_logfile_change_listener` writes is
scanned by `parse_listener_entry` into the record with the same verb, the same id and the
same three strings, each in its own field, so that the ADD line parsed into the empty map
gives the map with that one entry; a line that `log_client_change` writes is scanned by
`parse_client_entry` into the same verb and the same IOR (and is left to it by
`parse_listener_entry`). The two writers append these lines, each followed by a
newline, to the log. -/
theorem written_records_parse_back :
    (∀ (add : Bool) (id : Nat) (db loc ior : CString),
      id ≠ 0 → id < GUINT_MODULUS → db ≠ [] → loc ≠ [] → ior ≠ [] →
      scan_listener_entry (Corba.listener_record_text add id db loc ior)
        = Scanned.record add ⟨id, ior, db, loc⟩ ∧
      parse_listener_entry [] (Corba.listener_record_text true id db loc ior)
        = (true, [⟨id, ior, db, loc⟩])) ∧
    (∀ (add : Bool) (ior : CString),
      parse_listener_entry [] (Corba.client_record_text add ior) = (false, []) ∧
      scan_client_entry (Corba.client_record_text add ior) = Scanned.record add ior ∧
      parse_client_entry [] (Corba.client_record_text true ior) = (true, [ior])) ∧
    (∀ (env : Corba.Env) (s : Corba.Daemon) (db : Corba.DbRef) (add : Bool) (id : Nat)
        (cl : ConfigListener) (loc ior : CString),
      Corba.log_writable env → env.gconf_object_to_string cl = some ior →
      Corba.log_text (Corba.gconfd_logfile_change_listener env s db add id cl loc).2
        = Corba.log_text s ++
          (Corba.listener_record_text add id (Corba.db_log_name s db) loc ior ++ ['\n'])) ∧
    (∀ (env : Corba.Env) (s : Corba.Daemon) (add : Bool) (cl : ConfigListener)
        (ior : CString),
      Corba.log_writable env → env.gconf_object_to_string cl = some ior →
      Corba.log_text (Corba.log_client_change env s cl add)
        = Corba.log_text s ++ (Corba.client_record_text add ior ++ ['\n'])) := by
  refine ⟨?_, ?_, ?_, ?_⟩
  · intro add id db loc ior h1 h2 h3 h4 h5
    refine ⟨Corba.scan_listener_record_text add id db loc ior h1 h2 h3 h4 h5, ?_⟩
    simp [parse_listener_entry, Corba.scan_listener_record_text true id db loc ior h1 h2 h3 h4 h5,
      g_hash_table_lookup, g_hash_table_insert]
  · intro add ior
    obtain ⟨s1, s2⟩ := Corba.scan_client_record_text add ior
    refine ⟨by simp [parse_listener_entry, s1], s2, ?_⟩
    simp [parse_client_entry, (Corba.scan_client_record_text true ior).2,
      g_hash_table_lookup, g_hash_table_insert]
  · intro env s db add id cl loc ior hw hior
    have h := (Corba.gconfd_logfile_change_listener_log_text env s db add id cl loc hw).2.2.2.2
    rw [h, hior]
    rfl
  · intro env s add cl ior hw hior
    exact (Corba.log_client_change_log_text env s cl add ior hw hior).1

/-- Witness of claim C12: a listener record whose database name holds a space, whose
location holds a double quote and whose IOR holds a backslash, and a client record
whose IOR holds all three. -/
theorem written_records_parse_back_witness :
    scan_listener_entry
        (Corba.listener_record_text false 4294967295 "xml:readwrite:/etc/my gconf".toList
          "/apps/\"x\"".toList "IOR:a\\b".toList)
      = Scanned.record false ⟨4294967295, "IOR:a\\b".toList,
          "xml:readwrite:/etc/my gconf".toList, "/apps/\"x\"".toList⟩ ∧
    scan_client_entry (Corba.client_record_text true "a \"b\" \\c".toList)
      = Scanned.record true "a \"b\" \\c".toList ∧
    Corba.listener_record_text true 5 "def".toList "/x".toList "IOR1".toList
      = "ADD 5 \"def\" \"/x\" \"IOR1\"".toList ∧
    Corba.client_record_text false "a \"b\" \\c".toList
      = "CLIENTREMOVE \"a \\\"b\\\" \\\\c\"".toList :=
  ⟨(written_records_parse_back.1 false 4294967295 _ _ _ (by decide) (by decide) (by decide)
      (by decide) (by decide)).1,
   (written_records_parse_back.2.1 true _).2.1, by decide, by decide⟩

/-! ## Every change of the tables appends its record -/

namespace Corba

/-- When the reference of a client cannot be stringified, the two client functions
change the table and nothing else (but the clean-up flag), and
`gconfd_logfile_change_listener` returns `FALSE` having written nothing. -/
theorem log_records_unstringified (env : Env) (s : Daemon) (cl : ConfigListener)
    (hior : env.gconf_object_to_string cl = none) :
    (g_hash_table_lookup gconf_CORBA_Object_equal (s.client_table.getD []) cl = none →
      add_client env s cl
        = { s with
            need_log_cleanup := true
            client_table := some (s.client_table.getD [] ++ [cl]) }) ∧
    (∀ table : GHashTable ConfigListener, s.client_table = some table → cl ∈ table →
      remove_client env s cl
        = { s with
            need_log_cleanup := true
            client_table := some (g_hash_table_remove gconf_CORBA_Object_equal table cl) }) ∧
    (∀ (db : DbRef) (add : Bool) (id : Nat) (loc : CString),
      gconfd_logfile_change_listener env s db add id cl loc
        = (false, (open_append_handle env s).2) ∧
      log_text (open_append_handle env s).2 = log_text s) := by
  refine ⟨?_, ?_, ?_⟩
  · intro hl
    unfold add_client log_client_add
    simp only [hl, g_hash_table_insert]
    rw [log_client_change_none env _ cl true hior]
  · intro table ht hmem
    cases hl : g_hash_table_lookup gconf_CORBA_Object_equal table cl with
    | none =>
      exact absurd hmem ((lookup_eq_none_iff _ gconf_CORBA_Object_equal_iff table cl).1 hl)
    | some old =>
      have hold : old = cl :=
        ((lookup_eq_some_iff _ gconf_CORBA_Object_equal_iff table cl old).1 hl).1
      subst hold
      unfold remove_client log_client_remove
      simp only [ht, hl]
      rw [log_client_change_none env _ old false hior]
  · intro db add id loc
    constructor
    · unfold gconfd_logfile_change_listener
      cases hopen : open_append_handle env s with
      | mk ok s1 =>
        cases ok
        · rfl
        · simp [hior]
    · unfold open_append_handle
      cases hh : s.append_handle with
      | none =>
        by_cases ho : env.fopen_ok = true
        · simp [ho, log_text, hh]
        · simp [ho]
      | some b => rfl

/-- Claim C13, as the code has it: with a writable log, for a client whose object
reference can be stringified, `add_client` of a client that is not in the table puts
it into the table and appends exactly its CLIENTADD record; `remove_client` of a client
of the table takes it out and appends exactly its CLIENTREMOVE record; and
`gconfd_logfile_change_listener` returns `TRUE` and appends exactly the ADD (for
`add = TRUE`) or REMOVE record with the given id. In each case the record is in the
file, after what the log held before, and the handle buffers nothing when the call
returns; nothing else of the state changes (but the clean-up flag, which the two client
functions set). For a client whose reference cannot be stringified the two client
functions change the table all the same and append nothing, and
`gconfd_logfile_change_listener` returns `FALSE` having appended nothing (it has opened
the log). -/
theorem log_records_appended (env : Env) (hw : log_writable env) :
    (∀ (s : Daemon) (cl : ConfigListener) (ior : CString),
      env.gconf_object_to_string cl = some ior →
      g_hash_table_lookup gconf_CORBA_Object_equal (s.client_table.getD []) cl = none →
      add_client env s cl
        = { s with
            need_log_cleanup := true
            client_table := some (s.client_table.getD [] ++ [cl])
            append_handle := some []
            files := { s.files with logfile := some (log_text s ++ client_record true ior) } }) ∧
    (∀ (s : Daemon) (table : GHashTable ConfigListener) (cl : ConfigListener)
        (ior : CString),
      env.gconf_object_to_string cl = some ior →
      s.client_table = some table → cl ∈ table →
      remove_client env s cl
        = { s with
            need_log_cleanup := true
            client_table := some (g_hash_table_remove gconf_CORBA_Object_equal table cl)
            append_handle := some []
            files :=
              { s.files with logfile := some (log_text s ++ client_record false ior) } }) ∧
    (∀ (s : Daemon) (db : DbRef) (add : Bool) (id : Nat) (cl : ConfigListener)
        (loc ior : CString),
      env.gconf_object_to_string cl = some ior →
      gconfd_logfile_change_listener env s db add id cl loc
        = (true, { s with
            append_handle := some []
            files :=
              { s.files with
                logfile := some (log_text s ++
                  listener_record add id (db_log_name s db) loc ior) } })) ∧
    (∀ (s : Daemon) (cl : ConfigListener), env.gconf_object_to_string cl = none →
      (g_hash_table_lookup gconf_CORBA_Object_equal (s.client_table.getD []) cl = none →
        add_client env s cl
          = { s with
              need_log_cleanup := true
              client_table := some (s.client_table.getD [] ++ [cl]) }) ∧
      (∀ table : GHashTable ConfigListener, s.client_table = some table → cl ∈ table →
        remove_client env s cl
          = { s with
              need_log_cleanup := true
              client_table :=
                some (g_hash_table_remove gconf_CORBA_Object_equal table cl) }) ∧
      (∀ (db : DbRef) (add : Bool) (id : Nat) (loc : CString),
        gconfd_logfile_change_listener env s db add id cl loc
          = (false, (open_append_handle env s).2) ∧
        log_text (open_append_handle env s).2 = log_text s)) := by
  refine ⟨?_, ?_, ?_, fun s cl hior => log_records_unstringified env s cl hior⟩
  · intro s cl ior hior hl
    exact add_client_new env s cl ior hw hior hl
  · intro s table cl ior hior ht hmem
    cases hl : g_hash_table_lookup gconf_CORBA_Object_equal table cl with
    | none =>
      exact absurd hmem ((lookup_eq_none_iff _ gconf_CORBA_Object_equal_iff table cl).1 hl)
    | some old =>
      have hold : old = cl :=
        ((lookup_eq_some_iff _ gconf_CORBA_Object_equal_iff table cl old).1 hl).1
      subst hold
      unfold remove_client log_client_remove
      simp only [ht, hl]
      rw [log_client_change_flushed env _ old false ior hw hior]
      rfl
  · intro s db add id cl loc ior hior
    rw [gconfd_logfile_change_listener_ok env s db add id cl loc ior hw.1 hw.2.1 hw.2.2.1 hior]
    simp [log_text, List.append_assoc]

/-- Witness of claim C13 in the sample world: the client 1 is added to an empty table and
then removed, and a listener is logged, over a log that holds one line. -/
theorem log_records_appended_witness :
    add_client sample_env
        ⟨none, none, ⟨some "CLIENTADD \"IOR\"\n".toList, none, none⟩, none, [], false⟩ ⟨1⟩
      = ⟨some [⟨1⟩], some [],
          ⟨some "CLIENTADD \"IOR\"\nCLIENTADD \"IOR1\"\n".toList, none, none⟩,
          none, [], true⟩ ∧
    remove_client sample_env
        ⟨some [⟨1⟩], none, ⟨some "CLIENTADD \"IOR1\"\n".toList, none, none⟩, none, [], false⟩
        ⟨1⟩
      = ⟨some [], some [],
          ⟨some "CLIENTADD \"IOR1\"\nCLIENTREMOVE \"IOR1\"\n".toList, none, none⟩,
          none, [], true⟩ ∧
    gconfd_logfile_change_listener sample_env
        ⟨some [⟨1⟩], none, ⟨some "CLIENTADD \"IOR1\"\n".toList, none, none⟩, none, [], false⟩
        DbRef.default_db true 5 ⟨1⟩ "/x".toList
      = (true, ⟨some [⟨1⟩], some [],
          ⟨some "CLIENTADD \"IOR1\"\nADD 5 \"def\" \"/x\" \"IOR1\"\n".toList, none, none⟩,
          none, [], false⟩) := by
  have h := log_records_appended sample_env ⟨rfl, rfl, rfl, rfl⟩
  refine ⟨?_, ?_, ?_⟩
  · rw [h.1 _ ⟨1⟩ "IOR1".toList (by decide) (by decide)]; decide
  · rw [h.2.1 _ [⟨1⟩] ⟨1⟩ "IOR1".toList (by decide) rfl (by decide)]; decide
  · rw [h.2.2.1 _ DbRef.default_db true 5 ⟨1⟩ "/x".toList "IOR1".toList (by decide)]; decide

/-- The claim C13 without the proviso fails: in a world whose log is writable but whose
ORB cannot stringify an object reference, `add_client` adds the new client 1 to the
table and appends nothing to the log, and `gconfd_logfile_change_listener` returns
`FALSE` without a record. -/
theorem add_client_unlogged :
    log_writable { sample_env with gconf_object_to_string := fun _ => none } ∧
    (add_client { sample_env with gconf_object_to_string := fun _ => none }
        ⟨none, none, ⟨some "CLIENTADD \"IOR\"\n".toList, none, none⟩, none, [], false⟩
        ⟨1⟩).client_table = some [⟨1⟩] ∧
    log_text
      (add_client { sample_env with gconf_object_to_string := fun _ => none }
        ⟨none, none, ⟨some "CLIENTADD \"IOR\"\n".toList, none, none⟩, none, [], false⟩ ⟨1⟩)
      = "CLIENTADD \"IOR\"\n".toList ∧
    (gconfd_logfile_change_listener
        { sample_env with gconf_object_to_string := fun _ => none }
        ⟨none, none, ⟨some "CLIENTADD \"IOR\"\n".toList, none, none⟩, none, [], false⟩
        DbRef.default_db true 5 ⟨1⟩ "/x".toList).1 = false ∧
    log_text
      (gconfd_logfile_change_listener
        { sample_env with gconf_object_to_string := fun _ => none }
        ⟨none, none, ⟨some "CLIENTADD \"IOR\"\n".toList, none, none⟩, none, [], false⟩
        DbRef.default_db true 5 ⟨1⟩ "/x".toList).2
      = "CLIENTADD \"IOR\"\n".toList :=
  ⟨⟨rfl, rfl, rfl, rfl⟩, by decide, by decide, by decide, by decide⟩

end Corba

/-! ## Adding a client twice -/

/-- Claim C14: `add_client` is idempotent in both bindings. In gconfd-corba.c, adding a
client that the table already holds leaves the table, the log file and the append
handle as they are (no record is appended; only the clean-up flag is set), so the
client count is the same; in gconfd-dbus.c it leaves the whole state as it is; and in
both, for any table, adding a client twice gives the state of adding it once. -/
theorem add_client_twice :
    (∀ (env : Corba.Env) (s : Corba.Daemon) (table : GHashTable ConfigListener)
        (cl : ConfigListener),
      s.client_table = some table → cl ∈ table →
      Corba.add_client env s cl = { s with need_log_cleanup := true } ∧
      Corba.log_text (Corba.add_client env s cl) = Corba.log_text s ∧
      Corba.gconfd_corba_client_count (Corba.add_client env s cl)
        = Corba.gconfd_corba_client_count s) ∧
    (∀ (env : Corba.Env) (s : Corba.Daemon) (cl : ConfigListener),
      Corba.add_client env (Corba.add_client env s cl) cl = Corba.add_client env s cl) ∧
    (∀ (s : DBus.Daemon) (table : GHashTable CString) (name : CString),
      s.client_hash = some table → name ∈ table →
      DBus.add_client s name = s) ∧
    (∀ (s : DBus.Daemon) (name : CString),
      DBus.add_client (DBus.add_client s name) name = DBus.add_client s name) := by
  refine ⟨?_, Corba.add_client_idempotent, ?_, dbus_add_client_idempotent⟩
  · intro env s table cl ht hmem
    rw [Corba.add_client_known env s table cl ht hmem]
    exact ⟨rfl, rfl, rfl⟩
  · intro s table name ht hmem
    cases hl : g_hash_table_lookup g_str_equal table name with
    | none => exact absurd hmem ((lookup_eq_none_iff _ g_str_equal_iff table name).1 hl)
    | some old =>
      unfold DBus.add_client
      simp only [ht, Option.getD_some, hl]
      cases s
      simp_all

/-- Witness of claim C14: the client 1 added again to the CORBA table that holds the
clients 1 and 3, and the name `:1.7` added again to the D-Bus table that holds it. -/
theorem add_client_twice_witness :
    Corba.add_client Corba.sample_env
        ⟨some [⟨1⟩, ⟨3⟩], none, ⟨some "CLIENTADD \"IOR1\"\n".toList, none, none⟩, none, [],
          true⟩ ⟨1⟩
      = ⟨some [⟨1⟩, ⟨3⟩], none, ⟨some "CLIENTADD \"IOR1\"\n".toList, none, none⟩, none, [],
          true⟩ ∧
    DBus.add_client ⟨some [":1.7".toList], ⟨[], none⟩, []⟩ ":1.7".toList
      = ⟨some [":1.7".toList], ⟨[], none⟩, []⟩ :=
  ⟨(add_client_twice.1 Corba.sample_env _ [⟨1⟩, ⟨3⟩] ⟨1⟩ rfl (by decide)).1,
   add_client_twice.2.2.1 _ [":1.7".toList] ":1.7".toList rfl (by decide)⟩

/-! ## Restoring a client -/

namespace Corba

/-- Claim C15, as the code has it: `restore_client` re-registers a client that resolves and
answers `drop_all_caches` by calling `add_client`, which logs. When the client is not yet
in the table (as for every surviving client at start-up), the log is writable and the
reference can be stringified, the client is put into the table and exactly one CLIENTADD
record for it is appended to the log; when the table already holds the client, the table,
the file and the handle stay as they are. A client that does not resolve or does not
answer leaves the whole state as it is. -/
theorem restore_client_log (env : Env) (s : Daemon) (ior : CString) :
    (∀ (cl : ConfigListener) (ior2 : CString),
      env.CORBA_ORB_string_to_object ior = some cl →
      env.ConfigListener_drop_all_caches cl = true →
      log_writable env → env.gconf_object_to_string cl = some ior2 →
      g_hash_table_lookup gconf_CORBA_Object_equal (s.client_table.getD []) cl = none →
      restore_client env s ior
        = { s with
            need_log_cleanup := true
            client_table := some (s.client_table.getD [] ++ [cl])
            append_handle := some []
            files :=
              { s.files with logfile := some (log_text s ++ client_record true ior2) } } ∧
      log_text (restore_client env s ior) = log_text s ++ client_record true ior2) ∧
    (∀ (cl : ConfigListener) (table : GHashTable ConfigListener),
      env.CORBA_ORB_string_to_object ior = some cl →
      env.ConfigListener_drop_all_caches cl = true →
      s.client_table = some table → cl ∈ table →
      restore_client env s ior = { s with need_log_cleanup := true } ∧
      log_text (restore_client env s ior) = log_text s) ∧
    (env.CORBA_ORB_string_to_object ior = none → restore_client env s ior = s) ∧
    (∀ (cl : ConfigListener),
      env.CORBA_ORB_string_to_object ior = some cl →
      env.ConfigListener_drop_all_caches cl = false → restore_client env s ior = s) := by
  refine ⟨?_, ?_, ?_, ?_⟩
  · intro cl ior2 hcl hdrop hw hior hl
    have h : restore_client env s ior = add_client env s cl := by
      simp [restore_client, hcl, hdrop]
    rw [h, add_client_new env s cl ior2 hw hior hl]
    exact ⟨rfl, by simp [log_text]⟩
  · intro cl table hcl hdrop ht hmem
    have h : restore_client env s ior = add_client env s cl := by
      simp [restore_client, hcl, hdrop]
    rw [h, add_client_known env s table cl ht hmem]
    exact ⟨rfl, rfl⟩
  · intro hcl
    simp [restore_client, hcl]
  · intro cl hcl hdrop
    simp [restore_client, hcl, hdrop]

/-- Witness of claim C15 in the sample world: the client 1, which resolves and answers,
restored into an empty table and into a table that holds it; the client 2, which does
not answer. -/
theorem restore_client_log_witness :
    restore_client sample_env
        ⟨none, none, ⟨some "CLIENTADD \"IOR1\"\n".toList, none, none⟩, none, [], false⟩
        "IOR1".toList
      = ⟨some [⟨1⟩], some [],
          ⟨some "CLIENTADD \"IOR1\"\nCLIENTADD \"IOR1\"\n".toList, none, none⟩,
          none, [], true⟩ ∧
    restore_client sample_env
        ⟨some [⟨1⟩], none, ⟨some "CLIENTADD \"IOR1\"\n".toList, none, none⟩, none, [], true⟩
        "IOR1".toList
      = ⟨some [⟨1⟩], none, ⟨some "CLIENTADD \"IOR1\"\n".toList, none, none⟩, none, [], true⟩ ∧
    restore_client sample_env
        ⟨none, none, ⟨some "CLIENTADD \"IOR11\"\n".toList, none, none⟩, none, [], false⟩
        "IOR11".toList
      = ⟨none, none, ⟨some "CLIENTADD \"IOR11\"\n".toList, none, none⟩, none, [], false⟩ := by
  refine ⟨?_, ?_, ?_⟩
  · rw [((restore_client_log sample_env _ "IOR1".toList).1 ⟨1⟩ "IOR1".toList (by decide)
      (by decide) ⟨rfl, rfl, rfl, rfl⟩ (by decide) (by decide)).1]
    decide
  · exact ((restore_client_log sample_env _ "IOR1".toList).2.1 ⟨1⟩ [⟨1⟩] (by decide)
      (by decide) rfl (by decide)).1
  · exact (restore_client_log sample_env _ "IOR11".toList).2.2.2 ⟨2⟩ (by decide) (by decide)

/-- The claim C15 as stated fails: at start-up (no client table yet) the log holds
`CLIENTADD "IOR1"`, the client resolves and answers; `restore_client` registers it and
appends a second `CLIENTADD "IOR1"` record, so the log after the call is not the log
before it. -/
theorem restore_client_appends_clientadd :
    sample_env.CORBA_ORB_string_to_object "IOR1".toList = some ⟨1⟩ ∧
    sample_env.ConfigListener_drop_all_caches ⟨1⟩ = true ∧
    (restore_client sample_env
        ⟨none, none, ⟨some "CLIENTADD \"IOR1\"\n".toList, none, none⟩, none, [], false⟩
        "IOR1".toList).client_table = some [⟨1⟩] ∧
    log_text
      (restore_client sample_env
        ⟨none, none, ⟨some "CLIENTADD \"IOR1\"\n".toList, none, none⟩, none, [], false⟩
        "IOR1".toList)
      = "CLIENTADD \"IOR1\"\nCLIENTADD \"IOR1\"\n".toList ∧
    log_text
      (restore_client sample_env
        ⟨none, none, ⟨some "CLIENTADD \"IOR1\"\n".toList, none, none⟩, none, [], false⟩
        "IOR1".toList)
      ≠ log_text
        ⟨none, none, ⟨some "CLIENTADD \"IOR1\"\n".toList, none, none⟩, none, [], false⟩ :=
  ⟨by decide, by decide, by decide, by decide, by decide⟩

end Corba

/-! ## Restoring a listener -/

namespace Corba

/-- The function `gconfd_logfile_change_listener` touches neither the client table nor the databases,
whatever the file calls answer. -/
theorem gconfd_logfile_change_listener_frame (env : Env) (s : Daemon) (db : DbRef)
    (add : Bool) (id : Nat) (cl : ConfigListener) (location : CString) :
    (gconfd_logfile_change_listener env s db add id cl location).2.client_table
      = s.client_table ∧
    (gconfd_logfile_change_listener env s db add id cl location).2.default_db
      = s.default_db ∧
    (gconfd_logfile_change_listener env s db add id cl location).2.db_list = s.db_list := by
  obtain ⟨o1, o2, o3⟩ := open_append_handle_client_table env s
  unfold gconfd_logfile_change_listener
  cases hopen : open_append_handle env s with
  | mk ok s1 =>
    rw [hopen] at o1 o2 o3
    simp only at o1 o2 o3
    cases ok
    · exact ⟨o1, o2, o3⟩
    · simp only
      cases hior : env.gconf_object_to_string cl with
      | none => exact ⟨o1, o2, o3⟩
      | some ior =>
        simp only
        obtain ⟨w1, w2, w3⟩ := write_and_flush_client_table env s1
          (listener_record add id (db_log_name s1 db) location ior)
        exact ⟨w1.trans o1, w2.trans o2, w3.trans o3⟩

theorem get_db_congr (s s2 : Daemon) (db : DbRef) (h1 : s2.default_db = s.default_db)
    (h2 : s2.db_list = s.db_list) : get_db s2 db = get_db s db := by
  cases db with
  | default_db => simp [get_db, h1]
  | listed i => simp [get_db, h2]

/-- When the log cannot be opened and is not open, `gconfd_logfile_change_listener`
returns `FALSE` and leaves the state as it is. -/
theorem gconfd_logfile_change_listener_unopened (env : Env) (s : Daemon) (db : DbRef)
    (add : Bool) (id : Nat) (cl : ConfigListener) (location : CString)
    (ho : env.fopen_ok = false) (hh : s.append_handle = none) :
    gconfd_logfile_change_listener env s db add id cl location = (false, s) := by
  simp [gconfd_logfile_change_listener, open_append_handle, hh, ho]

/-- Whatever the file calls answer, `restore_listener` for an entry whose IOR resolves
adds the subscription to the registry of the database under the next unused id and
leaves the client table alone; when the log cannot be opened it writes nothing. -/
theorem restore_listener_readds (env : Env) (s : Daemon) (db : DbRef) (d : GConfDatabase)
    (lle : ListenerLogEntry) (cl : ConfigListener)
    (hcl : env.CORBA_ORB_string_to_object lle.ior = some cl)
    (hdb : get_db s db = some d) :
    get_db (restore_listener env s db lle) db
      = some { d with
          listeners := some
            ⟨(d.listeners.getD ⟨[], 1⟩).subscriptions ++
              [⟨(d.listeners.getD ⟨[], 1⟩).next_cnxn, lle.location,
                ListenerData.corba (some "from-saved-state".toList) cl⟩],
              (d.listeners.getD ⟨[], 1⟩).next_cnxn + 1⟩ } ∧
    (restore_listener env s db lle).client_table = s.client_table ∧
    (env.fopen_ok = false → s.append_handle = none →
      (restore_listener env s db lle).files = s.files ∧
      (restore_listener env s db lle).append_handle = none) := by
  have f1 := gconfd_logfile_change_listener_frame env s db false lle.connection_id cl
    lle.location
  generalize hs1 :
    (gconfd_logfile_change_listener env s db false lle.connection_id cl lle.location).2 = s1
    at f1
  have hdb1 : get_db s1 db = some d := by
    rw [get_db_congr s s1 db f1.2.1 f1.2.2]; exact hdb
  have hr : gconf_database_corba_readd_listener s1 db cl "from-saved-state".toList lle.location
      = ((d.listeners.getD ⟨[], 1⟩).next_cnxn,
          set_db s1 db { d with
            listeners := some
              ⟨(d.listeners.getD ⟨[], 1⟩).subscriptions ++
                [⟨(d.listeners.getD ⟨[], 1⟩).next_cnxn, lle.location,
                  ListenerData.corba (some "from-saved-state".toList) cl⟩],
                (d.listeners.getD ⟨[], 1⟩).next_cnxn + 1⟩ }) := by
    simp [gconf_database_corba_readd_listener, hdb1, gconf_listeners_add]
  have f2 := readd_listener_frame s1 db cl "from-saved-state".toList lle.location
  have hg2 := get_db_set_db s1 db d { d with
            listeners := some
              ⟨(d.listeners.getD ⟨[], 1⟩).subscriptions ++
                [⟨(d.listeners.getD ⟨[], 1⟩).next_cnxn, lle.location,
                  ListenerData.corba (some "from-saved-state".toList) cl⟩],
                (d.listeners.getD ⟨[], 1⟩).next_cnxn + 1⟩ } hdb1
  rw [hr] at f2
  simp only at f2
  generalize hs2 : set_db s1 db { d with
            listeners := some
              ⟨(d.listeners.getD ⟨[], 1⟩).subscriptions ++
                [⟨(d.listeners.getD ⟨[], 1⟩).next_cnxn, lle.location,
                  ListenerData.corba (some "from-saved-state".toList) cl⟩],
                (d.listeners.getD ⟨[], 1⟩).next_cnxn + 1⟩ } = s2 at f2 hg2 hr
  have f3 := gconfd_logfile_change_listener_frame env s2 db true
    (d.listeners.getD ⟨[], 1⟩).next_cnxn cl lle.location
  have hres : restore_listener env s db lle
      = if env.ConfigListener_update_listener cl = true then
          (gconfd_logfile_change_listener env s2 db true (d.listeners.getD ⟨[], 1⟩).next_cnxn cl
            lle.location).2
        else s2 := by
    unfold restore_listener
    simp only [hcl, hs1, hr]
  rw [hres]
  refine ⟨?_, ?_, ?_⟩
  · split
    · rw [get_db_congr s2 _ db f3.2.1 f3.2.2]; exact hg2
    · exact hg2
  · split
    · rw [f3.1, f2.1, f1.1]
    · rw [f2.1, f1.1]
  · intro ho hh
    have e1 : s1 = s := by
      rw [← hs1, gconfd_logfile_change_listener_unopened env s db false _ cl _ ho hh]
    have hh2 : s2.append_handle = none := by rw [f2.2.2.1, e1]; exact hh
    have hf2 : s2.files = s.files := by rw [f2.2.1, e1]
    split
    · rw [gconfd_logfile_change_listener_unopened env s2 db true _ cl _ ho hh2]
      exact ⟨hf2, hh2⟩
    · exact ⟨hf2, hh2⟩

/-- Claim C16, as the code has it. For a listener entry whose database `db` is there
and whose IOR resolves to a client `cl`, with a writable log and a reference that can be
stringified, `restore_listener` appends to the log first the REMOVE record with the old
connection id; it then adds the subscription (same location, same client) to the
registry of the database under the next unused id, whether or not the client can be
notified; and it appends the ADD record with that new id, the same location and the same
client if and only if `ConfigListener_update_listener` succeeds. After a failed
notification the log ends with the REMOVE record, and the subscription added before the
notification is still in the registry. The client table is not touched. An entry whose
IOR does not resolve leaves the whole state as it is; the foreach function resolves the
address `def` to the default database and gives up when the database is `NULL`.
Whatever the file calls answer, so also when a record cannot be written, the
subscription is added in the same way and the client table is not touched; when the log
cannot be opened nothing is written. -/
theorem restore_listener_records (env : Env) (s : Daemon) (lle : ListenerLogEntry) :
    (∀ (db : DbRef) (d : GConfDatabase) (cl : ConfigListener) (ior : CString),
      log_writable env →
      env.CORBA_ORB_string_to_object lle.ior = some cl →
      env.gconf_object_to_string cl = some ior →
      get_db s db = some d →
      (restore_listener env s db lle).files.logfile
        = some (log_text s ++
            (listener_record false lle.connection_id (db_log_name s db) lle.location ior ++
              (if env.ConfigListener_update_listener cl then
                listener_record true (d.listeners.getD ⟨[], 1⟩).next_cnxn (db_log_name s db)
                  lle.location ior
              else []))) ∧
      get_db (restore_listener env s db lle) db
        = some { d with
            listeners := some
              ⟨(d.listeners.getD ⟨[], 1⟩).subscriptions ++
                [⟨(d.listeners.getD ⟨[], 1⟩).next_cnxn, lle.location,
                  ListenerData.corba (some "from-saved-state".toList) cl⟩],
                (d.listeners.getD ⟨[], 1⟩).next_cnxn + 1⟩ } ∧
      (restore_listener env s db lle).client_table = s.client_table) ∧
    (∀ (db : DbRef), env.CORBA_ORB_string_to_object lle.ior = none →
      restore_listener env s db lle = s) ∧
    (lle.address = "def".toList → s.default_db.isSome = true →
      listener_logentry_restore_and_destroy_foreach env s lle
        = restore_listener env s DbRef.default_db lle) ∧
    (lle.address = "def".toList → s.default_db = none →
      listener_logentry_restore_and_destroy_foreach env s lle = s) ∧
    (∀ (db : DbRef) (d : GConfDatabase) (cl : ConfigListener),
      env.CORBA_ORB_string_to_object lle.ior = some cl →
      get_db s db = some d →
      get_db (restore_listener env s db lle) db
        = some { d with
            listeners := some
              ⟨(d.listeners.getD ⟨[], 1⟩).subscriptions ++
                [⟨(d.listeners.getD ⟨[], 1⟩).next_cnxn, lle.location,
                  ListenerData.corba (some "from-saved-state".toList) cl⟩],
                (d.listeners.getD ⟨[], 1⟩).next_cnxn + 1⟩ } ∧
      (restore_listener env s db lle).client_table = s.client_table ∧
      (env.fopen_ok = false → s.append_handle = none →
        (restore_listener env s db lle).files = s.files ∧
        (restore_listener env s db lle).append_handle = none)) := by
  refine ⟨?_, ?_, ?_, ?_,
    fun db d cl hcl hdb => restore_listener_readds env s db d lle cl hcl hdb⟩
  · intro db d cl ior hw hcl hior hdb
    obtain ⟨h1, h2, h3⟩ := restore_listener_effect env s db d lle cl ior hw.1 hw.2.1 hw.2.2.1
      hcl hior hdb
    refine ⟨?_, h1, h2⟩
    rw [h3]
    simp [log_text, List.append_assoc]
  · intro db hcl
    simp [restore_listener, hcl]
  · intro haddr hdb
    simp [listener_logentry_restore_and_destroy_foreach, haddr, hdb]
  · intro haddr hdb
    simp [listener_logentry_restore_and_destroy_foreach, haddr, hdb]

/-- Witness of claim C16 in the sample world: the listener 5 of the client 1 on `/x`
in the default database, whose registry is empty; the client is notified, so the log
gets the REMOVE record of the id 5 and the ADD record of the new id 1. -/
theorem restore_listener_records_witness :
    (restore_listener sample_env
        ⟨some [⟨1⟩], none, ⟨some "ADD 5 \"def\" \"/x\" \"IOR1\"\n".toList, none, none⟩,
          some ⟨[], some ⟨[], 1⟩⟩, [], false⟩
        DbRef.default_db ⟨5, "IOR1".toList, "def".toList, "/x".toList⟩).files.logfile
      = some ("ADD 5 \"def\" \"/x\" \"IOR1\"\n".toList ++
          ("REMOVE 5 \"def\" \"/x\" \"IOR1\"\n".toList ++
            "ADD 1 \"def\" \"/x\" \"IOR1\"\n".toList)) := by
  rw [((restore_listener_records sample_env
      ⟨some [⟨1⟩], none, ⟨some "ADD 5 \"def\" \"/x\" \"IOR1\"\n".toList, none, none⟩,
        some ⟨[], some ⟨[], 1⟩⟩, [], false⟩
      ⟨5, "IOR1".toList, "def".toList, "/x".toList⟩).1
    DbRef.default_db ⟨[], some ⟨[], 1⟩⟩ ⟨1⟩ "IOR1".toList ⟨rfl, rfl, rfl, rfl⟩ (by decide)
    (by decide) rfl).1]
  decide

/-- The claim C16 as stated fails in two ways. In the sample world the client 2
resolves but cannot be notified: `restore_listener` appends the REMOVE record and no ADD
record, yet the listener is re-added, the registry of the default database holds the
new subscription 1 of the client 2 on `/x`. And in a world whose log cannot be opened
for appending nothing is appended for the client 1, neither the REMOVE nor the ADD
record, while the listener is re-added and the client notified. -/
theorem restore_listener_readds_unnotified :
    sample_env.CORBA_ORB_string_to_object "IOR11".toList = some ⟨2⟩ ∧
    sample_env.ConfigListener_update_listener ⟨2⟩ = false ∧
    restore_listener sample_env
        ⟨some [⟨1⟩], none, ⟨some "ADD 5 \"def\" \"/x\" \"IOR11\"\n".toList, none, none⟩,
          some ⟨[], some ⟨[], 1⟩⟩, [], false⟩
        DbRef.default_db ⟨5, "IOR11".toList, "def".toList, "/x".toList⟩
      = ⟨some [⟨1⟩], some [],
          ⟨some ("ADD 5 \"def\" \"/x\" \"IOR11\"\n".toList ++
            "REMOVE 5 \"def\" \"/x\" \"IOR11\"\n".toList), none, none⟩,
          some ⟨[], some ⟨[⟨1, "/x".toList,
            ListenerData.corba (some "from-saved-state".toList) ⟨2⟩⟩], 2⟩⟩, [], false⟩ ∧
    restore_listener { sample_env with fopen_ok := false }
        ⟨some [⟨1⟩], none, ⟨some "ADD 5 \"def\" \"/x\" \"IOR1\"\n".toList, none, none⟩,
          some ⟨[], some ⟨[], 1⟩⟩, [], false⟩
        DbRef.default_db ⟨5, "IOR1".toList, "def".toList, "/x".toList⟩
      = ⟨some [⟨1⟩], none, ⟨some "ADD 5 \"def\" \"/x\" \"IOR1\"\n".toList, none, none⟩,
          some ⟨[], some ⟨[⟨1, "/x".toList,
            ListenerData.corba (some "from-saved-state".toList) ⟨1⟩⟩], 2⟩⟩, [], false⟩ :=
  ⟨by decide, by decide, by decide, by decide⟩

end Corba

/-! ## Replay: clients are restored before listeners -/

namespace Corba

/-- Restoring a listener never touches the client table. -/
theorem restore_foreach_client_table (env : Env) (s : Daemon) (lle : ListenerLogEntry) :
    (listener_logentry_restore_and_destroy_foreach env s lle).client_table
      = s.client_table := by
  have hrl : ∀ (s : Daemon) (db : DbRef),
      (restore_listener env s db lle).client_table = s.client_table := by
    intro s db
    unfold restore_listener
    cases hcl : env.CORBA_ORB_string_to_object lle.ior with
    | none => rfl
    | some cl =>
      simp only
      split
      · rw [(gconfd_logfile_change_listener_frame env _ db true _ cl lle.location).1,
          (readd_listener_frame _ db cl _ lle.location).1,
          (gconfd_logfile_change_listener_frame env s db false _ cl lle.location).1]
      · rw [(readd_listener_frame _ db cl _ lle.location).1,
          (gconfd_logfile_change_listener_frame env s db false _ cl lle.location).1]
  have hob : ∀ address, (gconfd_obtain_database env s address).2.client_table
      = s.client_table := by
    intro address
    unfold gconfd_obtain_database
    split
    · rfl
    · split <;> rfl
  by_cases haddr : lle.address = "def".toList
  · cases hdb : s.default_db with
    | none => simp [listener_logentry_restore_and_destroy_foreach, haddr, hdb]
    | some d => simp [listener_logentry_restore_and_destroy_foreach, haddr, hdb, hrl]
  · have h2 := hob lle.address
    cases hob2 : gconfd_obtain_database env s lle.address with
    | mk r s2 =>
      rw [hob2] at h2
      cases r with
      | none =>
        simp only [listener_logentry_restore_and_destroy_foreach, haddr, if_false, hob2]
        exact h2
      | some db =>
        simp only [listener_logentry_restore_and_destroy_foreach, haddr, if_false, hob2, hrl]
        exact h2

/-- The listener phase of the replay leaves the client table as the client phase made
it. -/
theorem restore_listeners_client_table (env : Env) (entries : List ListenerLogEntry)
    (s : Daemon) :
    (entries.foldl (listener_logentry_restore_and_destroy_foreach env) s).client_table
      = s.client_table := by
  induction entries generalizing s with
  | nil => rfl
  | cons e rest ih =>
    rw [List.foldl_cons, ih, restore_foreach_client_table]

/-- Restoring a client never touches a database. -/
theorem restore_client_databases (env : Env) (s : Daemon) (ior : CString) :
    (restore_client env s ior).default_db = s.default_db ∧
    (restore_client env s ior).db_list = s.db_list := by
  unfold restore_client
  cases env.CORBA_ORB_string_to_object ior with
  | none => exact ⟨rfl, rfl⟩
  | some cl =>
    simp only
    split
    · unfold add_client
      simp only
      split
      · exact ⟨rfl, rfl⟩
      · unfold log_client_add
        exact ⟨(log_client_change_frame env _ cl true).2.1,
          (log_client_change_frame env _ cl true).2.2⟩
    · exact ⟨rfl, rfl⟩

/-- The client phase of the replay leaves every database as it was. -/
theorem restore_clients_databases (env : Env) (iors : List CString) (s : Daemon) :
    (iors.foldl (restore_client env) s).default_db = s.default_db ∧
    (iors.foldl (restore_client env) s).db_list = s.db_list := by
  induction iors generalizing s with
  | nil => exact ⟨rfl, rfl⟩
  | cons i rest ih =>
    rw [List.foldl_cons]
    obtain ⟨h1, h2⟩ := ih (restore_client env s i)
    obtain ⟨r1, r2⟩ := restore_client_databases env s i
    exact ⟨h1.trans r1, h2.trans r2⟩

end Corba

namespace Corba

/-- When every step appends complete lines of some kind to the log, so does the loop. -/
theorem foldl_log_lines {α : Type} (f : Daemon → α → Daemon) (P : List Char → Prop)
    (hstep : ∀ s x, ∃ recs : List (List Char),
      log_text (f s x) = log_text s ++ join_lines recs ∧ ∀ l ∈ recs, P l)
    (xs : List α) (s : Daemon) :
    ∃ recs : List (List Char),
      log_text (xs.foldl f s) = log_text s ++ join_lines recs ∧ ∀ l ∈ recs, P l := by
  induction xs generalizing s with
  | nil => exact ⟨[], by simp [join_lines], by simp⟩
  | cons x rest ih =>
    obtain ⟨r1, h1, p1⟩ := hstep s x
    obtain ⟨r2, h2, p2⟩ := ih (f s x)
    refine ⟨r1 ++ r2, ?_, ?_⟩
    · rw [List.foldl_cons, h2, h1, join_lines_append, List.append_assoc]
    · intro l hl
      rcases List.mem_append.1 hl with h | h
      · exact p1 l h
      · exact p2 l h

/-- With a writable log, `restore_client` appends nothing or the CLIENTADD line of the
client. -/
theorem restore_client_log_lines (env : Env) (hw : log_writable env) (s : Daemon)
    (ior : CString) :
    ∃ recs : List (List Char),
      log_text (restore_client env s ior) = log_text s ++ join_lines recs ∧
      ∀ l ∈ recs, ∃ ior2, l = client_record_text true ior2 := by
  have hnone : ∃ recs : List (List Char),
      log_text s = log_text s ++ join_lines recs ∧
      ∀ l ∈ recs, ∃ ior2, l = client_record_text true ior2 :=
    ⟨[], by simp [join_lines], by simp⟩
  unfold restore_client
  cases env.CORBA_ORB_string_to_object ior with
  | none => exact hnone
  | some cl =>
    simp only
    split
    · unfold add_client
      simp only
      split
      · exact hnone
      · unfold log_client_add
        cases hior : env.gconf_object_to_string cl with
        | none =>
          rw [log_client_change_none env _ cl true hior]
          exact hnone
        | some ior2 =>
          refine ⟨[client_record_text true ior2], ?_, ?_⟩
          · rw [(log_client_change_log_text env _ cl true ior2 hw hior).1]
            simp [join_lines, client_record, log_text]
          · intro l hl
            exact ⟨ior2, by simpa using hl⟩
    · exact hnone

/-- With a writable log, restoring a listener appends nothing but listener lines. -/
theorem restore_foreach_log_lines (env : Env) (hw : log_writable env) (s : Daemon)
    (lle : ListenerLogEntry) :
    ∃ recs : List (List Char),
      log_text (listener_logentry_restore_and_destroy_foreach env s lle)
        = log_text s ++ join_lines recs ∧
      ∀ l ∈ recs, ∃ add id name loc ior, l = listener_record_text add id name loc ior := by
  have hrl : ∀ (s : Daemon) (db : DbRef), ∃ recs : List (List Char),
      log_text (restore_listener env s db lle) = log_text s ++ join_lines recs ∧
      ∀ l ∈ recs, ∃ add id name loc ior, l = listener_record_text add id name loc ior := by
    intro s db
    obtain ⟨_, _, recs, h1, h2⟩ := restore_listener_appends env s db lle hw
    refine ⟨recs, h1, ?_⟩
    intro l hl
    obtain ⟨add, id, cl, ior, _, e⟩ := h2 l hl
    exact ⟨add, id, _, _, ior, e⟩
  have hnone : ∀ s : Daemon, ∃ recs : List (List Char),
      log_text s = log_text s ++ join_lines recs ∧
      ∀ l ∈ recs, ∃ add id name loc ior, l = listener_record_text add id name loc ior :=
    fun s => ⟨[], by simp [join_lines], by simp⟩
  have hob : ∀ address, log_text (gconfd_obtain_database env s address).2 = log_text s := by
    intro address
    unfold gconfd_obtain_database
    split
    · rfl
    · split <;> rfl
  by_cases haddr : lle.address = "def".toList
  · cases hdb : s.default_db with
    | none =>
      simp only [listener_logentry_restore_and_destroy_foreach, haddr, if_true, hdb,
        Option.isSome_none, Bool.false_eq_true, if_false]
      exact hnone s
    | some d =>
      simp only [listener_logentry_restore_and_destroy_foreach, haddr, if_true, hdb,
        Option.isSome_some]
      exact hrl s _
  · have h2 := hob lle.address
    cases hob2 : gconfd_obtain_database env s lle.address with
    | mk r s2 =>
      rw [hob2] at h2
      simp only at h2
      cases r with
      | none =>
        simp only [listener_logentry_restore_and_destroy_foreach, haddr, if_false, hob2]
        rw [← h2]
        exact hnone s2
      | some db =>
        simp only [listener_logentry_restore_and_destroy_foreach, haddr, if_false, hob2]
        rw [← h2]
        exact hrl s2 db

end Corba

namespace Corba

/-- Claim C17: `gconfd_corba_logfile_read` reads the whole file into the two tables and
then restores every surviving client before it restores any surviving listener, wherever
the client and listener records stand in the file. The run is the listener loop over the
state that the client loop leaves. While the clients are restored no database is
touched (no listener is restored yet); while the listeners are restored the client table
is already the final one (no client is restored any more). With a writable log, what
the run appends to the log is the CLIENTADD lines of the client phase followed by the
listener lines of the listener phase. -/
theorem gconfd_corba_logfile_read_clients_first (env : Env) (s : Daemon) (f : List Char)
    (hf : (close_append_handle env s).files.logfile = some f) :
    gconfd_corba_logfile_read env s
      = (read_loop f ⟨[], []⟩).entries.foldl
          (listener_logentry_restore_and_destroy_foreach env)
          ((read_loop f ⟨[], []⟩).clients.foldl (restore_client env)
            (close_append_handle env s)) ∧
    (∀ n : Nat,
      (((read_loop f ⟨[], []⟩).clients.take n).foldl (restore_client env)
          (close_append_handle env s)).default_db = s.default_db ∧
      (((read_loop f ⟨[], []⟩).clients.take n).foldl (restore_client env)
          (close_append_handle env s)).db_list = s.db_list) ∧
    (∀ n : Nat,
      (((read_loop f ⟨[], []⟩).entries.take n).foldl
          (listener_logentry_restore_and_destroy_foreach env)
          ((read_loop f ⟨[], []⟩).clients.foldl (restore_client env)
            (close_append_handle env s))).client_table
        = (gconfd_corba_logfile_read env s).client_table) ∧
    (log_writable env →
      ∃ crecs lrecs : List (List Char),
        log_text (gconfd_corba_logfile_read env s)
          = log_text s ++ (join_lines crecs ++ join_lines lrecs) ∧
        (∀ l ∈ crecs, ∃ ior, l = client_record_text true ior) ∧
        (∀ l ∈ lrecs, ∃ add id name loc ior,
          l = listener_record_text add id name loc ior)) := by
  have hread := gconfd_corba_logfile_read_eq env s f (read_loop f ⟨[], []⟩) hf rfl
  have hclose : (close_append_handle env s).default_db = s.default_db ∧
      (close_append_handle env s).db_list = s.db_list := by
    unfold close_append_handle
    split <;> exact ⟨rfl, rfl⟩
  refine ⟨hread, ?_, ?_, ?_⟩
  · intro n
    obtain ⟨h1, h2⟩ := restore_clients_databases env ((read_loop f ⟨[], []⟩).clients.take n)
      (close_append_handle env s)
    exact ⟨h1.trans hclose.1, h2.trans hclose.2⟩
  · intro n
    rw [hread, restore_listeners_client_table, restore_listeners_client_table]
  · intro hw
    obtain ⟨crecs, hc1, hc2⟩ := foldl_log_lines (restore_client env)
      (fun l => ∃ ior, l = client_record_text true ior)
      (restore_client_log_lines env hw) (read_loop f ⟨[], []⟩).clients
      (close_append_handle env s)
    obtain ⟨lrecs, hl1, hl2⟩ := foldl_log_lines
      (listener_logentry_restore_and_destroy_foreach env)
      (fun l => ∃ add id name loc ior, l = listener_record_text add id name loc ior)
      (restore_foreach_log_lines env hw) (read_loop f ⟨[], []⟩).entries
      ((read_loop f ⟨[], []⟩).clients.foldl (restore_client env)
        (close_append_handle env s))
    refine ⟨crecs, lrecs, ?_, hc2, hl2⟩
    rw [hread, hl1, hc1, (close_append_handle_frame env s hw.2.2.2).2.2.1,
      List.append_assoc]

set_option maxRecDepth 100000 in
/-- Witness of claim C17 in the sample world: in the file the listener record
`ADD 5 "def" "/x" "IOR1"` stands before the client record `CLIENTADD "IOR1"`; the
replay appends the CLIENTADD line of the restored client first and the REMOVE and ADD
lines of the restored listener after it. -/
theorem gconfd_corba_logfile_read_clients_first_witness :
    (close_append_handle sample_env
      ⟨none, none, ⟨some "ADD 5 \"def\" \"/x\" \"IOR1\"\nCLIENTADD \"IOR1\"\n".toList,
        none, none⟩, some ⟨"def".toList, some ⟨[], 1⟩⟩, [], false⟩).files.logfile
      = some "ADD 5 \"def\" \"/x\" \"IOR1\"\nCLIENTADD \"IOR1\"\n".toList ∧
    (gconfd_corba_logfile_read sample_env
      ⟨none, none, ⟨some "ADD 5 \"def\" \"/x\" \"IOR1\"\nCLIENTADD \"IOR1\"\n".toList,
        none, none⟩, some ⟨"def".toList, some ⟨[], 1⟩⟩, [], false⟩).files.logfile
      = some ("ADD 5 \"def\" \"/x\" \"IOR1\"\nCLIENTADD \"IOR1\"\n".toList ++
          ("CLIENTADD \"IOR1\"\n".toList ++
          ("REMOVE 5 \"def\" \"/x\" \"IOR1\"\n".toList ++
            "ADD 1 \"def\" \"/x\" \"IOR1\"\n".toList))) := by
  refine ⟨by decide, ?_⟩
  have e : read_loop "ADD 5 \"def\" \"/x\" \"IOR1\"\nCLIENTADD \"IOR1\"\n".toList ⟨[], []⟩
      = ⟨[⟨5, "IOR1".toList, "def".toList, "/x".toList⟩], ["IOR1".toList]⟩ := by
    have e : "ADD 5 \"def\" \"/x\" \"IOR1\"\nCLIENTADD \"IOR1\"\n".toList
        = "ADD 5 \"def\" \"/x\" \"IOR1\"".toList ++
          '\n' :: ("CLIENTADD \"IOR1\"".toList ++ '\n' :: []) := by decide
    rw [e, read_loop_line _ _ _ (by decide) (by decide),
      read_loop_line _ _ _ (by decide) (by decide), read_loop_nil]
    decide
  rw [(gconfd_corba_logfile_read_clients_first sample_env
    ⟨none, none, ⟨some "ADD 5 \"def\" \"/x\" \"IOR1\"\nCLIENTADD \"IOR1\"\n".toList,
      none, none⟩, some ⟨"def".toList, some ⟨[], 1⟩⟩, [], false⟩
    "ADD 5 \"def\" \"/x\" \"IOR1\"\nCLIENTADD \"IOR1\"\n".toList (by decide)).1, e]
  decide

end Corba

/-! ## The snapshot of the client table -/

namespace Corba

/-- The loop of `log_clients_to_string` appends one CLIENTADD line for every client that
can be stringified. -/
theorem log_clients_foldl (env : Env) (table : List ConfigListener) (str : List Char) :
    table.foldl (log_clients_foreach env) str
      = str ++ join_lines ((table.filterMap env.gconf_object_to_string).map
          (client_record_text true)) := by
  induction table generalizing str with
  | nil => simp [join_lines]
  | cons c rest ih =>
    rw [List.foldl_cons, ih]
    unfold log_clients_foreach
    cases hior : env.gconf_object_to_string c with
    | none => simp [List.filterMap_cons, hior]
    | some ior =>
      simp [List.filterMap_cons, hior, join_lines, client_record_text, List.append_assoc]

/-- The listeners of a database are serialised as ADD lines after what the text holds. -/
theorem log_listeners_to_string_lines (env : Env) (db : Option GConfDatabase)
    (is_default : Bool) (str : List Char) :
    ∃ recs : List (List Char),
      gconf_database_log_listeners_to_string env db is_default str
        = str ++ join_lines recs ∧
      ∀ l ∈ recs, ∃ id name loc ior, l = listener_record_text true id name loc ior := by
  cases db with
  | none => exact ⟨[], by simp [gconf_database_log_listeners_to_string, join_lines], by simp⟩
  | some d =>
    unfold gconf_database_log_listeners_to_string
    simp only
    generalize d.subscriptions = subs
    induction subs generalizing str with
    | nil => exact ⟨[], by simp [join_lines], by simp⟩
    | cons sub rest ih =>
      rw [List.foldl_cons]
      cases hd : sub.listener_data with
      | dbus n w =>
        simp only
        exact ih str
      | corba n obj =>
        simp only
        cases hior : env.gconf_object_to_string obj with
        | none =>
          simp only
          exact ih str
        | some ior =>
          simp only
          obtain ⟨recs, h1, h2⟩ := ih (str ++ listener_record true sub.cnxn
            (if is_default = true then "def".toList else d.persistent_name) sub.location ior)
          refine ⟨listener_record_text true sub.cnxn
            (if is_default = true then "def".toList else d.persistent_name) sub.location ior
              :: recs, ?_, ?_⟩
          · rw [h1]
            simp [join_lines, listener_record, List.append_assoc]
          · intro l hl
            rcases List.mem_cons.1 hl with h | h
            · exact ⟨_, _, _, _, h⟩
            · exact h2 l h

/-- Replaying CLIENTADD lines inserts their IORs into the client map. -/
theorem replay_client_lines_eq (iors : List CString) (m : GHashTable CString) :
    replay_client_lines m (iors.map (client_record_text true))
      = iors.foldl (g_hash_table_insert g_str_equal) m := by
  unfold replay_client_lines
  induction iors generalizing m with
  | nil => rfl
  | cons i rest ih =>
    have h : (parse_client_entry m (client_record_text true i)).2
        = g_hash_table_insert g_str_equal m i := by
      simp only [parse_client_entry, (scan_client_record_text true i).2]
      cases hl : g_hash_table_lookup g_str_equal m i with
      | none => simp
      | some old => simp [g_hash_table_insert, hl]
    simp only [List.map_cons, List.foldl_cons, h]
    exact ih _

/-- Membership in a client map after a run of insertions. -/
theorem mem_foldl_insert (iors : List CString) (m : GHashTable CString) (x : CString) :
    x ∈ iors.foldl (g_hash_table_insert g_str_equal) m ↔ x ∈ m ∨ x ∈ iors := by
  induction iors generalizing m with
  | nil => simp
  | cons i rest ih =>
    rw [List.foldl_cons, ih, mem_insert_iff _ g_str_equal_iff]
    simp only [List.mem_cons]
    tauto

/-- A run of insertions keeps a client map free of repetitions. -/
theorem nodup_foldl_insert (iors : List CString) (m : GHashTable CString)
    (h : m.Nodup) : (iors.foldl (g_hash_table_insert g_str_equal) m).Nodup := by
  induction iors generalizing m with
  | nil => exact h
  | cons i rest ih =>
    rw [List.foldl_cons]
    apply ih
    unfold g_hash_table_insert
    cases hl : g_hash_table_lookup g_str_equal m i with
    | some old => exact h
    | none =>
      have hni := (lookup_eq_none_iff _ g_str_equal_iff m i).1 hl
      simp only
      rw [List.nodup_append]
      refine ⟨h, List.nodup_singleton i, ?_⟩
      intro a ha hb
      rw [List.mem_singleton] at hb
      exact hni (hb ▸ ha)

end Corba

namespace Corba

/-- The listeners of the listed databases are serialised as ADD lines after what the
text holds. -/
theorem log_listeners_foldl_lines (env : Env) (dbs : List GConfDatabase) (str : List Char) :
    ∃ recs : List (List Char),
      dbs.foldl (fun acc db => gconf_database_log_listeners_to_string env (some db) false acc)
        str = str ++ join_lines recs ∧
      ∀ l ∈ recs, ∃ id name loc ior, l = listener_record_text true id name loc ior := by
  induction dbs generalizing str with
  | nil => exact ⟨[], by simp [join_lines], by simp⟩
  | cons d rest ih =>
    rw [List.foldl_cons]
    obtain ⟨r1, h1, p1⟩ := log_listeners_to_string_lines env (some d) false str
    obtain ⟨r2, h2, p2⟩ := ih (gconf_database_log_listeners_to_string env (some d) false str)
    refine ⟨r1 ++ r2, ?_, ?_⟩
    · rw [h2, h1, join_lines_append, List.append_assoc]
    · intro l hl
      rcases List.mem_append.1 hl with h | h
      · exact p1 l h
      · exact p2 l h

/-- Claim C18: the client part of the text that `gconfd_corba_logfile_save` serialises is
one CLIENTADD line for every client of the table whose reference can be stringified, in
table order, and nothing else (no CLIENTREMOVE line); the whole text is that client
part followed by ADD lines of listeners; each client line is left alone by
`parse_listener_entry` and handled by `parse_client_entry`; and replaying the client
lines with `parse_client_entry` from the empty map gives a map without repetitions whose
members are exactly the IORs of the clients of the table. The text is what the function
writes to the temp file. -/
theorem log_clients_to_string_snapshot (env : Env) (s : Daemon) :
    log_clients_to_string env s []
      = join_lines ((client_iors env s).map (client_record_text true)) ∧
    (∃ lrecs : List (List Char),
      saved_state_text env s = log_clients_to_string env s [] ++ join_lines lrecs ∧
      ∀ l ∈ lrecs, ∃ id name loc ior, l = listener_record_text true id name loc ior) ∧
    (∀ l ∈ (client_iors env s).map (client_record_text true),
      ∀ (entries : GHashTable ListenerLogEntry) (clients : GHashTable CString),
        (parse_listener_entry entries l).1 = false ∧ (parse_client_entry clients l).1 = true) ∧
    (∀ ior : CString,
      ior ∈ replay_client_lines [] ((client_iors env s).map (client_record_text true)) ↔
        ∃ cl ∈ s.client_table.getD [], env.gconf_object_to_string cl = some ior) ∧
    (replay_client_lines [] ((client_iors env s).map (client_record_text true))).Nodup ∧
    (env.save_call_fails SaveCall.open_tmp = false →
      env.save_call_fails SaveCall.write_tmp = false →
      env.save_call_fails SaveCall.close_tmp = false →
      (gconfd_corba_logfile_save env SavePoint.tmp_closed s).files.tmpfile
        = some (saved_state_text env (close_append_handle env s))) := by
  have h1 : log_clients_to_string env s []
      = join_lines ((client_iors env s).map (client_record_text true)) := by
    unfold log_clients_to_string client_iors
    cases s.client_table with
    | none => simp [join_lines]
    | some table => simpa using log_clients_foldl env table []
  refine ⟨h1, ?_, ?_, ?_, ?_, ?_⟩
  · obtain ⟨r1, e1, p1⟩ := log_listeners_to_string_lines env s.default_db true
      (log_clients_to_string env s [])
    obtain ⟨r2, e2, p2⟩ := log_listeners_foldl_lines env s.db_list
      (gconf_database_log_listeners_to_string env s.default_db true
        (log_clients_to_string env s []))
    refine ⟨r1 ++ r2, ?_, ?_⟩
    · unfold saved_state_text
      rw [e2, e1, join_lines_append, List.append_assoc]
    · intro l hl
      rcases List.mem_append.1 hl with h | h
      · exact p1 l h
      · exact p2 l h
  · intro l hl entries clients
    obtain ⟨ior, _, rfl⟩ := List.mem_map.1 hl
    obtain ⟨s1, s2⟩ := scan_client_record_text true ior
    constructor
    · simp [parse_listener_entry, s1]
    · simp only [parse_client_entry, s2]
      cases g_hash_table_lookup g_str_equal clients ior <;> simp
  · intro ior
    rw [replay_client_lines_eq, mem_foldl_insert]
    simp [client_iors, List.mem_filterMap]
  · rw [replay_client_lines_eq]
    exact nodup_foldl_insert _ [] List.nodup_nil
  · intro ho hwr hc
    simp [gconfd_corba_logfile_save, ho, hwr, hc]

/-- Witness of claim C18 in the sample world: the table holds the clients 1 and 3, the
log holds more history than that; the temp file that the function writes holds the two
CLIENTADD lines, and replaying them gives the two IORs. -/
theorem log_clients_to_string_snapshot_witness :
    (gconfd_corba_logfile_save sample_env SavePoint.tmp_closed
      ⟨some [⟨1⟩, ⟨3⟩], none,
        ⟨some "CLIENTADD \"IOR1\"\nCLIENTADD \"IOR11\"\nCLIENTREMOVE \"IOR11\"\n".toList,
          none, none⟩, none, [], false⟩).files.tmpfile
      = some "CLIENTADD \"IOR1\"\nCLIENTADD \"IOR111\"\n".toList ∧
    replay_client_lines []
        ["CLIENTADD \"IOR1\"".toList, "CLIENTADD \"IOR111\"".toList]
      = ["IOR1".toList, "IOR111".toList] := by
  constructor
  · rw [(log_clients_to_string_snapshot sample_env
      ⟨some [⟨1⟩, ⟨3⟩], none,
        ⟨some "CLIENTADD \"IOR1\"\nCLIENTADD \"IOR11\"\nCLIENTREMOVE \"IOR11\"\n".toList,
          none, none⟩, none, [], false⟩).2.2.2.2.2 rfl rfl rfl]
    decide
  · decide

end Corba

/-! ## Compaction that fails -/

namespace Corba

/-- When `gconfd_corba_logfile_save` fails before it has moved the old log aside (the
temp file cannot be opened, written or closed, or the old log is there and cannot be
renamed), or
fails to move the temp file into place and then succeeds in moving the old log back,
the log path holds what it held when the running log was closed. -/
theorem gconfd_corba_logfile_save_failure_cases (env : Env) (s : Daemon) :
    (env.save_call_fails SaveCall.open_tmp = true →
      (gconfd_corba_logfile_save env SavePoint.finished s).files.logfile
        = (close_append_handle env s).files.logfile) ∧
    (env.save_call_fails SaveCall.write_tmp = true →
      (gconfd_corba_logfile_save env SavePoint.finished s).files.logfile
        = (close_append_handle env s).files.logfile) ∧
    (env.save_call_fails SaveCall.close_tmp = true →
      (gconfd_corba_logfile_save env SavePoint.finished s).files.logfile
        = (close_append_handle env s).files.logfile) ∧
    (env.save_call_fails SaveCall.rename_aside = true →
      ∀ old, (close_append_handle env s).files.logfile = some old →
      (gconfd_corba_logfile_save env SavePoint.finished s).files.logfile = some old) ∧
    (env.save_call_fails SaveCall.rename_into_place = true →
      env.save_call_fails SaveCall.rename_restore = false →
      (gconfd_corba_logfile_save env SavePoint.finished s).files.logfile
        = (close_append_handle env s).files.logfile) ∧
    (env.save_call_fails SaveCall.rename_into_place = true →
      (close_append_handle env s).files.logfile = none →
      (gconfd_corba_logfile_save env SavePoint.finished s).files.logfile = none) := by
  refine ⟨?_, ?_, ?_, ?_, ?_, ?_⟩
  · intro h
    simp [gconfd_corba_logfile_save, h]
  · intro h
    cases h1 : env.save_call_fails SaveCall.open_tmp <;>
      simp [gconfd_corba_logfile_save, h, h1]
  · intro h
    cases h1 : env.save_call_fails SaveCall.open_tmp <;>
    cases h2 : env.save_call_fails SaveCall.write_tmp <;>
      simp [gconfd_corba_logfile_save, h, h1, h2]
  · intro h old h4
    cases h1 : env.save_call_fails SaveCall.open_tmp <;>
    cases h2 : env.save_call_fails SaveCall.write_tmp <;>
    cases h3 : env.save_call_fails SaveCall.close_tmp <;>
      simp [gconfd_corba_logfile_save, h, h1, h2, h3, h4]
  · intro h hr
    cases h1 : env.save_call_fails SaveCall.open_tmp <;>
    cases h2 : env.save_call_fails SaveCall.write_tmp <;>
    cases h3 : env.save_call_fails SaveCall.close_tmp <;>
    cases h4 : (close_append_handle env s).files.logfile <;>
    cases h5 : env.save_call_fails SaveCall.rename_aside <;>
      simp [gconfd_corba_logfile_save, h, hr, h1, h2, h3, h4, h5]
  · intro h hl
    cases h1 : env.save_call_fails SaveCall.open_tmp <;>
    cases h2 : env.save_call_fails SaveCall.write_tmp <;>
    cases h3 : env.save_call_fails SaveCall.close_tmp <;>
      simp [gconfd_corba_logfile_save, h, hl, h1, h2, h3]

end Corba

namespace Corba

/-- Claim C19, evaluated where the new text cannot be moved into place and the old log
cannot be moved back: the table holds the client 1, the log holds three client
records, the temp file is written and the old log is renamed to `saved_state.orig`; then
`rename (tmpfile, logfile)` fails and so does `rename (tmpfile2, logfile)`. The function
returns with no file at the log path (the old log is at `saved_state.orig`, the new
text at `saved_state.tmp`), so the running log is not left in place, and
`gconfd_corba_logfile_read` then restores nothing. When the second rename succeeds the
old log is back at the log path. -/
theorem gconfd_corba_logfile_save_loses_log :
    (gconfd_corba_logfile_save
      { sample_env with
        save_call_fails := fun c =>
          c == SaveCall.rename_into_place || c == SaveCall.rename_restore }
      SavePoint.finished
      ⟨some [⟨1⟩], none,
        ⟨some "CLIENTADD \"IOR1\"\nCLIENTADD \"IOR11\"\nCLIENTREMOVE \"IOR11\"\n".toList,
          none, none⟩, none, [], false⟩).files
      = ⟨none, some "CLIENTADD \"IOR1\"\n".toList,
          some "CLIENTADD \"IOR1\"\nCLIENTADD \"IOR11\"\nCLIENTREMOVE \"IOR11\"\n".toList⟩ ∧
    gconfd_corba_logfile_read sample_env
      ⟨none, none,
        ⟨none, some "CLIENTADD \"IOR1\"\n".toList,
          some "CLIENTADD \"IOR1\"\nCLIENTADD \"IOR11\"\nCLIENTREMOVE \"IOR11\"\n".toList⟩,
        none, [], false⟩
      = ⟨none, none,
          ⟨none, some "CLIENTADD \"IOR1\"\n".toList,
            some "CLIENTADD \"IOR1\"\nCLIENTADD \"IOR11\"\nCLIENTREMOVE \"IOR11\"\n".toList⟩,
          none, [], false⟩ ∧
    (gconfd_corba_logfile_save
      { sample_env with save_call_fails := fun c => c == SaveCall.rename_into_place }
      SavePoint.finished
      ⟨some [⟨1⟩], none,
        ⟨some "CLIENTADD \"IOR1\"\nCLIENTADD \"IOR11\"\nCLIENTREMOVE \"IOR11\"\n".toList,
          none, none⟩, none, [], false⟩).files
      = ⟨some "CLIENTADD \"IOR1\"\nCLIENTADD \"IOR11\"\nCLIENTREMOVE \"IOR11\"\n".toList,
          some "CLIENTADD \"IOR1\"\n".toList, none⟩ :=
  ⟨by decide, by decide, by decide⟩

end Corba

/-! ## Assertions of the codec and of the error translation -/

/-- The function `gconf_type_from_corba_type` runs into `g_assert_not_reached` exactly on a tag that
is none of the eight declared values. -/
theorem gconf_type_from_corba_type_aborts (t : ConfigValueType) :
    gconf_type_from_corba_type t = Outcome.aborts ↔ t.declared = false := by
  cases t <;> simp [gconf_type_from_corba_type, ConfigValueType.declared]

/-- The function `gconf_schema_from_corba_schema` runs into the assertion exactly when one of the
four type tags is not declared. -/
theorem gconf_schema_from_corba_schema_aborts (env : CodecEnv) (cs : ConfigSchema) :
    gconf_schema_from_corba_schema env cs = Outcome.aborts ↔
      schema_tags_declared cs = false := by
  have key : ∀ t : ConfigValueType,
      (t.declared = true ∧ ∃ g, gconf_type_from_corba_type t = Outcome.returns g) ∨
      (t.declared = false ∧ gconf_type_from_corba_type t = Outcome.aborts) := by
    intro t
    cases t <;> simp [gconf_type_from_corba_type, ConfigValueType.declared]
  unfold gconf_schema_from_corba_schema schema_tags_declared
  rcases key cs.value_type with ⟨d1, g1, e1⟩ | ⟨d1, e1⟩ <;>
    rcases key cs.value_list_type with ⟨d2, g2, e2⟩ | ⟨d2, e2⟩ <;>
    rcases key cs.value_car_type with ⟨d3, g3, e3⟩ | ⟨d3, e3⟩ <;>
    rcases key cs.value_cdr_type with ⟨d4, g4, e4⟩ | ⟨d4, e4⟩ <;>
    simp [d1, d2, d3, d4, e1, e2, e3, e4]

mutual
/-- A wire value whose schemas all have declared type tags is decoded without an
assertion. -/
theorem gconf_value_from_corba_value_returns (env : CodecEnv) :
    ∀ v : ConfigValue, tags_declared v = true →
      ∃ g, gconf_value_from_corba_value env v = Outcome.returns g
  | .InvalidVal, _ => ⟨.NULL, by simp [gconf_value_from_corba_value]⟩
  | .out_of_range _, _ => ⟨.NULL, by simp [gconf_value_from_corba_value]⟩
  | .IntVal i, _ => ⟨.INT i, by simp [gconf_value_from_corba_value]⟩
  | .StringVal s, _ =>
    ⟨.STRING (if env.g_utf8_validate s then some s else none),
      by simp [gconf_value_from_corba_value]⟩
  | .FloatVal f, _ => ⟨.FLOAT f, by simp [gconf_value_from_corba_value]⟩
  | .BoolVal b, _ => ⟨.BOOL b, by simp [gconf_value_from_corba_value]⟩
  | .SchemaVal cs, h => by
    simp only [tags_declared] at h
    cases hs : gconf_schema_from_corba_schema env cs with
    | aborts =>
      rw [gconf_schema_from_corba_schema_aborts] at hs
      rw [h] at hs
      exact absurd hs (by decide)
    | returns sc => exact ⟨.SCHEMA sc, by simp [gconf_value_from_corba_value, hs]⟩
  | .ListVal t seq, h => by
    simp only [tags_declared] at h
    obtain ⟨l, hl⟩ := list_from_corba_loop_returns env seq h (list_type_from_corba t) []
    by_cases ht : list_type_from_corba t = GConfValueType.GCONF_VALUE_INVALID
    · exact ⟨.LIST .GCONF_VALUE_INVALID [], by simp [gconf_value_from_corba_value, ht]⟩
    · exact ⟨.LIST (list_type_from_corba t) l.reverse,
        by simp [gconf_value_from_corba_value, ht, hl]⟩
  | .PairVal [], _ => ⟨.PAIR .NULL .NULL, by simp [gconf_value_from_corba_value]⟩
  | .PairVal [_], _ => ⟨.PAIR .NULL .NULL, by simp [gconf_value_from_corba_value]⟩
  | .PairVal [car, cdr], h => by
    simp only [tags_declared, all_tags_declared, Bool.and_true, Bool.and_eq_true] at h
    obtain ⟨a, ha⟩ := gconf_value_from_corba_value_returns env car h.1
    obtain ⟨b, hb⟩ := gconf_value_from_corba_value_returns env cdr h.2
    exact ⟨.PAIR a b, by simp [gconf_value_from_corba_value, ha, hb]⟩
  | .PairVal (_ :: _ :: _ :: _), _ =>
    ⟨.PAIR .NULL .NULL, by simp [gconf_value_from_corba_value]⟩
/-- The element loop over such values returns. -/
theorem list_from_corba_loop_returns (env : CodecEnv) :
    ∀ (seq : List ConfigValue), all_tags_declared seq = true →
      ∀ (t : GConfValueType) (acc : List GConfValue),
        ∃ l, list_from_corba_loop env t seq acc = Outcome.returns l
  | [], _, _, acc => ⟨acc, by simp [list_from_corba_loop]⟩
  | e :: rest, h, t, acc => by
    simp only [all_tags_declared, Bool.and_eq_true] at h
    obtain ⟨g, hg⟩ := gconf_value_from_corba_value_returns env e h.1
    rw [list_from_corba_loop, hg]
    simp only
    split
    · exact list_from_corba_loop_returns env rest h.2 t acc
    · split
      · exact list_from_corba_loop_returns env rest h.2 t acc
      · exact list_from_corba_loop_returns env rest h.2 t (g :: acc)
end

/-- The error codes for which the `switch` of `gconf_corba_set_exception` has no
exception. -/
theorem corba_err_no_none (code : GConfError) :
    corba_err_no code = none ↔
      code = GConfError.GCONF_ERROR_SUCCESS ∨ code = GConfError.GCONF_ERROR_NO_SERVER ∨
      code = GConfError.GCONF_ERROR_OAF_ERROR ∨ code = GConfError.GCONF_ERROR_LOCAL_ENGINE ∨
      ∃ n, code = GConfError.out_of_range n := by
  cases code <;> simp [corba_err_no]

/-- The error codes for which the `switch` of `gconf_dbus_set_exception` has no error
name. -/
theorem dbus_error_name_none (code : GConfError) :
    DBus.dbus_error_name code = none ↔
      code = GConfError.GCONF_ERROR_SUCCESS ∨ code = GConfError.GCONF_ERROR_NO_SERVER ∨
      code = GConfError.GCONF_ERROR_OAF_ERROR ∨ code = GConfError.GCONF_ERROR_LOCAL_ENGINE ∨
      ∃ n, code = GConfError.out_of_range n := by
  cases code <;> simp [DBus.dbus_error_name]

/-- The inputs that reach an assertion. The schema decoder runs into
`g_assert_not_reached` exactly when one of the four type tags of the wire schema is none of the eight
declared values; a wire value in which every schema has declared tags is decoded without
an assertion, whatever its own discriminator and its list type tags are (an
out-of-range discriminator gives `NULL`). `gconf_corba_set_exception` runs into an
assertion exactly for an error that is set, whose code is not `GCONF_ERROR_SUCCESS`, and
whose message is `NULL` or whose code is `GCONF_ERROR_NO_SERVER`,
`GCONF_ERROR_OAF_ERROR`, `GCONF_ERROR_LOCAL_ENGINE` or no declared code;
`gconf_dbus_set_exception` exactly for an error that is set with one of these codes. -/
theorem assertions_reached :
    (∀ (env : CodecEnv) (cs : ConfigSchema),
      gconf_schema_from_corba_schema env cs = Outcome.aborts ↔
        schema_tags_declared cs = false) ∧
    (∀ (env : CodecEnv) (v : ConfigValue), tags_declared v = true →
      ∃ g, gconf_value_from_corba_value env v = Outcome.returns g) ∧
    (∀ (env : CodecEnv) (d : Nat) (raw : Nat) (seq : List ConfigValue),
      gconf_value_from_corba_value env (ConfigValue.out_of_range d)
        = Outcome.returns GConfValue.NULL ∧
      gconf_value_from_corba_value env
          (ConfigValue.ListVal (ConfigBasicValueType.out_of_range raw) seq)
        = Outcome.returns (GConfValue.LIST GConfValueType.GCONF_VALUE_INVALID [])) ∧
    (∀ error : Option (Option GError),
      gconf_corba_set_exception error = Outcome.aborts ↔
        ∃ e, error = some (some e) ∧ e.code ≠ GConfError.GCONF_ERROR_SUCCESS ∧
          (e.message = none ∨ e.code = GConfError.GCONF_ERROR_NO_SERVER ∨
            e.code = GConfError.GCONF_ERROR_OAF_ERROR ∨
            e.code = GConfError.GCONF_ERROR_LOCAL_ENGINE ∨
            ∃ n, e.code = GConfError.out_of_range n)) ∧
    (∀ error : Option (Option GError),
      DBus.gconf_dbus_set_exception error = Outcome.aborts ↔
        ∃ e, error = some (some e) ∧
          (e.code = GConfError.GCONF_ERROR_NO_SERVER ∨
            e.code = GConfError.GCONF_ERROR_OAF_ERROR ∨
            e.code = GConfError.GCONF_ERROR_LOCAL_ENGINE ∨
            ∃ n, e.code = GConfError.out_of_range n)) := by
  refine ⟨gconf_schema_from_corba_schema_aborts, gconf_value_from_corba_value_returns,
    ?_, ?_, ?_⟩
  · intro env d raw seq
    constructor
    · simp [gconf_value_from_corba_value]
    · simp [gconf_value_from_corba_value, list_type_from_corba]
  · intro error
    cases error with
    | none => simp [gconf_corba_set_exception]
    | some inner =>
      cases inner with
      | none => simp [gconf_corba_set_exception]
      | some e =>
        obtain ⟨code, message⟩ := e
        have hn := corba_err_no_none code
        by_cases hs : code = GConfError.GCONF_ERROR_SUCCESS
        · subst hs
          simp [gconf_corba_set_exception]
        · cases message with
          | none => simp [gconf_corba_set_exception, hs]
          | some m =>
            cases hc : corba_err_no code with
            | none =>
              have := hn.1 hc
              simp [gconf_corba_set_exception, hs, hc]
              tauto
            | some err_no =>
              have hne : ¬ (code = GConfError.GCONF_ERROR_SUCCESS ∨
                  code = GConfError.GCONF_ERROR_NO_SERVER ∨
                  code = GConfError.GCONF_ERROR_OAF_ERROR ∨
                  code = GConfError.GCONF_ERROR_LOCAL_ENGINE ∨
                  ∃ n, code = GConfError.out_of_range n) := by
                intro h
                rw [hn.2 h] at hc
                exact Option.noConfusion hc
              simp [gconf_corba_set_exception, hs, hc]
              tauto
  · intro error
    cases error with
    | none => simp [DBus.gconf_dbus_set_exception]
    | some inner =>
      cases inner with
      | none => simp [DBus.gconf_dbus_set_exception]
      | some e =>
        obtain ⟨code, message⟩ := e
        have hn := dbus_error_name_none code
        by_cases hs : code = GConfError.GCONF_ERROR_SUCCESS
        · subst hs
          simp [DBus.gconf_dbus_set_exception]
        · cases hc : DBus.dbus_error_name code with
          | none =>
            have := hn.1 hc
            simp [DBus.gconf_dbus_set_exception, hs, hc]
            tauto
          | some name =>
            have hne : ¬ (code = GConfError.GCONF_ERROR_SUCCESS ∨
                code = GConfError.GCONF_ERROR_NO_SERVER ∨
                code = GConfError.GCONF_ERROR_OAF_ERROR ∨
                code = GConfError.GCONF_ERROR_LOCAL_ENGINE ∨
                ∃ n, code = GConfError.out_of_range n) := by
              intro h
              rw [hn.2 h] at hc
              exact Option.noConfusion hc
            simp [DBus.gconf_dbus_set_exception, hs, hc]
            tauto

/-- Inputs that reach no assertion: a pair of a schema with declared tags and a list of
an undeclared element type is decoded; the error `GCONF_ERROR_BAD_KEY` becomes the
exception `ConfigBadKey`. -/
theorem assertions_reached_witness :
    (∃ g, gconf_value_from_corba_value sample_codec_env
      (ConfigValue.PairVal
        [ConfigValue.SchemaVal
          ⟨ConfigValueType.IntVal, ConfigValueType.InvalidVal, ConfigValueType.InvalidVal,
            ConfigValueType.InvalidVal, [], [], [], [], []⟩,
         ConfigValue.ListVal (ConfigBasicValueType.out_of_range 9) [ConfigValue.IntVal 1]])
      = Outcome.returns g) ∧
    gconf_corba_set_exception
        (some (some ⟨GConfError.GCONF_ERROR_BAD_KEY, some "bad key".toList⟩))
      = Outcome.returns
          ⟨true, some ⟨ConfigErrorType.ConfigBadKey, "bad key".toList⟩, none⟩ :=
  ⟨assertions_reached.2.1 sample_codec_env _ (by decide), by decide⟩

/-- Claim C20 fails on the code: the assertions are reachable. A wire schema whose value
type tag (or car type tag) is none of the eight declared values drives
`gconf_schema_from_corba_schema`, and `gconf_value_from_corba_value` on a value or a
list element that holds it, into `g_assert_not_reached`; the error code
`GCONF_ERROR_NO_SERVER` does the same to `gconf_corba_set_exception` and
`gconf_dbus_set_exception`. -/
theorem assertions_reached_by_input :
    gconf_schema_from_corba_schema sample_codec_env
        ⟨ConfigValueType.out_of_range 8, ConfigValueType.InvalidVal,
          ConfigValueType.InvalidVal, ConfigValueType.InvalidVal, [], [], [], [], []⟩
      = Outcome.aborts ∧
    gconf_value_from_corba_value sample_codec_env
        (ConfigValue.SchemaVal
          ⟨ConfigValueType.IntVal, ConfigValueType.InvalidVal,
            ConfigValueType.out_of_range 8, ConfigValueType.InvalidVal, [], [], [], [], []⟩)
      = Outcome.aborts ∧
    gconf_value_from_corba_value sample_codec_env
        (ConfigValue.ListVal ConfigBasicValueType.BStringVal
          [ConfigValue.StringVal "a".toList,
           ConfigValue.SchemaVal
            ⟨ConfigValueType.out_of_range 8, ConfigValueType.InvalidVal,
              ConfigValueType.InvalidVal, ConfigValueType.InvalidVal, [], [], [], [], []⟩])
      = Outcome.aborts ∧
    gconf_corba_set_exception
        (some (some ⟨GConfError.GCONF_ERROR_NO_SERVER, some "no server".toList⟩))
      = Outcome.aborts ∧
    DBus.gconf_dbus_set_exception
        (some (some ⟨GConfError.GCONF_ERROR_NO_SERVER, some "no server".toList⟩))
      = Outcome.aborts :=
  ⟨rfl, rfl, rfl, rfl, rfl⟩

/-! ## Malformed requests on the D-Bus database interface -/

namespace DBus

/-- The request functions stop at the shutdown check or at the arguments when the
arguments are malformed: one error reply, the state they were given, no database call. -/
theorem database_request_malformed (env : Env) (s : Daemon) (m : Message)
    (call : MessageName) (hm : m.args_well_formed = false) :
    database_request env s m call
      = .returns
          ⟨s,
            [if env.in_shutdown then
                Reply.error ErrorName.GCONF_DBUS_ERROR_IN_SHUTDOWN
                  (some "The GConf daemon is currently shutting down.".toList)
              else
                Reply.error ErrorName.GCONF_DBUS_ERROR_FAILED
                  (some "Got a malformed message.".toList)],
            []⟩ := by
  cases hs : env.in_shutdown <;>
    simp [database_request, gconfd_dbus_check_in_shutdown, gconf_dbus_get_message_args, hs, hm]

/-- Embeds the same fact for `gconfd_config_database_add_listener`. -/
theorem add_listener_malformed (env : Env) (s : Daemon) (m : Message)
    (hm : m.args_well_formed = false) :
    gconfd_config_database_add_listener env s m
      = .returns
          ⟨s,
            [if env.in_shutdown then
                Reply.error ErrorName.GCONF_DBUS_ERROR_IN_SHUTDOWN
                  (some "The GConf daemon is currently shutting down.".toList)
              else
                Reply.error ErrorName.GCONF_DBUS_ERROR_FAILED
                  (some "Got a malformed message.".toList)],
            []⟩ := by
  cases hs : env.in_shutdown <;>
    simp [gconfd_config_database_add_listener, gconfd_dbus_check_in_shutdown,
      gconf_dbus_get_message_args, hs, hm]

/-- Embeds the same fact for `gconfd_config_database_remove_listener`. -/
theorem remove_listener_malformed (env : Env) (s : Daemon) (m : Message)
    (hm : m.args_well_formed = false) :
    gconfd_config_database_remove_listener env s m
      = .returns
          ⟨s,
            [if env.in_shutdown then
                Reply.error ErrorName.GCONF_DBUS_ERROR_IN_SHUTDOWN
                  (some "The GConf daemon is currently shutting down.".toList)
              else
                Reply.error ErrorName.GCONF_DBUS_ERROR_FAILED
                  (some "Got a malformed message.".toList)],
            []⟩ := by
  cases hs : env.in_shutdown <;>
    simp [gconfd_config_database_remove_listener, gconfd_dbus_check_in_shutdown,
      gconf_dbus_get_message_args, hs, hm]

/-- The D-Bus `add_client` leaves the databases alone, and leaves a table that holds the
name as it is. -/
theorem dbus_add_client_frame (s : Daemon) (name : CString) :
    (add_client s name).default_db = s.default_db ∧
    (add_client s name).db_list = s.db_list ∧
    (∀ table, s.client_hash = some table → name ∈ table → add_client s name = s) ∧
    (∀ table, (add_client s name).client_hash = some table → name ∈ table) := by
  refine ⟨?_, ?_, ?_, ?_⟩
  · simp only [add_client]
    cases g_hash_table_lookup g_str_equal (s.client_hash.getD []) name <;> rfl
  · simp only [add_client]
    cases g_hash_table_lookup g_str_equal (s.client_hash.getD []) name <;> rfl
  · intro table ht hmem
    have hl : g_hash_table_lookup g_str_equal table name = some name :=
      (lookup_eq_some_iff _ g_str_equal_iff table name name).2 ⟨rfl, hmem⟩
    cases s with
    | mk ch d l =>
      simp only at ht
      subst ht
      simp [add_client, hl]
  · intro table ht
    simp only [add_client] at ht
    cases hl : g_hash_table_lookup g_str_equal (s.client_hash.getD []) name with
    | some v =>
      rw [hl] at ht
      simp only [Option.some.injEq] at ht
      subst ht
      obtain ⟨hv, he⟩ := (lookup_eq_some_iff _ g_str_equal_iff _ name v).1 hl
      exact he
    | none =>
      rw [hl] at ht
      simp only [Option.some.injEq] at ht
      subst ht
      exact (mem_insert_iff _ g_str_equal_iff _ name name).2 (Or.inr rfl)

/-- Claim C21 (as the code has it): for every one of the fifteen database messages, a
request whose arguments are malformed makes `gconfd_config_database_handler` return
`DBUS_HANDLER_RESULT_REMOVE_MESSAGE` after sending exactly one error reply
(`GCONF_DBUS_ERROR_FAILED`, "Got a malformed message."; when the daemon is shutting down
the one reply is `GCONF_DBUS_ERROR_IN_SHUTDOWN` instead, sent before the arguments are
looked at) and making no call into the database. The state left is that of `add_client`
for the sender: the default database, the other databases and so every listener registry
are the ones before, the client table holds the sender, and the whole state is unchanged
when the sender was in the client table already. -/
theorem malformed_request_one_error_reply (env : Env) (s : Daemon) (m : Message)
    (hname : m.name ≠ MessageName.other) (hm : m.args_well_formed = false) :
    gconfd_config_database_handler env s m
      = .returns
          (DBusHandlerResult.DBUS_HANDLER_RESULT_REMOVE_MESSAGE,
            ⟨add_client s m.sender,
              [if env.in_shutdown then
                  Reply.error ErrorName.GCONF_DBUS_ERROR_IN_SHUTDOWN
                    (some "The GConf daemon is currently shutting down.".toList)
                else
                  Reply.error ErrorName.GCONF_DBUS_ERROR_FAILED
                    (some "Got a malformed message.".toList)],
              []⟩) ∧
    (add_client s m.sender).default_db = s.default_db ∧
    (add_client s m.sender).db_list = s.db_list ∧
    (∀ table, (add_client s m.sender).client_hash = some table → m.sender ∈ table) ∧
    (∀ table, s.client_hash = some table → m.sender ∈ table →
      add_client s m.sender = s) := by
  obtain ⟨h1, h2, h3, h4⟩ := dbus_add_client_frame s m.sender
  refine ⟨?_, h1, h2, h4, h3⟩
  unfold gconfd_config_database_handler
  cases hn : m.name <;> first
    | exact absurd hn hname
    | simp only [handler_branch, gconfd_config_database_dir_exists,
        gconfd_config_database_all_dirs, gconfd_config_database_all_entries,
        gconfd_config_database_lookup, gconfd_config_database_lookup_default_value,
        gconfd_config_database_remove_dir, gconfd_config_database_set,
        gconfd_config_database_recursive_unset, gconfd_config_database_unset,
        gconfd_config_database_set_schema, gconfd_config_database_sync,
        gconfd_config_database_synchronous_sync, gconfd_config_database_clear_cache,
        database_request_malformed env _ m _ hm, add_listener_malformed env _ m hm,
        remove_listener_malformed env _ m hm]

/-- A malformed lookup request from a sender that is in the client table already: one
error reply, and the daemon state is the one before. -/
theorem malformed_request_one_error_reply_witness :
    (MessageName.GCONF_DBUS_CONFIG_DATABASE_LOOKUP ≠ MessageName.other) ∧
    ((⟨MessageName.GCONF_DBUS_CONFIG_DATABASE_LOOKUP, ":1.7".toList, false, 0,
        "/apps/panel".toList, 0, none⟩ : Message).args_well_formed = false) ∧
    gconfd_config_database_handler ⟨false, fun _ _ => none⟩
        ⟨some [":1.7".toList], ⟨"default".toList, some ⟨[], 1⟩⟩, []⟩
        ⟨MessageName.GCONF_DBUS_CONFIG_DATABASE_LOOKUP, ":1.7".toList, false, 0,
          "/apps/panel".toList, 0, none⟩
      = .returns
          (DBusHandlerResult.DBUS_HANDLER_RESULT_REMOVE_MESSAGE,
            ⟨⟨some [":1.7".toList], ⟨"default".toList, some ⟨[], 1⟩⟩, []⟩,
              [Reply.error ErrorName.GCONF_DBUS_ERROR_FAILED
                (some "Got a malformed message.".toList)],
              []⟩) :=
  ⟨by decide, rfl,
    (malformed_request_one_error_reply ⟨false, fun _ _ => none⟩
      ⟨some [":1.7".toList], ⟨"default".toList, some ⟨[], 1⟩⟩, []⟩
      ⟨MessageName.GCONF_DBUS_CONFIG_DATABASE_LOOKUP, ":1.7".toList, false, 0,
        "/apps/panel".toList, 0, none⟩ (by decide) rfl).1.trans (by decide)⟩

/-- Claim C21 fails as stated: a malformed lookup request from a sender that the daemon
does not track yet is answered with the one error reply, and the client table, empty
before, holds the sender afterwards. -/
theorem malformed_request_adds_client :
    gconfd_config_database_handler ⟨false, fun _ _ => none⟩
        ⟨some [], ⟨"default".toList, some ⟨[], 1⟩⟩, []⟩
        ⟨MessageName.GCONF_DBUS_CONFIG_DATABASE_LOOKUP, ":1.7".toList, false, 0,
          "/apps/panel".toList, 0, none⟩
      = .returns
          (DBusHandlerResult.DBUS_HANDLER_RESULT_REMOVE_MESSAGE,
            ⟨⟨some [":1.7".toList], ⟨"default".toList, some ⟨[], 1⟩⟩, []⟩,
              [Reply.error ErrorName.GCONF_DBUS_ERROR_FAILED
                (some "Got a malformed message.".toList)],
              []⟩) ∧
    (⟨some [], ⟨"default".toList, some ⟨[], 1⟩⟩, []⟩ : Daemon).client_hash
      ≠ (⟨some [":1.7".toList], ⟨"default".toList, some ⟨[], 1⟩⟩, []⟩ : Daemon).client_hash := by
  refine ⟨by decide, by decide⟩

end DBus

/-! ## The client table when the log cannot be opened or written -/

namespace Corba

/-- The client table after `remove_client` of a client of the table, whatever the log
calls answer. -/
theorem remove_client_known_table (env : Env) (s : Daemon)
    (table : GHashTable ConfigListener) (cl : ConfigListener)
    (ht : s.client_table = some table) (hmem : cl ∈ table) :
    (remove_client env s cl).client_table
      = some (g_hash_table_remove gconf_CORBA_Object_equal table cl) := by
  cases hl : g_hash_table_lookup gconf_CORBA_Object_equal table cl with
  | none =>
    exact absurd hmem ((lookup_eq_none_iff _ gconf_CORBA_Object_equal_iff table cl).1 hl)
  | some old =>
    have hold : old = cl :=
      ((lookup_eq_some_iff _ gconf_CORBA_Object_equal_iff table cl old).1 hl).1
    subst hold
    unfold remove_client log_client_remove
    simp only [ht, hl]
    rw [(log_client_change_frame env _ old false).1]

/-- When the log cannot be opened, or cannot be written, `log_client_change` leaves the
file as it is. -/
theorem log_client_change_unwritable (env : Env) (s : Daemon) (cl : ConfigListener)
    (add : Bool) :
    (env.fopen_ok = false → s.append_handle = none →
      (log_client_change env s cl add).files = s.files ∧
      (log_client_change env s cl add).append_handle = none) ∧
    (env.fprintf_ok = false → s.files.logfile.isSome = true →
      (log_client_change env s cl add).files = s.files) := by
  constructor
  · intro ho hh
    unfold log_client_change
    cases env.gconf_object_to_string cl with
    | none => exact ⟨rfl, hh⟩
    | some ior => simp [open_append_handle, hh, ho]
  · intro hp hf
    unfold log_client_change
    cases env.gconf_object_to_string cl with
    | none => rfl
    | some ior =>
      simp only
      cases hh : s.append_handle with
      | some buf => simp [open_append_handle, hh, write_and_flush, hp]
      | none =>
        cases ho : env.fopen_ok with
        | false => simp [open_append_handle, hh, ho]
        | true =>
          obtain ⟨f, hf2⟩ := Option.isSome_iff_exists.1 hf
          cases hs : s.files with
          | mk l t o =>
            rw [hs] at hf2
            simp only at hf2
            subst hf2
            simp [open_append_handle, hh, ho, write_and_flush, hp, hs]

/-- Claim C22: whatever the log calls answer, so also when the log file cannot be opened
or written, `add_client` and `remove_client` of gconfd-corba.c complete in memory. The
client table after `add_client` is the old table with the client inserted, the same
for any two answers of the outside world, and the client is in it; the table after
`remove_client` of a client of the table is the old table without the client, again
the same for any two answers; both functions return (they have no error result). When
the log cannot be opened or written the log file stays as it was. -/
theorem client_table_without_log (env env2 : Env) (s : Daemon) (cl : ConfigListener) :
    (add_client env s cl).client_table
      = some (g_hash_table_insert gconf_CORBA_Object_equal (s.client_table.getD []) cl) ∧
    (add_client env s cl).client_table = (add_client env2 s cl).client_table ∧
    cl ∈ (add_client env s cl).client_table.getD [] ∧
    (∀ table : GHashTable ConfigListener, s.client_table = some table → cl ∈ table →
      (remove_client env s cl).client_table
        = some (g_hash_table_remove gconf_CORBA_Object_equal table cl) ∧
      (remove_client env s cl).client_table = (remove_client env2 s cl).client_table ∧
      cl ∉ (remove_client env s cl).client_table.getD []) ∧
    (env.fopen_ok = false → s.append_handle = none →
      (add_client env s cl).files = s.files ∧ (remove_client env s cl).files = s.files) ∧
    (env.fprintf_ok = false → s.files.logfile.isSome = true →
      (add_client env s cl).files = s.files ∧ (remove_client env s cl).files = s.files) := by
  have hadd := add_client_client_table env s cl
  have hfiles : ∀ h : (∀ (s2 : Daemon) (c : ConfigListener) (add : Bool),
      s2.files = s.files → s2.append_handle = s.append_handle →
      (log_client_change env s2 c add).files = s.files),
      (add_client env s cl).files = s.files ∧ (remove_client env s cl).files = s.files := by
    intro h
    constructor
    · unfold add_client
      simp only
      split
      · rfl
      · exact h _ _ true rfl rfl
    · unfold remove_client
      simp only
      split
      · rfl
      · split
        · rfl
        · exact h _ _ false rfl rfl
  refine ⟨hadd, ?_, ?_, ?_, ?_, ?_⟩
  · rw [hadd, add_client_client_table env2 s cl]
  · rw [hadd]
    simp only [Option.getD_some]
    exact (mem_insert_iff _ gconf_CORBA_Object_equal_iff _ cl cl).2 (Or.inr rfl)
  · intro table ht hmem
    have h1 := remove_client_known_table env s table cl ht hmem
    refine ⟨h1, ?_, ?_⟩
    · rw [h1, remove_client_known_table env2 s table cl ht hmem]
    · rw [h1]
      simp only [Option.getD_some]
      intro h
      exact ((mem_remove_iff _ gconf_CORBA_Object_equal_iff table cl cl).1 h).2 rfl
  · intro ho hh
    apply hfiles
    intro s2 c add hf2 hh2
    rw [((log_client_change_unwritable env s2 c add).1 ho (hh2.trans hh)).1, hf2]
  · intro hp hf
    apply hfiles
    intro s2 c add hf2 _
    rw [(log_client_change_unwritable env s2 c add).2 hp (by rw [hf2]; exact hf), hf2]

/-- Witness of claim C22: in a world whose log cannot be opened, the client 1 is added
to the table that holds the client 3, and removed again; the tables are those of the
sample world, where the log is writable, and the log file is untouched. -/
theorem client_table_without_log_witness :
    (add_client { sample_env with fopen_ok := false }
        ⟨some [⟨3⟩], none, ⟨some "CLIENTADD \"IOR111\"\n".toList, none, none⟩, none, [],
          false⟩ ⟨1⟩).client_table
      = (add_client sample_env
        ⟨some [⟨3⟩], none, ⟨some "CLIENTADD \"IOR111\"\n".toList, none, none⟩, none, [],
          false⟩ ⟨1⟩).client_table ∧
    (remove_client { sample_env with fopen_ok := false }
        ⟨some [⟨3⟩, ⟨1⟩], none, ⟨some "CLIENTADD \"IOR111\"\n".toList, none, none⟩, none, [],
          false⟩ ⟨1⟩).client_table
      = some [⟨3⟩] ∧
    (add_client { sample_env with fopen_ok := false }
        ⟨some [⟨3⟩], none, ⟨some "CLIENTADD \"IOR111\"\n".toList, none, none⟩, none, [],
          false⟩ ⟨1⟩).files
      = ⟨some "CLIENTADD \"IOR111\"\n".toList, none, none⟩ := by
  have h := client_table_without_log { sample_env with fopen_ok := false } sample_env
    ⟨some [⟨3⟩], none, ⟨some "CLIENTADD \"IOR111\"\n".toList, none, none⟩, none, [], false⟩
    ⟨1⟩
  have h2 := client_table_without_log { sample_env with fopen_ok := false } sample_env
    ⟨some [⟨3⟩, ⟨1⟩], none, ⟨some "CLIENTADD \"IOR111\"\n".toList, none, none⟩, none, [],
      false⟩ ⟨1⟩
  refine ⟨h.2.1, ?_, (h.2.2.2.2.1 rfl rfl).1⟩
  rw [(h2.2.2.2.1 [⟨3⟩, ⟨1⟩] rfl (by decide)).1]
  decide

end Corba

/-! ## Decoding of pairs -/

/-- Claim C23, as the code has it. For a wire pair with exactly two elements
`gconf_value_from_corba_value` decodes element 0 and element 1, in this order, and
returns the Pair of the two decodings when neither decoding runs into the assertion of
`gconf_type_from_corba_type` (which aborts the call). For a wire pair with any other
number of elements (none, one, three or more) the guard
`g_return_val_if_fail (length == 2, gval)` returns the new Pair as `gconf_value_new` made
it: no element is decoded, car and cdr are both `NULL`. (The code reaches the two
elements through the union member `list_value.seq`; the model takes this to be the
sequence of the pair.) -/
theorem gconf_value_from_corba_value_pair (env : CodecEnv) :
    (∀ (e0 e1 : ConfigValue) (car cdr : GConfValue),
      gconf_value_from_corba_value env e0 = Outcome.returns car →
      gconf_value_from_corba_value env e1 = Outcome.returns cdr →
      gconf_value_from_corba_value env (ConfigValue.PairVal [e0, e1])
        = Outcome.returns (GConfValue.PAIR car cdr)) ∧
    (∀ (e0 e1 : ConfigValue), tags_declared e0 = true → tags_declared e1 = true →
      ∃ car cdr, gconf_value_from_corba_value env e0 = Outcome.returns car ∧
        gconf_value_from_corba_value env e1 = Outcome.returns cdr ∧
        gconf_value_from_corba_value env (ConfigValue.PairVal [e0, e1])
          = Outcome.returns (GConfValue.PAIR car cdr)) ∧
    (∀ (e0 e1 : ConfigValue),
      gconf_value_from_corba_value env e0 = Outcome.aborts ∨
        gconf_value_from_corba_value env e1 = Outcome.aborts →
      gconf_value_from_corba_value env (ConfigValue.PairVal [e0, e1]) = Outcome.aborts) ∧
    (∀ seq : List ConfigValue, seq.length ≠ 2 →
      gconf_value_from_corba_value env (ConfigValue.PairVal seq)
        = Outcome.returns (GConfValue.PAIR GConfValue.NULL GConfValue.NULL)) := by
  have h1 : ∀ (e0 e1 : ConfigValue) (car cdr : GConfValue),
      gconf_value_from_corba_value env e0 = Outcome.returns car →
      gconf_value_from_corba_value env e1 = Outcome.returns cdr →
      gconf_value_from_corba_value env (ConfigValue.PairVal [e0, e1])
        = Outcome.returns (GConfValue.PAIR car cdr) := by
    intro e0 e1 car cdr h0 h1
    simp [gconf_value_from_corba_value, h0, h1]
  refine ⟨h1, ?_, ?_, ?_⟩
  · intro e0 e1 d0 d1
    obtain ⟨car, hc⟩ := gconf_value_from_corba_value_returns env e0 d0
    obtain ⟨cdr, hd⟩ := gconf_value_from_corba_value_returns env e1 d1
    exact ⟨car, cdr, hc, hd, h1 e0 e1 car cdr hc hd⟩
  · intro e0 e1 h
    rcases h with h | h
    · simp [gconf_value_from_corba_value, h]
    · cases h0 : gconf_value_from_corba_value env e0 with
      | aborts => simp [gconf_value_from_corba_value, h0]
      | returns a => simp [gconf_value_from_corba_value, h0, h]
  · intro seq hlen
    match seq, hlen with
    | [], _ => simp [gconf_value_from_corba_value]
    | [_], _ => simp [gconf_value_from_corba_value]
    | [_, _], h => exact absurd rfl h
    | _ :: _ :: _ :: _, _ => simp [gconf_value_from_corba_value]

/-- Witness of claim C23: the pair of the integer 7 and the string `a` is decoded to the
Pair of the two; the sequences with one element and with three elements give the Pair
without car and cdr. -/
theorem gconf_value_from_corba_value_pair_witness :
    gconf_value_from_corba_value sample_codec_env
        (ConfigValue.PairVal [ConfigValue.IntVal 7, ConfigValue.StringVal "a".toList])
      = Outcome.returns (GConfValue.PAIR (GConfValue.INT 7)
          (GConfValue.STRING (some "a".toList))) ∧
    gconf_value_from_corba_value sample_codec_env
        (ConfigValue.PairVal [ConfigValue.IntVal 7])
      = Outcome.returns (GConfValue.PAIR GConfValue.NULL GConfValue.NULL) ∧
    gconf_value_from_corba_value sample_codec_env
        (ConfigValue.PairVal
          [ConfigValue.IntVal 7, ConfigValue.IntVal 8, ConfigValue.IntVal 9])
      = Outcome.returns (GConfValue.PAIR GConfValue.NULL GConfValue.NULL) :=
  ⟨(gconf_value_from_corba_value_pair sample_codec_env).1 _ _ _ _ rfl rfl,
   (gconf_value_from_corba_value_pair sample_codec_env).2.2.2 _ (by decide),
   (gconf_value_from_corba_value_pair sample_codec_env).2.2.2 _ (by decide)⟩

/-- The claim C23 as stated fails in two ways: a wire pair with exactly two elements
whose first element is a schema with an undeclared type tag aborts the call instead of
returning a Pair; and a wire pair with the one element 7 is not filled from the element
that is there, its car is `NULL` and not the integer 7. -/
theorem gconf_value_from_corba_value_pair_unfilled :
    gconf_value_from_corba_value sample_codec_env
        (ConfigValue.PairVal
          [ConfigValue.SchemaVal
            ⟨ConfigValueType.out_of_range 8, ConfigValueType.InvalidVal,
              ConfigValueType.InvalidVal, ConfigValueType.InvalidVal, [], [], [], [], []⟩,
           ConfigValue.IntVal 1])
      = Outcome.aborts ∧
    gconf_value_from_corba_value sample_codec_env (ConfigValue.IntVal 7)
      = Outcome.returns (GConfValue.INT 7) ∧
    gconf_value_from_corba_value sample_codec_env
        (ConfigValue.PairVal [ConfigValue.IntVal 7])
      = Outcome.returns (GConfValue.PAIR GConfValue.NULL GConfValue.NULL) :=
  ⟨rfl, rfl, rfl⟩

/-! ## Strings that are not valid UTF-8 -/

/-- The schema decoder, when it returns: the four strings are set field by field. -/
theorem gconf_schema_from_corba_schema_strings (env : CodecEnv) (cs : ConfigSchema)
    (sc : GConfSchema) (h : gconf_schema_from_corba_schema env cs = Outcome.returns sc) :
    sc.locale = schema_string env cs.locale ∧
    sc.short_desc = schema_string env cs.short_desc ∧
    sc.long_desc = schema_string env cs.long_desc ∧
    sc.owner = schema_string env cs.owner ∧
    sc.default_value = env.gconf_value_decode cs.encoded_default_value := by
  unfold gconf_schema_from_corba_schema at h
  cases h1 : gconf_type_from_corba_type cs.value_type with
  | aborts => simp [h1] at h
  | returns t1 =>
    cases h2 : gconf_type_from_corba_type cs.value_list_type with
    | aborts => simp [h1, h2] at h
    | returns t2 =>
      cases h3 : gconf_type_from_corba_type cs.value_car_type with
      | aborts => simp [h1, h2, h3] at h
      | returns t3 =>
        cases h4 : gconf_type_from_corba_type cs.value_cdr_type with
        | aborts => simp [h1, h2, h3, h4] at h
        | returns t4 =>
          simp only [h1, h2, h3, h4, Outcome.returns.injEq] at h
          subst h
          exact ⟨rfl, rfl, rfl, rfl, rfl⟩

/-- A wire schema with declared type tags is decoded. -/
theorem gconf_schema_from_corba_schema_returns (env : CodecEnv) (cs : ConfigSchema)
    (h : schema_tags_declared cs = true) :
    ∃ sc, gconf_schema_from_corba_schema env cs = Outcome.returns sc := by
  cases hs : gconf_schema_from_corba_schema env cs with
  | aborts =>
    rw [gconf_schema_from_corba_schema_aborts, h] at hs
    exact absurd hs (by decide)
  | returns sc => exact ⟨sc, rfl⟩

/-- Claim C24, as the code has it: a wire String that is not valid UTF-8 is decoded,
without failure, to a String value that carries no string, so the bytes are not handed on
(a valid one is decoded to the String value with that string). In a decoded schema each
of locale, short description, long description and owner is set on its own, whatever the
other three fields are: a wire field that is not valid UTF-8 is left unset, a wire field
that is valid and not empty is set to that string, and an empty wire field, the wire form
of a field that is not set, is left unset although it is valid. A wire schema whose four
type tags are declared is decoded. -/
theorem invalid_utf8_is_dropped (env : CodecEnv) :
    (∀ s : CString, env.g_utf8_validate s = false →
      gconf_value_from_corba_value env (ConfigValue.StringVal s)
        = Outcome.returns (GConfValue.STRING none)) ∧
    (∀ s : CString, env.g_utf8_validate s = true →
      gconf_value_from_corba_value env (ConfigValue.StringVal s)
        = Outcome.returns (GConfValue.STRING (some s))) ∧
    (∀ cs : ConfigSchema, schema_tags_declared cs = true →
      ∃ sc, gconf_schema_from_corba_schema env cs = Outcome.returns sc) ∧
    (∀ (cs : ConfigSchema) (sc : GConfSchema),
      gconf_schema_from_corba_schema env cs = Outcome.returns sc →
      (env.g_utf8_validate cs.locale = false → sc.locale = none) ∧
      (env.g_utf8_validate cs.short_desc = false → sc.short_desc = none) ∧
      (env.g_utf8_validate cs.long_desc = false → sc.long_desc = none) ∧
      (env.g_utf8_validate cs.owner = false → sc.owner = none) ∧
      (env.g_utf8_validate cs.locale = true → cs.locale ≠ [] →
        sc.locale = some cs.locale) ∧
      (env.g_utf8_validate cs.short_desc = true → cs.short_desc ≠ [] →
        sc.short_desc = some cs.short_desc) ∧
      (env.g_utf8_validate cs.long_desc = true → cs.long_desc ≠ [] →
        sc.long_desc = some cs.long_desc) ∧
      (env.g_utf8_validate cs.owner = true → cs.owner ≠ [] →
        sc.owner = some cs.owner) ∧
      (cs.locale = [] → sc.locale = none) ∧
      (cs.short_desc = [] → sc.short_desc = none) ∧
      (cs.long_desc = [] → sc.long_desc = none) ∧
      (cs.owner = [] → sc.owner = none)) := by
  refine ⟨?_, ?_, gconf_schema_from_corba_schema_returns env, ?_⟩
  · intro s h
    simp [gconf_value_from_corba_value, h]
  · intro s h
    simp [gconf_value_from_corba_value, h]
  · intro cs sc h
    obtain ⟨h1, h2, h3, h4, _⟩ := gconf_schema_from_corba_schema_strings env cs sc h
    rw [h1, h2, h3, h4]
    have hbad : ∀ x : CString, env.g_utf8_validate x = false → schema_string env x = none := by
      intro x hx
      simp [schema_string, hx]
    have hgood : ∀ x : CString, env.g_utf8_validate x = true → x ≠ [] →
        schema_string env x = some x := by
      intro x hx hne
      simp [schema_string, hx, hne]
    have hempty : ∀ x : CString, x = [] → schema_string env x = none := by
      intro x hx
      simp [schema_string, hx]
    exact ⟨hbad _, hbad _, hbad _, hbad _, hgood _, hgood _, hgood _, hgood _,
      hempty _, hempty _, hempty _, hempty _⟩

/-- Witness of claim C24 with the sample check, which takes 7-bit characters as valid:
the string of the one character 233 is dropped; in a schema whose locale holds that
character and whose owner is `gnome`, the locale is left unset and the owner is set. -/
theorem invalid_utf8_is_dropped_witness :
    gconf_value_from_corba_value sample_codec_env (ConfigValue.StringVal [Char.ofNat 233])
      = Outcome.returns (GConfValue.STRING none) ∧
    gconf_schema_from_corba_schema sample_codec_env
        ⟨ConfigValueType.IntVal, ConfigValueType.InvalidVal, ConfigValueType.InvalidVal,
          ConfigValueType.InvalidVal, [Char.ofNat 233], [], [], "gnome".toList, []⟩
      = Outcome.returns
          (GConfSchema.mk GConfValueType.GCONF_VALUE_INT GConfValueType.GCONF_VALUE_INVALID
            GConfValueType.GCONF_VALUE_INVALID GConfValueType.GCONF_VALUE_INVALID
            none none none (some "gnome".toList) GConfValue.NULL) :=
  ⟨(invalid_utf8_is_dropped sample_codec_env).1 _ (by decide), rfl⟩

/-- The claim C24 as stated fails for an empty field: the empty string is valid UTF-8,
and a wire schema whose owner is the empty string and whose locale is `C` is decoded to a
schema with the locale `C` and without an owner. -/
theorem valid_empty_field_left_unset :
    sample_codec_env.g_utf8_validate [] = true ∧
    gconf_schema_from_corba_schema sample_codec_env
        ⟨ConfigValueType.IntVal, ConfigValueType.InvalidVal, ConfigValueType.InvalidVal,
          ConfigValueType.InvalidVal, "C".toList, [], [], [], []⟩
      = Outcome.returns
          (GConfSchema.mk GConfValueType.GCONF_VALUE_INT GConfValueType.GCONF_VALUE_INVALID
            GConfValueType.GCONF_VALUE_INVALID GConfValueType.GCONF_VALUE_INVALID
            (some "C".toList) none none none GConfValue.NULL) :=
  ⟨rfl, rfl⟩

/-! ## The absent value -/

/-- Claim C25: decoding the wire value tagged `InvalidVal` returns `NULL`, the absent
value, and not a failure; encoding the absent value gives the wire value tagged
`InvalidVal`; so the absent value comes back from the round trip, and it is the
decoding of no other declared wire value. -/
theorem invalid_is_absent (env : CodecEnv) :
    gconf_value_from_corba_value env ConfigValue.InvalidVal
      = Outcome.returns GConfValue.NULL ∧
    gconf_fill_corba_value_from_gconf_value env GConfValue.NULL = ConfigValue.InvalidVal ∧
    gconf_value_from_corba_value env
        (gconf_fill_corba_value_from_gconf_value env GConfValue.NULL)
      = Outcome.returns GConfValue.NULL ∧
    (∀ v : ConfigValue,
      gconf_value_from_corba_value env v = Outcome.returns GConfValue.NULL →
        v = ConfigValue.InvalidVal ∨ ∃ d, v = ConfigValue.out_of_range d) := by
  refine ⟨by simp [gconf_value_from_corba_value],
    by simp [gconf_fill_corba_value_from_gconf_value],
    by simp [gconf_fill_corba_value_from_gconf_value, gconf_value_from_corba_value], ?_⟩
  intro v h
  match v, h with
  | .InvalidVal, _ => exact Or.inl rfl
  | .out_of_range d, _ => exact Or.inr ⟨d, rfl⟩
  | .IntVal _, h => simp [gconf_value_from_corba_value] at h
  | .StringVal _, h => simp [gconf_value_from_corba_value] at h
  | .FloatVal _, h => simp [gconf_value_from_corba_value] at h
  | .BoolVal _, h => simp [gconf_value_from_corba_value] at h
  | .SchemaVal cs, h =>
    simp only [gconf_value_from_corba_value] at h
    cases hs : gconf_schema_from_corba_schema env cs <;> simp [hs] at h
  | .ListVal t seq, h =>
    simp only [gconf_value_from_corba_value] at h
    split at h
    · cases hl : list_from_corba_loop env (list_type_from_corba t) seq [] <;> simp [hl] at h
    · simp at h
  | .PairVal [], h => simp [gconf_value_from_corba_value] at h
  | .PairVal [_], h => simp [gconf_value_from_corba_value] at h
  | .PairVal [a, b], h =>
    simp only [gconf_value_from_corba_value] at h
    cases ha : gconf_value_from_corba_value env a with
    | aborts => simp [ha] at h
    | returns x =>
      cases hb : gconf_value_from_corba_value env b <;> simp [ha, hb] at h
  | .PairVal (_ :: _ :: _ :: _), h => simp [gconf_value_from_corba_value] at h

/-- Witness of claim C25 with the sample codec: the decoding of `InvalidVal`. -/
theorem invalid_is_absent_witness :
    gconf_value_from_corba_value sample_codec_env ConfigValue.InvalidVal
      = Outcome.returns GConfValue.NULL ∧
    (ConfigValue.InvalidVal = ConfigValue.InvalidVal ∨
      ∃ d, ConfigValue.InvalidVal = ConfigValue.out_of_range d) :=
  ⟨(invalid_is_absent sample_codec_env).1,
   (invalid_is_absent sample_codec_env).2.2.2 _ (invalid_is_absent sample_codec_env).1⟩

/-! ## Replay: the last record for a key decides -/

/-- What a table update by a record does to membership: an ADD puts the key in, a REMOVE
takes it out, other keys stay. -/
theorem mem_apply_record {K : Type} (eq : K → K → Bool)
    (heq : ∀ a b, eq a b = true ↔ a = b) (m : GHashTable K) (add : Bool) (k x : K) :
    x ∈ apply_record eq m (add, k) ↔ (x = k ∧ add = true) ∨ (x ≠ k ∧ x ∈ m) := by
  unfold apply_record
  simp only
  cases hl : g_hash_table_lookup eq m k with
  | some old =>
    have hk : k ∈ m := ((lookup_eq_some_iff eq heq m k old).1 hl).2
    cases add
    · simp only [Bool.false_eq_true, if_false, and_false, false_or]
      rw [mem_remove_iff eq heq]
      tauto
    · simp only [if_true, and_true]
      by_cases hx : x = k
      · subst hx; simp [hk]
      · simp [hx]
  | none =>
    have hk : k ∉ m := (lookup_eq_none_iff eq heq m k).1 hl
    cases add
    · simp only [Bool.false_eq_true, if_false, and_false, false_or]
      by_cases hx : x = k
      · subst hx; simp [hk]
      · simp [hx]
    · simp only [if_true, and_true]
      rw [mem_insert_iff eq heq]
      by_cases hx : x = k
      · subst hx; simp
      · simp [hx]

/-- The last record for a key in a sequence that starts with the record `r`. -/
theorem last_record_is_add_cons {K : Type} [DecidableEq K] (r : Bool × K)
    (rest : List (Bool × K)) (k : K) :
    last_record_is_add (r :: rest) k
      = if (rest.filter (fun r => r.2 = k)) = [] then (decide (r.2 = k) && r.1)
        else last_record_is_add rest k := by
  unfold last_record_is_add
  by_cases hr : r.2 = k
  · simp only [List.filter_cons, hr, decide_True, if_true, Bool.true_and]
    cases hf : rest.filter (fun r => decide (r.2 = k)) with
    | nil => simp
    | cons a l => simp [List.getLast?_cons_cons]
  · simp only [List.filter_cons, hr, decide_False, Bool.false_eq_true, if_false,
      Bool.false_and]
    cases hf : rest.filter (fun r => decide (r.2 = k)) with
    | nil => simp
    | cons a l => simp

/-- Membership after a run of table updates: the last record for the key decides; a key
without a record is in the table when it was before. -/
theorem mem_foldl_records {K : Type} [DecidableEq K] (step : GHashTable K → Bool × K → GHashTable K)
    (hstep : ∀ m r x, x ∈ step m r ↔ (x = r.2 ∧ r.1 = true) ∨ (x ≠ r.2 ∧ x ∈ m))
    (records : List (Bool × K)) (m : GHashTable K) (x : K) :
    x ∈ records.foldl step m ↔
      last_record_is_add records x = true ∨
        (records.filter (fun r => r.2 = x) = [] ∧ x ∈ m) := by
  induction records generalizing m with
  | nil => simp [last_record_is_add]
  | cons r rest ih =>
    rw [List.foldl_cons, ih, last_record_is_add_cons, hstep]
    by_cases hf : rest.filter (fun r => decide (r.2 = x)) = []
    · have hl : last_record_is_add rest x = false := by
        simp [last_record_is_add, hf]
      by_cases hr : r.2 = x
      · subst hr
        simp [hf, hl, List.filter_cons]
      · have hx : x ≠ r.2 := fun e => hr e.symm
        simp [hf, hl, hr, hx, List.filter_cons]
    · by_cases hr : r.2 = x
      · subst hr
        simp [hf, List.filter_cons]
      · have hx : x ≠ r.2 := fun e => hr e.symm
        simp [hf, hr, hx, List.filter_cons]

/-- The table after `parse_listener_entry` of a line that scans as a record. -/
theorem parse_listener_entry_record (m : GHashTable ListenerLogEntry) (l : CString)
    (add : Bool) (k : ListenerLogEntry)
    (h : scan_listener_entry l = Scanned.record add k) :
    (parse_listener_entry m l).2 = apply_record listener_logentry_equal m (add, k) := by
  simp only [parse_listener_entry, h, apply_record]
  cases g_hash_table_lookup listener_logentry_equal m k <;> cases add <;> rfl

/-- The table after `parse_client_entry` of a line that scans as a record. -/
theorem parse_client_entry_record (m : GHashTable CString) (l : CString)
    (add : Bool) (k : CString) (h : scan_client_entry l = Scanned.record add k) :
    (parse_client_entry m l).2 = apply_record g_str_equal m (add, k) := by
  simp only [parse_client_entry, h, apply_record]
  cases g_hash_table_lookup g_str_equal m k <;> cases add <;> rfl

/-- Replaying listener lines that scan as the given records is the run of the table
updates of these records. -/
theorem replay_listener_lines_records (lines : List (List Char))
    (records : List (Bool × ListenerLogEntry))
    (h : List.Forall₂ (fun l r => scan_listener_entry l = Scanned.record r.1 r.2)
      lines records) (m : GHashTable ListenerLogEntry) :
    replay_listener_lines m lines
      = records.foldl (apply_record listener_logentry_equal) m := by
  unfold replay_listener_lines
  induction h generalizing m with
  | nil => rfl
  | cons hl _ ih =>
    simp only [List.foldl_cons]
    rw [parse_listener_entry_record m _ _ _ hl]
    exact ih _

/-- Replaying client lines that scan as the given records is the run of the table
updates of these records. -/
theorem replay_client_lines_records (lines : List (List Char))
    (records : List (Bool × CString))
    (h : List.Forall₂ (fun l r => scan_client_entry l = Scanned.record r.1 r.2)
      lines records) (m : GHashTable CString) :
    Corba.replay_client_lines m lines = records.foldl (apply_record g_str_equal) m := by
  unfold Corba.replay_client_lines
  induction h generalizing m with
  | nil => rfl
  | cons hl _ ih =>
    simp only [List.foldl_cons]
    rw [parse_client_entry_record m _ _ _ hl]
    exact ih _

/-- Claim C26: for every sequence of lines that scan as listener records (so with a
non-zero connection id and non-empty fields), parsed in order by `parse_listener_entry`
from the empty map, a key is in the final map if and only if the sequence holds a record
for the key and the last record for the key is an ADD; in particular for the lines that
the daemon writes for any sequence of records with non-zero ids and non-empty fields.
The same holds for `parse_client_entry`, the keys being IORs. -/
theorem replay_keeps_last_added :
    (∀ (lines : List (List Char)) (records : List (Bool × ListenerLogEntry)),
      List.Forall₂ (fun l r => scan_listener_entry l = Scanned.record r.1 r.2)
        lines records →
      ∀ k, k ∈ replay_listener_lines [] lines ↔ last_record_is_add records k = true) ∧
    (∀ records : List (Bool × ListenerLogEntry),
      (∀ r ∈ records, r.2.connection_id ≠ 0 ∧ r.2.connection_id < GUINT_MODULUS ∧
        r.2.address ≠ [] ∧ r.2.location ≠ [] ∧ r.2.ior ≠ []) →
      ∀ k, k ∈ replay_listener_lines []
            (records.map (fun r => Corba.listener_record_text r.1 r.2.connection_id
              r.2.address r.2.location r.2.ior)) ↔
          last_record_is_add records k = true) ∧
    (∀ (lines : List (List Char)) (records : List (Bool × CString)),
      List.Forall₂ (fun l r => scan_client_entry l = Scanned.record r.1 r.2)
        lines records →
      ∀ k, k ∈ Corba.replay_client_lines [] lines ↔ last_record_is_add records k = true) ∧
    (∀ (records : List (Bool × CString)) (k : CString),
      k ∈ Corba.replay_client_lines []
          (records.map (fun r => Corba.client_record_text r.1 r.2)) ↔
        last_record_is_add records k = true) := by
  have hL : ∀ (lines : List (List Char)) (records : List (Bool × ListenerLogEntry)),
      List.Forall₂ (fun l r => scan_listener_entry l = Scanned.record r.1 r.2)
        lines records →
      ∀ k, k ∈ replay_listener_lines [] lines ↔ last_record_is_add records k = true := by
    intro lines records h k
    rw [replay_listener_lines_records lines records h [],
      mem_foldl_records _ (fun m r x =>
        mem_apply_record listener_logentry_equal listener_logentry_equal_iff m r.1 r.2 x)]
    simp
  have hC : ∀ (lines : List (List Char)) (records : List (Bool × CString)),
      List.Forall₂ (fun l r => scan_client_entry l = Scanned.record r.1 r.2)
        lines records →
      ∀ k, k ∈ Corba.replay_client_lines [] lines ↔ last_record_is_add records k = true := by
    intro lines records h k
    rw [replay_client_lines_records lines records h [],
      mem_foldl_records _ (fun m r x =>
        mem_apply_record g_str_equal g_str_equal_iff m r.1 r.2 x)]
    simp
  refine ⟨hL, ?_, hC, ?_⟩
  · intro records hv
    apply hL
    rw [List.forall₂_map_left_iff]
    apply List.forall₂_same.2
    intro r hr
    obtain ⟨h1, h2, h3, h4, h5⟩ := hv r hr
    exact Corba.scan_listener_record_text r.1 r.2.connection_id r.2.address r.2.location
      r.2.ior h1 h2 h3 h4 h5
  · intro records
    apply hC
    rw [List.forall₂_map_left_iff]
    apply List.forall₂_same.2
    intro r _
    exact (Corba.scan_client_record_text r.1 r.2).2

/-- Witness of claim C26: the key of the id 5 is added, removed and added again, the key
of the id 6 is added and removed; the first is in the final map, the second is not. -/
theorem replay_keeps_last_added_witness :
    replay_listener_lines []
        ["ADD 5 \"def\" \"/x\" \"IOR1\"".toList, "ADD 6 \"def\" \"/y\" \"IOR1\"".toList,
         "REMOVE 5 \"def\" \"/x\" \"IOR1\"".toList, "REMOVE 6 \"def\" \"/y\" \"IOR1\"".toList,
         "ADD 5 \"def\" \"/x\" \"IOR1\"".toList]
      = [⟨5, "IOR1".toList, "def".toList, "/x".toList⟩] ∧
    ((⟨5, "IOR1".toList, "def".toList, "/x".toList⟩ : ListenerLogEntry) ∈
      replay_listener_lines []
        ["ADD 5 \"def\" \"/x\" \"IOR1\"".toList, "ADD 6 \"def\" \"/y\" \"IOR1\"".toList,
         "REMOVE 5 \"def\" \"/x\" \"IOR1\"".toList, "REMOVE 6 \"def\" \"/y\" \"IOR1\"".toList,
         "ADD 5 \"def\" \"/x\" \"IOR1\"".toList]) ∧
    ((⟨6, "IOR1".toList, "def".toList, "/y".toList⟩ : ListenerLogEntry) ∉
      replay_listener_lines []
        ["ADD 5 \"def\" \"/x\" \"IOR1\"".toList, "ADD 6 \"def\" \"/y\" \"IOR1\"".toList,
         "REMOVE 5 \"def\" \"/x\" \"IOR1\"".toList, "REMOVE 6 \"def\" \"/y\" \"IOR1\"".toList,
         "ADD 5 \"def\" \"/x\" \"IOR1\"".toList]) := by
  have hF : List.Forall₂ (fun l (r : Bool × ListenerLogEntry) =>
      scan_listener_entry l = Scanned.record r.1 r.2)
      ["ADD 5 \"def\" \"/x\" \"IOR1\"".toList, "ADD 6 \"def\" \"/y\" \"IOR1\"".toList,
       "REMOVE 5 \"def\" \"/x\" \"IOR1\"".toList, "REMOVE 6 \"def\" \"/y\" \"IOR1\"".toList,
       "ADD 5 \"def\" \"/x\" \"IOR1\"".toList]
      [(true, ⟨5, "IOR1".toList, "def".toList, "/x".toList⟩),
       (true, ⟨6, "IOR1".toList, "def".toList, "/y".toList⟩),
       (false, ⟨5, "IOR1".toList, "def".toList, "/x".toList⟩),
       (false, ⟨6, "IOR1".toList, "def".toList, "/y".toList⟩),
       (true, ⟨5, "IOR1".toList, "def".toList, "/x".toList⟩)] := by
    refine List.Forall₂.cons (by decide) (List.Forall₂.cons (by decide)
      (List.Forall₂.cons (by decide) (List.Forall₂.cons (by decide)
        (List.Forall₂.cons (by decide) List.Forall₂.nil))))
  refine ⟨by decide, ?_, ?_⟩
  · exact (replay_keeps_last_added.1 _ _ hF _).2 (by decide)
  · intro h
    exact absurd ((replay_keeps_last_added.1 _ _ hF _).1 h) (by decide)

/-! ## Equality and hash of listener entries -/

/-- A table update by a record keeps a table free of repetitions. -/
theorem nodup_apply_record {K : Type} (eq : K → K → Bool)
    (heq : ∀ a b, eq a b = true ↔ a = b) (m : GHashTable K) (r : Bool × K)
    (h : m.Nodup) : (apply_record eq m r).Nodup := by
  unfold apply_record
  cases hl : g_hash_table_lookup eq m r.2 with
  | some old =>
    simp only
    split
    · exact h
    · exact h.filter _
  | none =>
    have hni := (lookup_eq_none_iff eq heq m r.2).1 hl
    simp only
    split
    · simp only [g_hash_table_insert, hl]
      rw [List.nodup_append]
      refine ⟨h, List.nodup_singleton _, ?_⟩
      intro a ha hb
      rw [List.mem_singleton] at hb
      exact hni (hb ▸ ha)
    · exact h

/-- Embeds `parse_listener_entry` keeps the listener map free of repetitions. -/
theorem parse_listener_entry_nodup (m : GHashTable ListenerLogEntry) (text : CString)
    (h : m.Nodup) : (parse_listener_entry m text).2.Nodup := by
  cases hs : scan_listener_entry text with
  | unhandled => simpa [parse_listener_entry, hs] using h
  | ignored => simpa [parse_listener_entry, hs] using h
  | record add k =>
    rw [parse_listener_entry_record m text add k hs]
    exact nodup_apply_record _ listener_logentry_equal_iff m _ h

/-- The read loop keeps the listener map free of repetitions. -/
theorem read_loop_entries_nodup (f : List Char) (t : ReplayTables) (h : t.entries.Nodup) :
    (read_loop f t).entries.Nodup := by
  induction f, t using read_loop.induct with
  | case1 f t r hr =>
    rw [read_loop, hr]
    exact h
  | case2 f t line rest hr ih =>
    rw [read_loop, hr]
    apply ih
    unfold replay_line
    simp only
    split
    · exact parse_listener_entry_nodup _ _ h
    · exact h

/-- Claim C27: `listener_logentry_equal` holds exactly when the two entries agree on
connection id, IOR, address and location; it is reflexive, symmetric and transitive;
`listener_logentry_hash` (with any `g_str_hash`) gives equal entries the same value; and
the listener map of the replay, which starts empty and is changed by
`parse_listener_entry` only, never holds two equal keys. -/
theorem listener_logentry_equal_hash (g_str_hash : CString → Nat) :
    (∀ a b : ListenerLogEntry,
      listener_logentry_equal a b = true ↔
        (a.connection_id = b.connection_id ∧ a.ior = b.ior ∧ a.address = b.address ∧
          a.location = b.location)) ∧
    (∀ a : ListenerLogEntry, listener_logentry_equal a a = true) ∧
    (∀ a b : ListenerLogEntry,
      listener_logentry_equal a b = true → listener_logentry_equal b a = true) ∧
    (∀ a b c : ListenerLogEntry,
      listener_logentry_equal a b = true → listener_logentry_equal b c = true →
      listener_logentry_equal a c = true) ∧
    (∀ a b : ListenerLogEntry,
      listener_logentry_equal a b = true →
      listener_logentry_hash g_str_hash a = listener_logentry_hash g_str_hash b) ∧
    (∀ (entries : GHashTable ListenerLogEntry) (text : CString),
      entries.Nodup → (parse_listener_entry entries text).2.Nodup) ∧
    (∀ f : List Char, (read_loop f ⟨[], []⟩).entries.Nodup) ∧
    (∀ (f : List Char) (a b : ListenerLogEntry) (i j : Nat),
      (read_loop f ⟨[], []⟩).entries[i]? = some a →
      (read_loop f ⟨[], []⟩).entries[j]? = some b →
      listener_logentry_equal a b = true → i = j) := by
  have hiff : ∀ a b : ListenerLogEntry,
      listener_logentry_equal a b = true ↔
        (a.connection_id = b.connection_id ∧ a.ior = b.ior ∧ a.address = b.address ∧
          a.location = b.location) := by
    intro a b
    simp only [listener_logentry_equal, Bool.and_eq_true, beq_iff_eq]
    tauto
  have hnd : ∀ f : List Char, (read_loop f ⟨[], []⟩).entries.Nodup :=
    fun f => read_loop_entries_nodup f ⟨[], []⟩ List.nodup_nil
  refine ⟨hiff, ?_, ?_, ?_, ?_, parse_listener_entry_nodup, hnd, ?_⟩
  · intro a
    exact (listener_logentry_equal_iff a a).2 rfl
  · intro a b h
    exact (listener_logentry_equal_iff b a).2 ((listener_logentry_equal_iff a b).1 h).symm
  · intro a b c h1 h2
    exact (listener_logentry_equal_iff a c).2
      (((listener_logentry_equal_iff a b).1 h1).trans ((listener_logentry_equal_iff b c).1 h2))
  · intro a b h
    rw [(listener_logentry_equal_iff a b).1 h]
  · intro f a b i j ha hb hab
    have e := (listener_logentry_equal_iff a b).1 hab
    subst e
    obtain ⟨hi, hai⟩ := List.getElem?_eq_some_iff.1 ha
    obtain ⟨hj, hbj⟩ := List.getElem?_eq_some_iff.1 hb
    exact (List.Nodup.getElem_inj_iff (hnd f)).1 (hai.trans hbj.symm)

/-- Witness of claim C27, the hash of strings being their length: two entries with the
same four fields are equal and have the same hash value; entries that differ in the
location are not equal. -/
theorem listener_logentry_equal_hash_witness :
    listener_logentry_equal ⟨5, "IOR1".toList, "def".toList, "/x".toList⟩
      ⟨5, "IOR1".toList, "def".toList, "/x".toList⟩ = true ∧
    listener_logentry_hash (fun s => s.length) ⟨5, "IOR1".toList, "def".toList, "/x".toList⟩
      = listener_logentry_hash (fun s => s.length)
          ⟨5, "IOR1".toList, "def".toList, "/x".toList⟩ ∧
    listener_logentry_equal ⟨5, "IOR1".toList, "def".toList, "/x".toList⟩
      ⟨5, "IOR1".toList, "def".toList, "/y".toList⟩ = false :=
  ⟨(listener_logentry_equal_hash (fun s => s.length)).2.1 _,
   (listener_logentry_equal_hash (fun s => s.length)).2.2.2.2.1 _ _
      ((listener_logentry_equal_hash (fun s => s.length)).2.1 _),
   by decide⟩

/-! ## Conversion of type tags -/

/-- Claim C28: `corba_type_from_gconf_type` and `gconf_type_from_corba_type` are inverse to
each other on the eight value types. Going to the wire and back gives every
`GConfValueType` again; coming from the wire and going back gives every declared
`ConfigValueType` again, and only an undeclared tag has no `GConfValueType`; both
functions are injective, and every declared tag is the tag of a value type. Hence, for
every schema, `gconf_schema_from_corba_schema` applied to the result of
`gconf_fill_corba_schema_from_gconf_schema` returns a schema with the same own type, list
type, car type and cdr type. -/
theorem type_conversions_inverse :
    (∀ t : GConfValueType,
      gconf_type_from_corba_type (corba_type_from_gconf_type t) = Outcome.returns t) ∧
    (∀ (c : ConfigValueType) (t : GConfValueType),
      gconf_type_from_corba_type c = Outcome.returns t →
      corba_type_from_gconf_type t = c) ∧
    (∀ c : ConfigValueType,
      c.declared = true → ∃ t, gconf_type_from_corba_type c = Outcome.returns t) ∧
    (∀ t1 t2 : GConfValueType,
      corba_type_from_gconf_type t1 = corba_type_from_gconf_type t2 → t1 = t2) ∧
    (∀ (c1 c2 : ConfigValueType) (t : GConfValueType),
      gconf_type_from_corba_type c1 = Outcome.returns t →
      gconf_type_from_corba_type c2 = Outcome.returns t → c1 = c2) ∧
    (∀ c : ConfigValueType,
      c.declared = true ↔ ∃ t, corba_type_from_gconf_type t = c) ∧
    (∀ (env : CodecEnv) (sc : GConfSchema),
      ∃ sc2,
        gconf_schema_from_corba_schema env (gconf_fill_corba_schema_from_gconf_schema env sc)
          = Outcome.returns sc2 ∧
        sc2.type = sc.type ∧ sc2.list_type = sc.list_type ∧
        sc2.car_type = sc.car_type ∧ sc2.cdr_type = sc.cdr_type) := by
  have hback : ∀ (c : ConfigValueType) (t : GConfValueType),
      gconf_type_from_corba_type c = Outcome.returns t →
      corba_type_from_gconf_type t = c := by
    intro c t h
    cases c <;> simp [gconf_type_from_corba_type] at h <;> subst h <;> rfl
  refine ⟨gconf_type_roundtrip, hback, ?_, ?_, ?_, ?_, ?_⟩
  · intro c h
    cases c <;> simp [gconf_type_from_corba_type, ConfigValueType.declared] at h ⊢
  · intro t1 t2 h
    have h1 := gconf_type_roundtrip t1
    rw [h, gconf_type_roundtrip t2] at h1
    exact (Outcome.returns.inj h1).symm
  · intro c1 c2 t h1 h2
    rw [← hback c1 t h1, ← hback c2 t h2]
  · intro c
    constructor
    · intro h
      cases c with
      | InvalidVal => exact ⟨.GCONF_VALUE_INVALID, rfl⟩
      | IntVal => exact ⟨.GCONF_VALUE_INT, rfl⟩
      | StringVal => exact ⟨.GCONF_VALUE_STRING, rfl⟩
      | FloatVal => exact ⟨.GCONF_VALUE_FLOAT, rfl⟩
      | BoolVal => exact ⟨.GCONF_VALUE_BOOL, rfl⟩
      | SchemaVal => exact ⟨.GCONF_VALUE_SCHEMA, rfl⟩
      | ListVal => exact ⟨.GCONF_VALUE_LIST, rfl⟩
      | PairVal => exact ⟨.GCONF_VALUE_PAIR, rfl⟩
      | out_of_range raw => simp [ConfigValueType.declared] at h
    · rintro ⟨t, rfl⟩
      cases t <;> rfl
  · intro env sc
    cases sc with
    | mk t lt ct dt loc sd ld ow dv =>
      refine ⟨GConfSchema.mk t lt ct dt
        (schema_string env (CORBA_string_dup loc)) (schema_string env (CORBA_string_dup sd))
        (schema_string env (CORBA_string_dup ld)) (schema_string env (CORBA_string_dup ow))
        (env.gconf_value_decode
          (if dv.is_null then [] else env.gconf_value_encode dv)), ?_, rfl, rfl, rfl, rfl⟩
      simp [gconf_schema_from_corba_schema, gconf_fill_corba_schema_from_gconf_schema,
        gconf_type_roundtrip, GConfSchema.type, GConfSchema.list_type, GConfSchema.car_type,
        GConfSchema.cdr_type, GConfSchema.locale, GConfSchema.short_desc,
        GConfSchema.long_desc, GConfSchema.owner, GConfSchema.default_value]

/-- Witness of claim C28: the tag `ListVal` comes from the wire as `GCONF_VALUE_LIST` and
goes back as `ListVal`. -/
theorem type_conversions_inverse_witness :
    gconf_type_from_corba_type ConfigValueType.ListVal
      = Outcome.returns GConfValueType.GCONF_VALUE_LIST ∧
    corba_type_from_gconf_type GConfValueType.GCONF_VALUE_LIST = ConfigValueType.ListVal :=
  ⟨rfl, type_conversions_inverse.2.1 ConfigValueType.ListVal _ rfl⟩

/-! ## Translation of errors: the mapping of codes -/

/-- The two `switch` statements on the thirteen handled codes. -/
theorem handled_codes_switch :
    ∀ x ∈ handled_codes,
      corba_err_no x.1 = some x.2.1 ∧ DBus.dbus_error_name x.1 = some x.2.2 := by
  decide

/-- A code with an exception is one of the thirteen handled codes. -/
theorem corba_err_no_some (code : GConfError) (e : ConfigErrorType)
    (h : corba_err_no code = some e) :
    ∃ n, (code, e, n) ∈ handled_codes := by
  cases code <;> simp [corba_err_no] at h <;> subst h <;> simp [handled_codes]

/-- A code with an error name is one of the thirteen handled codes. -/
theorem dbus_error_name_some (code : GConfError) (n : DBus.ErrorName)
    (h : DBus.dbus_error_name code = some n) :
    ∃ e, (code, e, n) ∈ handled_codes := by
  cases code <;> simp [DBus.dbus_error_name] at h <;> subst h <;> simp [handled_codes]

/-- In the table of the handled codes no exception code and no error name stands twice. -/
theorem handled_codes_injective :
    ∀ x ∈ handled_codes, ∀ y ∈ handled_codes,
      (x.2.1 = y.2.1 → x.1 = y.1) ∧ (x.2.2 = y.2.2 → x.1 = y.1) := by
  decide

/-- Claim C29: `gconf_corba_set_exception` returns `FALSE` and sets no exception when the
error pointer is `NULL` or no error is set. For an error with one of the thirteen handled
codes (and a message) it sets a `ConfigException` with the `err_no` of the same name and
the message of the error, clears the error and returns `TRUE`. The mapping of codes is
injective. `gconf_dbus_set_exception` returns `FALSE` without a reply in the first two
cases, has an error name for exactly the same thirteen codes, sends for each the error
reply of the same name with the message and returns `TRUE`, and maps different codes to
different names. -/
theorem set_exception_mapping :
    gconf_corba_set_exception none = Outcome.returns ⟨false, none, none⟩ ∧
    gconf_corba_set_exception (some none) = Outcome.returns ⟨false, none, none⟩ ∧
    (∀ x ∈ handled_codes, ∀ message : CString,
      gconf_corba_set_exception (some (some ⟨x.1, some message⟩))
        = Outcome.returns ⟨true, some ⟨x.2.1, message⟩, none⟩) ∧
    handled_codes.length = 13 ∧
    (∀ (c1 c2 : GConfError) (e : ConfigErrorType),
      corba_err_no c1 = some e → corba_err_no c2 = some e → c1 = c2) ∧
    DBus.gconf_dbus_set_exception none = Outcome.returns (false, none) ∧
    DBus.gconf_dbus_set_exception (some none) = Outcome.returns (false, none) ∧
    (∀ code : GConfError,
      (DBus.dbus_error_name code).isSome = (corba_err_no code).isSome ∧
      ((corba_err_no code).isSome = true ↔ code ∈ handled_codes.map (fun x => x.1))) ∧
    (∀ x ∈ handled_codes, ∀ message : Option CString,
      DBus.gconf_dbus_set_exception (some (some ⟨x.1, message⟩))
        = Outcome.returns (true, some ⟨x.2.2, message⟩)) ∧
    (∀ (c1 c2 : GConfError) (n : DBus.ErrorName),
      DBus.dbus_error_name c1 = some n → DBus.dbus_error_name c2 = some n → c1 = c2) := by
  have hne : ∀ x ∈ handled_codes, x.1 ≠ GConfError.GCONF_ERROR_SUCCESS := by decide
  refine ⟨rfl, rfl, ?_, rfl, ?_, rfl, rfl, ?_, ?_, ?_⟩
  · intro x hx message
    obtain ⟨h1, _⟩ := handled_codes_switch x hx
    simp [gconf_corba_set_exception, hne x hx, h1, CORBA_string_dup]
  · intro c1 c2 e h1 h2
    obtain ⟨n1, m1⟩ := corba_err_no_some c1 e h1
    obtain ⟨n2, m2⟩ := corba_err_no_some c2 e h2
    exact (handled_codes_injective _ m1 _ m2).1 rfl
  · intro code
    constructor
    · cases code <;> rfl
    · cases code <;> simp [corba_err_no, handled_codes]
  · intro x hx message
    obtain ⟨_, h2⟩ := handled_codes_switch x hx
    simp [DBus.gconf_dbus_set_exception, hne x hx, h2]
  · intro c1 c2 n h1 h2
    obtain ⟨e1, m1⟩ := dbus_error_name_some c1 n h1
    obtain ⟨e2, m2⟩ := dbus_error_name_some c2 n h2
    exact (handled_codes_injective _ m1 _ m2).2 rfl

/-- Witness of claim C29: the error `GCONF_ERROR_IS_DIR` with the message `is a dir`. -/
theorem set_exception_mapping_witness :
    gconf_corba_set_exception
        (some (some ⟨GConfError.GCONF_ERROR_IS_DIR, some "is a dir".toList⟩))
      = Outcome.returns ⟨true, some ⟨ConfigErrorType.ConfigIsDir, "is a dir".toList⟩, none⟩ ∧
    DBus.gconf_dbus_set_exception
        (some (some ⟨GConfError.GCONF_ERROR_IS_DIR, some "is a dir".toList⟩))
      = Outcome.returns
          (true, some ⟨DBus.ErrorName.GCONF_DBUS_ERROR_IS_DIR, some "is a dir".toList⟩) :=
  ⟨set_exception_mapping.2.2.1
      (GConfError.GCONF_ERROR_IS_DIR, ConfigErrorType.ConfigIsDir,
        DBus.ErrorName.GCONF_DBUS_ERROR_IS_DIR) (by decide) _,
   set_exception_mapping.2.2.2.2.2.2.2.2.1
      (GConfError.GCONF_ERROR_IS_DIR, ConfigErrorType.ConfigIsDir,
        DBus.ErrorName.GCONF_DBUS_ERROR_IS_DIR) (by decide) _⟩

/-! ## The server object in shutdown -/

namespace Corba

/-- Claim C30: while the daemon is in shutdown, each of the six operations of the server
object (`gconfd_get_default_database`, `gconfd_get_database`, `gconfd_add_client`,
`gconfd_remove_client`, `gconfd_ping`, `gconfd_shutdown`) sets the `ConfigException` with
`err_no` `ConfigInShutdown`, returns the nil object or 0, and leaves the whole state as
it is: client table, log, databases and the quit request. When the daemon is not in
shutdown, `gconfd_corba_check_in_shutdown` returns `FALSE` and sets no exception. -/
theorem in_shutdown_operations (env : Env) (obtain_error : Option GError) (pid : Nat)
    (srv : Server) (client : ConfigListener) (address : CString) :
    (srv.in_shutdown = true →
      gconfd_corba_check_in_shutdown srv
        = (true, some ⟨ConfigErrorType.ConfigInShutdown,
            "config server is currently shutting down".toList⟩) ∧
      gconfd_get_default_database srv
        = (none, some ⟨ConfigErrorType.ConfigInShutdown,
            "config server is currently shutting down".toList⟩) ∧
      gconfd_get_database env obtain_error srv address
        = Outcome.returns (none, some ⟨ConfigErrorType.ConfigInShutdown,
            "config server is currently shutting down".toList⟩, srv) ∧
      gconfd_add_client env srv client
        = (some ⟨ConfigErrorType.ConfigInShutdown,
            "config server is currently shutting down".toList⟩, srv) ∧
      gconfd_remove_client env srv client
        = (some ⟨ConfigErrorType.ConfigInShutdown,
            "config server is currently shutting down".toList⟩, srv) ∧
      gconfd_ping pid srv
        = (0, some ⟨ConfigErrorType.ConfigInShutdown,
            "config server is currently shutting down".toList⟩) ∧
      gconfd_shutdown srv
        = (some ⟨ConfigErrorType.ConfigInShutdown,
            "config server is currently shutting down".toList⟩, srv)) ∧
    (srv.in_shutdown = false → gconfd_corba_check_in_shutdown srv = (false, none)) := by
  constructor
  · intro h
    have hc : gconfd_corba_check_in_shutdown srv
        = (true, some ⟨ConfigErrorType.ConfigInShutdown,
            "config server is currently shutting down".toList⟩) := by
      simp [gconfd_corba_check_in_shutdown, h, CORBA_string_dup]
    refine ⟨hc, ?_, ?_, ?_, ?_, ?_, ?_⟩
    · simp only [gconfd_get_default_database, hc]
    · simp only [gconfd_get_database, hc]
    · simp only [gconfd_add_client, hc]
    · simp only [gconfd_remove_client, hc]
    · simp only [gconfd_ping, hc]
    · simp only [gconfd_shutdown, hc]
  · intro h
    simp [gconfd_corba_check_in_shutdown, h]

/-- Witness of claim C30 in the sample world: a daemon in shutdown with the client 1 in
its table is asked to add the client 3 and to shut down; outside shutdown the same
requests add the client and ask for the quit. -/
theorem in_shutdown_operations_witness :
    gconfd_add_client sample_env
        ⟨⟨some [⟨1⟩], none, ⟨some "CLIENTADD \"IOR1\"\n".toList, none, none⟩, none, [],
          false⟩, true, false⟩ ⟨3⟩
      = (some ⟨ConfigErrorType.ConfigInShutdown,
          "config server is currently shutting down".toList⟩,
        ⟨⟨some [⟨1⟩], none, ⟨some "CLIENTADD \"IOR1\"\n".toList, none, none⟩, none, [],
          false⟩, true, false⟩) ∧
    gconfd_corba_check_in_shutdown
        ⟨⟨some [⟨1⟩], none, ⟨some "CLIENTADD \"IOR1\"\n".toList, none, none⟩, none, [],
          false⟩, false, false⟩
      = (false, none) ∧
    (gconfd_add_client sample_env
        ⟨⟨some [⟨1⟩], none, ⟨some "CLIENTADD \"IOR1\"\n".toList, none, none⟩, none, [],
          false⟩, false, false⟩ ⟨3⟩).2.daemon.client_table = some [⟨1⟩, ⟨3⟩] ∧
    (gconfd_shutdown
        ⟨⟨some [⟨1⟩], none, ⟨some "CLIENTADD \"IOR1\"\n".toList, none, none⟩, none, [],
          false⟩, false, false⟩).2.quit_requested = true :=
  ⟨((in_shutdown_operations sample_env none 1
      ⟨⟨some [⟨1⟩], none, ⟨some "CLIENTADD \"IOR1\"\n".toList, none, none⟩, none, [],
        false⟩, true, false⟩ ⟨3⟩ []).1 rfl).2.2.2.1,
   (in_shutdown_operations sample_env none 1
      ⟨⟨some [⟨1⟩], none, ⟨some "CLIENTADD \"IOR1\"\n".toList, none, none⟩, none, [],
        false⟩, false, false⟩ ⟨3⟩ []).2 rfl,
   by decide, by decide⟩

end Corba

/-! ## Replaying twice: the registries -/

namespace Corba

end Corba

end GConf
